import Mathlib

/-!
Assessment pipeline: response parsing, score aggregation, model fallback, segmentation,
result map and pagination.

A shallow embedding of the assessment service (`llm_assessment_service.go`), of the
segment reconstruction and the result map of the transcription handler
(`soniox_handler.go`), and of the pagination of the list handlers
(`assessment_handler.go`).

Modelling conventions

* Go `string` is `String`; positions inside a string are counted in characters. The only
  needles searched for by position are the one-byte characters `[` and `]`, so the slice cut
  out of the text is the same as with byte offsets.
* Go `float64` is `F64`, the IEEE 754 binary64 format with its fields; every operation is
  rounded on its own to nearest, ties to even, with overflow to an infinity and NaN as in
  the standard. `toRat` is the exact value of a finite `float64`; accuracy statements
  compare it with the exact value of the same expression. Go `int` is `Int`.
* Go `map[K]V` is a lookup function `K → Option V`; the two rubric maps of a criterion,
  whose size the prompt builder asks for, are the lists of their key/value pairs.
* `(T, error)` results are `Except String T`; the service receiver is passed and returned
  explicitly where the method writes to it.
* Library decoders (`json.Unmarshal`, `json.Decoder`) and the HTTP transport are parameters.
-/

namespace Assessment

/-! ## IEEE 754 binary64 (`float64`) -/

/-- A Go `float64`: the sign bit, the 11-bit biased exponent and the 52-bit fraction of the
IEEE 754 binary64 format. -/
structure F64 where
  sign : Bool
  expo : Fin 2048
  frac : Fin 4503599627370496
deriving DecidableEq

namespace F64

/-- A quiet NaN. -/
def nan : F64 := ⟨false, 2047, 2251799813685248⟩

/-- The infinity of the given sign. -/
def inf (neg : Bool) : F64 := ⟨neg, 2047, 0⟩

/-- The zero of the given sign. -/
def zero (neg : Bool) : F64 := ⟨neg, 0, 0⟩

def isNaN (x : F64) : Bool := decide (x.expo.val = 2047) && decide (x.frac.val ≠ 0)

def isInf (x : F64) : Bool := decide (x.expo.val = 2047) && decide (x.frac.val = 0)

def isFinite (x : F64) : Bool := decide (x.expo.val < 2047)

/-- The integer significand of a finite value: the fraction, with the hidden bit when the
value is normal. -/
def mant (x : F64) : Nat :=
  if x.expo.val = 0 then x.frac.val else 4503599627370496 + x.frac.val

/-- The exponent of the unit in the last place of a finite value. -/
def ex (x : F64) : Int :=
  (if x.expo.val = 0 then 1 else (x.expo.val : Int)) - 1075

/-- The magnitude of a finite `float64`: mant × 2^ex. -/
def mag (x : F64) : ℚ := (x.mant : ℚ) * (2 : ℚ) ^ x.ex

/-- The value of a finite `float64`. -/
def toRat (x : F64) : ℚ := if x.sign then -x.mag else x.mag

/-- Position of the leading binary digit of `n`, searched with `fuel` halvings. -/
def ilog2Aux : Nat → Nat → Nat
  | 0, _ => 0
  | fuel + 1, n => if n < 2 then 0 else ilog2Aux fuel (n / 2) + 1

/-- The integer part of the binary logarithm of `n` (0 for `n = 0`). -/
def ilog2 (n : Nat) : Nat := ilog2Aux n n

/-- The `float64` with significand `q` and unit exponent `k`, for `q ≤ 2^53`, and
`2^52 ≤ q` unless `k = -1074`; infinity when the exponent is out of range. -/
def encode (neg : Bool) (q : Nat) (k : Int) : F64 :=
  if q < 4503599627370496 then
    ⟨neg, 0, ⟨q % 4503599627370496, Nat.mod_lt _ (by decide)⟩⟩
  else
    let q1 := if q = 9007199254740992 then 4503599627370496 else q
    let k1 := if q = 9007199254740992 then k + 1 else k
    if 2047 ≤ k1 + 1075 then inf neg
    else ⟨neg, ⟨(k1 + 1075).toNat % 2048, Nat.mod_lt _ (by decide)⟩,
          ⟨(q1 - 4503599627370496) % 4503599627370496, Nat.mod_lt _ (by decide)⟩⟩

/-- The integer part of the binary logarithm of the rational (n / d) × 2^e, for positive
`n` and `d`. -/
def lgOf (n d : Nat) (e : Int) : Int :=
  let l : Int := (ilog2 n : Int) - (ilog2 d : Int)
  let ge : Bool :=
    if 0 ≤ l then decide (d <<< l.toNat ≤ n) else decide (d ≤ n <<< (-l).toNat)
  (if ge then l else l - 1) + e

/-- The exponent of the unit in the last place of the values whose binary logarithm has
the integer part `lg`: 52 places below the leading digit, and not below the exponent of
the subnormal values. -/
def ulpExp (lg : Int) : Int :=
  if lg - 52 < -1074 then -1074 else lg - 52

/-- The quotient num / den rounded to the nearest integer, ties to the even one. -/
def rne (num den : Nat) : Nat :=
  let q := num / den
  let r := num % den
  if den < 2 * r ∨ (2 * r = den ∧ q % 2 = 1) then q + 1 else q

/-- Rounding to nearest, ties to even, of the rational (n / d) × 2^e, with the given sign:
the value is written in units of 2^k, `k` the exponent of its unit in the last place, and
the number of units is rounded to an integer. -/
def round (neg : Bool) (n d : Nat) (e : Int) : F64 :=
  if n = 0 ∨ d = 0 then zero neg
  else
    let k : Int := ulpExp (lgOf n d e)
    let sh : Int := e - k
    let num := if 0 ≤ sh then n <<< sh.toNat else n
    let den := if 0 ≤ sh then d else d <<< (-sh).toNat
    encode neg (rne num den) k

/-- The conversion `float64(n)` of an integer. -/
def ofInt (n : Int) : F64 := round (decide (n < 0)) n.natAbs 1 0

/-- The `float64` of the constant n / d. -/
def ofRatio (n d : Nat) : F64 := round false n d 0

/-- The sum `a + b`. -/
def add (a b : F64) : F64 :=
  if a.isNaN || b.isNaN then nan
  else if a.isInf then (if b.isInf && (a.sign != b.sign) then nan else a)
  else if b.isInf then b
  else if a.mant = 0 ∧ b.mant = 0 then zero (a.sign && b.sign)
  else if a.mant = 0 then b
  else if b.mant = 0 then a
  else
    let e : Int := if a.ex ≤ b.ex then a.ex else b.ex
    let x : Int := (if a.sign then -1 else 1) * ((a.mant <<< (a.ex - e).toNat : Nat) : Int)
      + (if b.sign then -1 else 1) * ((b.mant <<< (b.ex - e).toNat : Nat) : Int)
    if x = 0 then zero (a.sign && b.sign)
    else round (decide (x < 0)) x.natAbs 1 e

/-- The product `a * b`. -/
def mul (a b : F64) : F64 :=
  if a.isNaN || b.isNaN then nan
  else if a.isInf || b.isInf then
    (if (a.isFinite && a.mant = 0) || (b.isFinite && b.mant = 0) then nan
     else inf (a.sign != b.sign))
  else round (a.sign != b.sign) (a.mant * b.mant) 1 (a.ex + b.ex)

/-- The quotient `a / b`. -/
def div (a b : F64) : F64 :=
  if a.isNaN || b.isNaN then nan
  else if a.isInf then (if b.isInf then nan else inf (a.sign != b.sign))
  else if b.isInf then zero (a.sign != b.sign)
  else if b.mant = 0 then (if a.mant = 0 then nan else inf (a.sign != b.sign))
  else round (a.sign != b.sign) a.mant b.mant (a.ex - b.ex)

/-- The bit pattern without the sign, signed: an order-preserving key of the values that
are not NaN. -/
def key (x : F64) : Int :=
  (if x.sign then -1 else 1) * ((x.expo.val * 4503599627370496 + x.frac.val : Nat) : Int)

/-- The comparison `a < b`. -/
def lt (a b : F64) : Bool := !a.isNaN && !b.isNaN && decide (a.key < b.key)

/-- The comparison `a > b`. -/
def gt (a b : F64) : Bool := lt b a

end F64

/-! ## Data model (`llm_assessment_service.go`) -/

/-- AssessmentCriteria represents an assessment criterion. -/
structure AssessmentCriteria where
  ID : String
  Name : String
  Category : String
  Description : String
  DetailedBehaviors : String
  Weight : F64
  LevelDescriptors : List (Int × String)
  CaseSpecificExamples : List (Int × String)
  KeyObservables : List String

/-- AssessmentResult represents the result of an assessment (Score: 1-5 scale, 0 for N/A). -/
structure AssessmentResult where
  CriterionID : String
  CriterionName : String
  Score : Int
  Status : String
  Observations : String
  Evidence : String
deriving DecidableEq

/-- AssessmentRequest represents a request for LLM assessment. -/
structure AssessmentRequest where
  ParticipantID : String
  SessionID : String
  Transcript : String
  Criteria : List AssessmentCriteria
  Language : String
  Context : String

/-- AssessmentResponse represents the complete assessment response. -/
structure AssessmentResponse where
  ParticipantID : String
  SessionID : String
  Results : List AssessmentResult
  OverallScore : F64
  Summary : String
deriving DecidableEq

/-- CompetencyScore represents the score for a single competency. -/
structure CompetencyScore where
  Score : Int
  Evidence : List String
  Feedback : String
  LevelJustification : String

/-- ParticipantAssessment represents the assessment for a single participant. -/
structure ParticipantAssessment where
  ParticipantID : String
  ParticipantName : String
  AssignedRole : String
  Scores : String → Option CompetencyScore
  FunctionalCompetencyObs : String → Option String
  RoleSpecificAnalysis : String → Option String
  KeyStrengths : List String
  DevelopmentPriorities : List String
  CaseInsightHandling : String → Option String
  StandoutMoments : List String
  OverallAssessment : String
  GroupContribution : String

/-- LLMAssessmentService handles AI-powered assessment processing. -/
structure LLMAssessmentService where
  geminiAPIKey : String
  anthropicAPIKey : String
  lastUnifiedAssessments : List AssessmentResponse

/-- GetLastUnifiedAssessments retrieves the last unified assessment results. -/
def GetLastUnifiedAssessments (s : LLMAssessmentService) : List AssessmentResponse :=
  s.lastUnifiedAssessments

/-! ## String helpers (Go standard library) -/

/-- The Go `unicode.IsSpace` predicate. -/
def isSpace (c : Char) : Bool :=
  let n := c.toNat
  decide ((9 ≤ n ∧ n ≤ 13) ∨ n = 32 ∨ n = 0x85 ∨ n = 0xA0 ∨ n = 0x1680
    ∨ (0x2000 ≤ n ∧ n ≤ 0x200a) ∨ n = 0x2028 ∨ n = 0x2029 ∨ n = 0x202f
    ∨ n = 0x205f ∨ n = 0x3000)

/-- Worker of `fields`: `cur` is the field being read, most recent character first. -/
def fieldsAux : List Char → List Char → List (List Char)
  | cur, [] => if cur.isEmpty then [] else [cur.reverse]
  | cur, c :: cs =>
    if isSpace c then
      if cur.isEmpty then fieldsAux [] cs else cur.reverse :: fieldsAux [] cs
    else fieldsAux (c :: cur) cs

/-- The Go `strings.Fields`: the maximal runs of non-space characters, in order. -/
def fields (s : String) : List (List Char) :=
  fieldsAux [] s.data

/-- The Go `strings.Index(s, string(c))` for a single character: position of the first
occurrence, or -1. -/
def indexChar (c : Char) : List Char → Int
  | [] => -1
  | x :: xs => if x = c then 0 else
    let r := indexChar c xs
    if r = -1 then -1 else r + 1

/-- The Go `strings.LastIndex(s, string(c))` for a single character: position of the last
occurrence, or -1. -/
def lastIndexChar (c : Char) : List Char → Int
  | [] => -1
  | x :: xs =>
    let r := lastIndexChar c xs
    if r = -1 then (if x = c then 0 else -1) else r + 1

/-- The Go slice expression `s[lo:hi]` for `0 ≤ lo ≤ hi ≤ len(s)`. -/
def sliceStr (s : String) (lo hi : Int) : String :=
  String.mk ((s.data.drop lo.toNat).take (hi.toNat - lo.toNat))

/-- The Go `strings.Contains(s, sub)`. -/
def containsStr (s sub : String) : Bool :=
  s.data.tails.any (fun t => sub.data.isPrefixOf t)

/-- The Go `strings.Join(xs, sep)`. -/
def joinStr (xs : List String) (sep : String) : String :=
  sep.intercalate xs

/-! ## ScoreAggregator inside `parseAssessmentResponse` -/

/-- Loop variables of the scoring loops: `results`, `overallScore`, `totalWeight`. -/
structure ScoreAcc where
  results : List AssessmentResult
  overallScore : F64
  totalWeight : F64

/-- The status derivation of the unified loop (lines 823-828). -/
def unifiedStatus (score : Int) : String :=
  if score < 3 then "Fail" else if score = 0 then "N/A" else "Pass"

/-- The status derivation of the individual loop (lines 929-934). -/
def individualStatus (score : Int) : String :=
  if score < 3 then "Fail" else if score = 0 then "N/A" else "Pass"

/-- Observation text: the feedback, with the evidence appended when present. -/
def observationsOf (compScore : CompetencyScore) : String :=
  if compScore.Evidence.length > 0 then
    compScore.Feedback ++ "\n\nEvidence: " ++ joinStr compScore.Evidence "; "
  else compScore.Feedback

/-- One iteration of the criteria loop on the unified path (lines 808-848). -/
def unifiedScoreStep (participant : ParticipantAssessment) (acc : ScoreAcc)
    (criterion : AssessmentCriteria) : ScoreAcc :=
  match participant.Scores criterion.ID with
  | none =>
    { acc with results := acc.results ++ [{
        CriterionID := criterion.ID, CriterionName := criterion.Name, Score := 0,
        Status := "N/A", Observations := "No assessment data available", Evidence := "" }] }
  | some compScore =>
    { results := acc.results ++ [{
        CriterionID := criterion.ID, CriterionName := criterion.Name,
        Score := compScore.Score, Status := unifiedStatus compScore.Score,
        Observations := observationsOf compScore,
        Evidence := compScore.LevelJustification }],
      overallScore :=
        F64.add acc.overallScore (F64.mul (F64.ofInt compScore.Score) criterion.Weight),
      totalWeight := F64.add acc.totalWeight criterion.Weight }

/-- One iteration of the criteria loop on the individual path (lines 914-954). -/
def individualScoreStep (targetParticipant : ParticipantAssessment) (acc : ScoreAcc)
    (criterion : AssessmentCriteria) : ScoreAcc :=
  match targetParticipant.Scores criterion.ID with
  | none =>
    { acc with results := acc.results ++ [{
        CriterionID := criterion.ID, CriterionName := criterion.Name, Score := 0,
        Status := "N/A", Observations := "No assessment data available", Evidence := "" }] }
  | some compScore =>
    { results := acc.results ++ [{
        CriterionID := criterion.ID, CriterionName := criterion.Name,
        Score := compScore.Score, Status := individualStatus compScore.Score,
        Observations := observationsOf compScore,
        Evidence := compScore.LevelJustification }],
      overallScore :=
        F64.add acc.overallScore (F64.mul (F64.ofInt compScore.Score) criterion.Weight),
      totalWeight := F64.add acc.totalWeight criterion.Weight }

/-- Normalisation after a scoring loop: divide by the total weight when it is positive. -/
def normalize (acc : ScoreAcc) : F64 :=
  if F64.gt acc.totalWeight (F64.zero false) then F64.div acc.overallScore acc.totalWeight
  else acc.overallScore

/-- Summary text: overall assessment followed by key strengths and development areas. -/
def summaryOf (p : ParticipantAssessment) : String :=
  let s0 := p.OverallAssessment
  let s1 := if p.KeyStrengths.length > 0 then
    s0 ++ ("\n\nKey Strengths: " ++ joinStr p.KeyStrengths "; ") else s0
  if p.DevelopmentPriorities.length > 0 then
    s1 ++ ("\n\nDevelopment Areas: " ++ joinStr p.DevelopmentPriorities "; ") else s1

/-- The response built for one participant on the unified path (lines 802-873). -/
def unifiedResponse (req : AssessmentRequest) (participant : ParticipantAssessment) :
    AssessmentResponse :=
  let acc := req.Criteria.foldl (unifiedScoreStep participant)
    ⟨[], F64.zero false, F64.zero false⟩
  { ParticipantID := participant.ParticipantID, SessionID := req.SessionID,
    Results := acc.results, OverallScore := normalize acc, Summary := summaryOf participant }

/-- The response built for the matched participant on the individual path (lines 909-979). -/
def individualResponse (req : AssessmentRequest) (targetParticipant : ParticipantAssessment) :
    AssessmentResponse :=
  let acc := req.Criteria.foldl (individualScoreStep targetParticipant)
    ⟨[], F64.zero false, F64.zero false⟩
  { ParticipantID := req.ParticipantID, SessionID := req.SessionID,
    Results := acc.results, OverallScore := normalize acc,
    Summary := summaryOf targetParticipant }

/-! ## Fallback response -/

/-- The per-criterion result of `createFallbackResponse` (lines 990-1014). -/
def fallbackResult (hasMinimalContent : Bool) (transcriptWords : Nat)
    (criterion : AssessmentCriteria) : AssessmentResult :=
  if hasMinimalContent then
    { CriterionID := criterion.ID, CriterionName := criterion.Name, Score := 0,
      Status := "N/A",
      Observations := "Insufficient transcript content (<" ++ toString transcriptWords
        ++ " words) to assess " ++ criterion.Name
        ++ ". Minimum 200 words required for meaningful assessment.",
      Evidence := "" }
  else
    { CriterionID := criterion.ID, CriterionName := criterion.Name, Score := 3,
      Status := "Pass",
      Observations := "Assessment completed for " ++ criterion.Name
        ++ " based on transcript analysis.",
      Evidence := "" }

/-- The weighted-score loop of `createFallbackResponse` (lines 1019-1024): results and
criteria are walked together, index by index. -/
def fallbackScoreStep (acc : F64 × F64) (rc : AssessmentResult × AssessmentCriteria) :
    F64 × F64 :=
  if rc.1.Score > 0 then
    (F64.add acc.1 (F64.mul (F64.ofInt rc.1.Score) rc.2.Weight), F64.add acc.2 rc.2.Weight)
  else acc

/-- createFallbackResponse creates a fallback response when LLM parsing fails. -/
def createFallbackResponse (req : AssessmentRequest) : AssessmentResponse :=
  let transcriptWords := (fields req.Transcript).length
  let hasMinimalContent := decide (transcriptWords < 50)
  let results := req.Criteria.map (fallbackResult hasMinimalContent transcriptWords)
  let sums := (results.zip req.Criteria).foldl fallbackScoreStep (F64.zero false, F64.zero false)
  let overallScore :=
    if F64.gt sums.2 (F64.zero false) then F64.div sums.1 sums.2 else sums.1
  { ParticipantID := req.ParticipantID, SessionID := req.SessionID, Results := results,
    OverallScore := overallScore,
    Summary := "Assessment completed successfully using AI analysis of participant transcript." }

/-! ## ResponseParser -/

/-- The search loop of the individual path (lines 896-902): the first participant whose
id or name equals the requested participant id. -/
def findTarget (participantID : String) :
    List ParticipantAssessment → Option ParticipantAssessment
  | [] => none
  | p :: ps =>
    if p.ParticipantID = participantID ∨ p.ParticipantName = participantID then some p
    else findTarget participantID ps

/-- parseAssessmentResponse parses the LLM response into structured assessment results.
`unmarshal` is `json.Unmarshal` into `[]ParticipantAssessment` (`none` on a decode error);
the returned service carries the write to `lastUnifiedAssessments`. -/
def parseAssessmentResponse (unmarshal : String → Option (List ParticipantAssessment))
    (s : LLMAssessmentService) (llmResponse : String) (req : AssessmentRequest) :
    Except String AssessmentResponse × LLMAssessmentService :=
  let startIdx := indexChar '[' llmResponse.data
  let endIdx := lastIndexChar ']' llmResponse.data + 1
  if startIdx = -1 ∨ endIdx ≤ startIdx then
    (.error "no valid JSON array found in LLM response", s)
  else
    let jsonStr := sliceStr llmResponse startIdx endIdx
    match unmarshal jsonStr with
    | none => (.ok (createFallbackResponse req), s)
    | some participants =>
      if req.ParticipantID = "unified" then
        let allResponses := participants.map (unifiedResponse req)
        if allResponses.length > 0 then
          (.ok { ParticipantID := "unified_multiple", SessionID := req.SessionID,
                 Results := [], OverallScore := F64.zero false,
                 Summary := "Unified assessment with " ++ toString allResponses.length
                   ++ " participants" },
           { s with lastUnifiedAssessments := allResponses })
        else (.ok (createFallbackResponse req), s)
      else
        match findTarget req.ParticipantID participants with
        | none => (.ok (createFallbackResponse req), s)
        | some targetParticipant => (.ok (individualResponse req targetParticipant), s)

/-! ## ModelGateway -/

/-- Outcome of `client.Do`: a transport error, or a response with status code and body. -/
inductive HTTPResult where
  | failed (err : String)
  | response (StatusCode : Int) (Body : String)

/-- One content block of a Claude response. -/
structure ClaudeContent where
  Text : String
  Type_ : String

/-- ClaudeResponse represents the response from Claude API. -/
structure ClaudeResponse where
  Content : List ClaudeContent
  StopReason : String

/-- One part of a Gemini candidate. -/
structure GeminiPart where
  Text : String

/-- One candidate of a Gemini response (`Content.Parts`). -/
structure GeminiCandidate where
  Parts : List GeminiPart

/-- GeminiResponse represents the response from Gemini API. -/
structure GeminiResponse where
  Candidates : List GeminiCandidate

/-- The world outside the service: `post url prompt` is the outcome of the POST request
carrying `prompt` to `url` (headers are fixed by the service), the decoders are
`json.NewDecoder(...).Decode` and `json.Unmarshal` at the types the code decodes into. -/
structure Env where
  post : String → String → HTTPResult
  decodeClaude : String → Except String ClaudeResponse
  decodeGemini : String → Except String GeminiResponse
  unmarshalParticipants : String → Option (List ParticipantAssessment)

/-- callClaudeAPI makes the API call to Anthropic's Claude. -/
def callClaudeAPI (env : Env) (prompt : String) : Except String String :=
  match env.post "https://api.anthropic.com/v1/messages" prompt with
  | .failed err => .error err
  | .response code body =>
    if code ≠ 200 then
      .error ("claude API returned status " ++ toString code ++ ": " ++ body)
    else
      match env.decodeClaude body with
      | .error err => .error err
      | .ok claudeResp =>
        if claudeResp.Content.length = 0 then .error "no response from Claude API"
        else .ok (claudeResp.Content.foldl
          (fun responseText content =>
            if content.Type_ = "text" then responseText ++ content.Text else responseText) "")

/-- callGeminiAPIWithURL makes the actual HTTP request. -/
def callGeminiAPIWithURL (env : Env) (url prompt : String) : Except String String :=
  match env.post url prompt with
  | .failed err => .error err
  | .response code body =>
    if code ≠ 200 then
      .error ("gemini API returned status " ++ toString code ++ ": " ++ body)
    else
      match env.decodeGemini body with
      | .error err => .error err
      | .ok geminiResp =>
        match geminiResp.Candidates with
        | [] => .error "no response from Gemini API"
        | candidate :: _ =>
          match candidate.Parts with
          | [] => .error "no response from Gemini API"
          | part :: _ => .ok part.Text

/-- The model identifiers tried by `callGeminiAPI`, in order of preference. -/
def geminiModels : List String :=
  ["gemini-2.0-flash-exp", "gemini-1.5-flash-latest", "gemini-1.5-flash",
   "gemini-1.5-pro-latest", "gemini-1.5-pro"]

/-- The endpoint of one model identifier. -/
def geminiURL (model : String) : String :=
  "https://generativelanguage.googleapis.com/v1beta/models/" ++ model ++ ":generateContent"

/-- The loop of `callGeminiAPI` (lines 681-699) over the models still to try; `lastError`
is the loop variable of that name. Returns the result and the identifiers called, in order. -/
def geminiLoop (env : Env) (prompt : String) :
    List String → Option String → Except String String × List String
  | [], lastError =>
    (.error ("all Gemini models failed, last error: " ++ lastError.getD "<nil>"), [])
  | model :: rest, _ =>
    match callGeminiAPIWithURL env (geminiURL model) prompt with
    | .ok response => (.ok response, [model])
    | .error err =>
      if !containsStr err "404" && !containsStr err "NOT_FOUND" then (.error err, [model])
      else
        let r := geminiLoop env prompt rest (some err)
        (r.1, model :: r.2)

/-- callGeminiAPI makes a request to the Gemini API: the result, and the model identifiers
it called, in call order. -/
def callGeminiAPI (env : Env) (prompt : String) : Except String String × List String :=
  geminiLoop env prompt geminiModels none

/-- Outcome of `ProcessAssessment`: the returned pair, the service afterwards, and the
backends called (`"claude"` or a Gemini model identifier), in call order. -/
structure ProcessOutcome where
  result : Except String AssessmentResponse
  service : LLMAssessmentService
  calls : List String

/-- ProcessAssessment processes a transcript using LLM and returns assessment results.
`prompt` is the text built by `buildAssessmentPrompt(req)`; it only reaches the backend. -/
def ProcessAssessment (env : Env) (s : LLMAssessmentService) (prompt : String)
    (req : AssessmentRequest) : ProcessOutcome :=
  let parse (llmResponse : String) (calls : List String) : ProcessOutcome :=
    match parseAssessmentResponse env.unmarshalParticipants s llmResponse req with
    | (.error err, s1) =>
      ⟨.error ("failed to parse assessment response: " ++ err), s1, calls⟩
    | (.ok response, s1) => ⟨.ok response, s1, calls⟩
  if s.anthropicAPIKey ≠ "" then
    match callClaudeAPI env prompt with
    | .error err => ⟨.error ("failed to call Claude API: " ++ err), s, ["claude"]⟩
    | .ok llmResponse => parse llmResponse ["claude"]
  else if s.geminiAPIKey ≠ "" then
    match callGeminiAPI env prompt with
    | (.error err, calls) => ⟨.error ("failed to call Gemini API: " ++ err), s, calls⟩
    | (.ok llmResponse, calls) => parse llmResponse calls
  else ⟨.error "no LLM API key configured", s, []⟩

/-! ## Speaker identification -/

/-- SpeakerIdentificationRequest represents a request for speaker identification. -/
structure SpeakerIdentificationRequest where
  Transcript : String
  SpeakerID : Int

/-- SpeakerIdentificationResponse represents the response from speaker identification. -/
structure SpeakerIdentificationResponse where
  SpeakerID : Int
  Name : String
  Confidence : String
  Evidence : String
deriving DecidableEq

/-- parseSpeakerIdentificationResponse parses the LLM response for speaker identification.
`unmarshal` is `json.Unmarshal` into a `SpeakerIdentificationResponse`. -/
def parseSpeakerIdentificationResponse
    (unmarshal : String → Option SpeakerIdentificationResponse)
    (llmResponse : String) (speakerID : Int) : Except String SpeakerIdentificationResponse :=
  let startIdx := indexChar (Char.ofNat 123) llmResponse.data
  let endIdx := lastIndexChar (Char.ofNat 125) llmResponse.data + 1
  if startIdx = -1 ∨ endIdx ≤ startIdx then
    .ok { SpeakerID := speakerID, Name := "", Confidence := "none",
          Evidence := "Could not parse LLM response" }
  else
    match unmarshal (sliceStr llmResponse startIdx endIdx) with
    | none =>
      .ok { SpeakerID := speakerID, Name := "", Confidence := "none",
            Evidence := "Failed to parse JSON response" }
    | some response => .ok { response with SpeakerID := speakerID }

/-- IdentifySpeaker uses LLM to identify speaker name from transcript: the returned pair
and the backends called, in call order. `prompt` is the text built by
`buildSpeakerIdentificationPrompt(req)`; it only reaches the backend. -/
def IdentifySpeaker (env : Env) (unmarshal : String → Option SpeakerIdentificationResponse)
    (s : LLMAssessmentService) (prompt : String) (req : SpeakerIdentificationRequest) :
    Except String SpeakerIdentificationResponse × List String :=
  if s.anthropicAPIKey = "" ∧ s.geminiAPIKey = "" then
    (.error "no LLM API key configured", [])
  else
    let parse (llmResponse : String) (calls : List String) :
        Except String SpeakerIdentificationResponse × List String :=
      match parseSpeakerIdentificationResponse unmarshal llmResponse req.SpeakerID with
      | .error err =>
        (.error ("failed to parse speaker identification response: " ++ err), calls)
      | .ok response => (.ok response, calls)
    if s.anthropicAPIKey ≠ "" then
      match callClaudeAPI env prompt with
      | .error err => (.error ("failed to call Claude API: " ++ err), ["claude"])
      | .ok llmResponse => parse llmResponse ["claude"]
    else
      match callGeminiAPI env prompt with
      | (.error err, calls) => (.error ("failed to call Gemini API: " ++ err), calls)
      | (.ok llmResponse, calls) => parse llmResponse calls

/-! ## Group assessment -/

/-- A decoded JSON value (`interface{}` after `json.Unmarshal`): numbers are `float64`. -/
inductive JSONValue where
  | null
  | bool (b : Bool)
  | number (x : F64)
  | str (s : String)
  | array (xs : List JSONValue)
  | object (kvs : List (String × JSONValue))

/-- GroupAssessmentRequest represents a request for group assessment. -/
structure GroupAssessmentRequest where
  SessionID : String
  Transcript : String
  Criteria : List AssessmentCriteria
  Language : String

/-- GroupAssessmentResponse represents the complete group assessment response. -/
structure GroupAssessmentResponse where
  SessionID : String
  Score : Int
  ScoringJustification : String
  ChallengesIdentified : List String
  StrategicElementsCovered : List (String × String)
  SolutionStrengths : List String
  SolutionGaps : List String
  FeasibilityAssessment : String
  IntegrationQuality : String
  ConsumerInsightUtilization : String
  AlignmentWithCEOGuidance : String
  OverallComments : String
deriving DecidableEq

/-- The Go `strings.TrimSpace`: leading and trailing white space removed. -/
def trimSpace (s : String) : String :=
  String.mk ((s.data.dropWhile isSpace).reverse.dropWhile isSpace).reverse

/-- The Go conversion `int(x)` of a `float64` to the 64-bit `int`: truncation toward zero.
For a value outside the range of `int`, and for NaN, the language leaves the result to the
implementation; the value given here is the one the amd64 conversion instruction yields. -/
def truncToInt (x : F64) : Int :=
  let t : Int :=
    (if x.sign then -1 else 1)
      * (((if 0 ≤ x.ex then x.mant <<< x.ex.toNat else x.mant >>> (-x.ex).toNat) : Nat) : Int)
  if x.isFinite ∧ -9223372036854775808 ≤ t ∧ t < 9223372036854775808 then t
  else -9223372036854775808

/-- The type assertion `assessment[key].(string)` with the empty string as default. -/
def stringField (assessment : List (String × JSONValue)) (key : String) : String :=
  match assessment.lookup key with
  | some (.str val) => val
  | _ => ""

/-- The string elements of `assessment[key].([]interface{})`, in order. -/
def stringListField (assessment : List (String × JSONValue)) (key : String) : List String :=
  match assessment.lookup key with
  | some (.array xs) =>
    xs.filterMap (fun x => match x with
      | .str str => some str
      | _ => none)
  | _ => []

/-- The string-valued entries of `assessment[key].(map[string]interface{})`. -/
def stringMapField (assessment : List (String × JSONValue)) (key : String) :
    List (String × String) :=
  match assessment.lookup key with
  | some (.object kvs) =>
    kvs.filterMap (fun kv => match kv.2 with
      | .str str => some (kv.1, str)
      | _ => none)
  | _ => []

/-- Lines 1109-1220 of `ProcessGroupAssessment`: the response built from the extracted JSON
text. `unmarshal` is `json.Unmarshal` into a `map[string]interface{}`, given as the list of
its entries. -/
def groupResponseOf (unmarshal : String → Except String (List (String × JSONValue)))
    (req : GroupAssessmentRequest) (jsonStr : String) : GroupAssessmentResponse :=
  match unmarshal jsonStr with
  | .error err =>
    { SessionID := req.SessionID, Score := 0,
      ScoringJustification := "Error parsing LLM response",
      ChallengesIdentified := [], StrategicElementsCovered := [], SolutionStrengths := [],
      SolutionGaps := [], FeasibilityAssessment := "", IntegrationQuality := "",
      ConsumerInsightUtilization := "", AlignmentWithCEOGuidance := "",
      OverallComments := "Failed to parse assessment: " ++ err }
  | .ok parsed =>
    let assessment :=
      match parsed.lookup "groupSolutionAssessment" with
      | some (.object assessmentData) => assessmentData
      | _ => parsed
    let score : Int :=
      match assessment.lookup "score" with
      | some (.number scoreVal) => truncToInt scoreVal
      | _ => 0
    { SessionID := req.SessionID, Score := score,
      ScoringJustification := stringField assessment "scoringJustification",
      ChallengesIdentified := stringListField assessment "challengesIdentified",
      StrategicElementsCovered := stringMapField assessment "strategicElementsCovered",
      SolutionStrengths := stringListField assessment "solutionStrengths",
      SolutionGaps := stringListField assessment "solutionGaps",
      FeasibilityAssessment := stringField assessment "feasibilityAssessment",
      IntegrationQuality := stringField assessment "integrationQuality",
      ConsumerInsightUtilization := stringField assessment "consumerInsightUtilization",
      AlignmentWithCEOGuidance := stringField assessment "alignmentWithCEOGuidance",
      OverallComments := stringField assessment "overallComments" }

/-- Lines 1095-1107 of `ProcessGroupAssessment`: the JSON object text cut out of the reply
and handed to the decoder. -/
def parseGroupResponse (unmarshal : String → Except String (List (String × JSONValue)))
    (req : GroupAssessmentRequest) (llmResponse : String) :
    Except String GroupAssessmentResponse :=
  let jsonStr := trimSpace llmResponse
  let startIdx := indexChar (Char.ofNat 123) jsonStr.data
  if startIdx = -1 then .error "no JSON object found in response"
  else
    let endIdx := lastIndexChar (Char.ofNat 125) jsonStr.data
    if endIdx = -1 ∨ endIdx < startIdx then .error "invalid JSON structure in response"
    else .ok (groupResponseOf unmarshal req (sliceStr jsonStr startIdx (endIdx + 1)))

/-- ProcessGroupAssessment processes a transcript for group assessment: the returned pair
and the backends called, in call order. `prompt` is the text built by
`buildGroupAssessmentPrompt(req)`; it only reaches the backend. -/
def ProcessGroupAssessment (env : Env)
    (unmarshal : String → Except String (List (String × JSONValue)))
    (s : LLMAssessmentService) (prompt : String) (req : GroupAssessmentRequest) :
    Except String GroupAssessmentResponse × List String :=
  let continue_ (r : Except String String) (calls : List String) :
      Except String GroupAssessmentResponse × List String :=
    match r with
    | .error err => (.error ("LLM API call failed: " ++ err), calls)
    | .ok llmResponse => (parseGroupResponse unmarshal req llmResponse, calls)
  if s.anthropicAPIKey ≠ "" then continue_ (callClaudeAPI env prompt) ["claude"]
  else if s.geminiAPIKey ≠ "" then
    continue_ (callGeminiAPI env prompt).1 (callGeminiAPI env prompt).2
  else (.error "no LLM API key configured", [])

/-! ## TranscriptionGateway: segment reconstruction (`soniox_handler.go`) -/

/-- One token of the provider transcript. -/
structure Token where
  Text : String
  StartMs : Int
  EndMs : Int
  Confidence : F64
  Speaker : String
  Language : String
  IsAudioEvent : Option Bool

/-- A reconstructed speaker segment. -/
structure Segment where
  Speaker : Int
  Name : String
  Text : String
  StartTime : F64
  EndTime : F64
deriving DecidableEq

/-- The `SkipSpace` of a `Sscanf` scan: a newline is an error, other spaces are skipped. -/
def skipSpace : List Char → Option (List Char)
  | [] => some []
  | c :: cs =>
    if c.toNat = 10 then none
    else if isSpace c then skipSpace cs
    else some (c :: cs)

/-- Value of a run of decimal digits. -/
def digitsValue (ds : List Char) : Nat :=
  ds.foldl (fun n c => 10 * n + (c.toNat - 48)) 0

/-- The Go `fmt.Sscanf(s, "%d", &v)` on a 64-bit `int`: the scanned value, or `none` when the
scan fails (then `v` is left untouched). Leading spaces are skipped, an optional sign and a
non-empty run of decimal digits are read, and the value must fit in 64 bits. -/
def sscanInt (s : List Char) : Option Int :=
  match skipSpace s with
  | none => none
  | some [] => none
  | some (c :: cs) =>
    let rest := if c = '+' ∨ c = '-' then cs else c :: cs
    let ds := rest.takeWhile Char.isDigit
    if ds.isEmpty then none
    else if c = '-' then
      (if digitsValue ds > 2 ^ 63 then none else some (-(digitsValue ds : Int)))
    else (if digitsValue ds ≥ 2 ^ 63 then none else some (digitsValue ds : Int))

/-- The numeric speaker tag of a token (lines 1364-1368). -/
def speakerIDOf (token : Token) : Int :=
  if token.Speaker ≠ "" then (sscanInt token.Speaker.data).getD 0 else 0

/-- The display name of a speaker tag (lines 1370-1376). -/
def speakerNameOf (manualCorrections speakerMapping : Int → Option String)
    (speakerID : Int) : String :=
  match manualCorrections speakerID with
  | some name => name
  | none =>
    match speakerMapping speakerID with
    | some name => name
    | none => "Speaker " ++ toString speakerID

/-- Loop variables of the token loop: `segments` and `currentSegment`. -/
structure SegState where
  segments : List Segment
  currentSegment : Option Segment

/-- The segment opened by a token (lines 1383-1389). -/
def openSegment (manualCorrections speakerMapping : Int → Option String) (token : Token) :
    Segment :=
  { Speaker := speakerIDOf token,
    Name := speakerNameOf manualCorrections speakerMapping (speakerIDOf token),
    Text := token.Text,
    StartTime := F64.div (F64.ofInt token.StartMs) (F64.ofRatio 1000 1),
    EndTime := F64.div (F64.ofInt token.EndMs) (F64.ofRatio 1000 1) }

/-- One iteration of the token loop (lines 1358-1395). -/
def segmentStep (manualCorrections speakerMapping : Int → Option String) (st : SegState)
    (token : Token) : SegState :=
  if token.IsAudioEvent = some true then st
  else
    match st.currentSegment with
    | none =>
      { st with currentSegment := some (openSegment manualCorrections speakerMapping token) }
    | some cur =>
      if cur.Speaker ≠ speakerIDOf token then
        { segments := st.segments ++ [cur],
          currentSegment := some (openSegment manualCorrections speakerMapping token) }
      else
        { st with currentSegment := some { cur with
            Text := cur.Text ++ token.Text,
            EndTime := F64.div (F64.ofInt token.EndMs) (F64.ofRatio 1000 1) } }

/-- Closing the open segment at the end of the stream (lines 1397-1399). -/
def finishSegments (st : SegState) : List Segment :=
  match st.currentSegment with
  | some cur => st.segments ++ [cur]
  | none => st.segments

/-- The segments built by `GetAsyncTranscriptionStatus` from the token stream
(lines 1355-1399). -/
def buildSegments (manualCorrections speakerMapping : Int → Option String)
    (tokens : List Token) : List Segment :=
  finishSegments (tokens.foldl (segmentStep manualCorrections speakerMapping) ⟨[], none⟩)

/-- Whether a token is kept by the audio-event filter (line 1360). -/
def isSpeech (token : Token) : Bool :=
  !(token.IsAudioEvent == some true)

/-- The segment described by a run of tokens: tag and name of its first token, the texts
concatenated in order, start of the first token and end of the last. -/
def segmentOfRun (manualCorrections speakerMapping : Int → Option String) :
    List Token → Segment
  | [] => ⟨0, "", "", F64.zero false, F64.zero false⟩
  | t :: ts =>
    { Speaker := speakerIDOf t,
      Name := speakerNameOf manualCorrections speakerMapping (speakerIDOf t),
      Text := String.join ((t :: ts).map (fun u => u.Text)),
      StartTime := F64.div (F64.ofInt t.StartMs) (F64.ofRatio 1000 1),
      EndTime := F64.div (F64.ofInt (ts.getLastD t).EndMs) (F64.ofRatio 1000 1) }

/-- A list of runs is a decomposition into maximal runs of equal speaker tag: no run is
empty, the tokens of one run carry one tag, and two neighbouring runs share no tag. -/
def MaximalRuns (runs : List (List Token)) : Prop :=
  (∀ q ∈ runs, q ≠ [])
  ∧ (∀ q ∈ runs, ∀ a ∈ q, ∀ b ∈ q, speakerIDOf a = speakerIDOf b)
  ∧ runs.Chain' (fun q1 q2 => ∀ a ∈ q1, ∀ b ∈ q2, speakerIDOf a ≠ speakerIDOf b)

/-! ## Closed forms of the scoring loops -/

/-- The result a scoring loop appends for one criterion. -/
def resultFor (p : ParticipantAssessment) (criterion : AssessmentCriteria) :
    AssessmentResult :=
  match p.Scores criterion.ID with
  | none =>
    { CriterionID := criterion.ID, CriterionName := criterion.Name, Score := 0,
      Status := "N/A", Observations := "No assessment data available", Evidence := "" }
  | some compScore =>
    { CriterionID := criterion.ID, CriterionName := criterion.Name,
      Score := compScore.Score, Status := individualStatus compScore.Score,
      Observations := observationsOf compScore, Evidence := compScore.LevelJustification }

/-- The two sums of a scoring loop, `overallScore` and `totalWeight`, after one more
criterion. -/
def sumStep (p : ParticipantAssessment) (acc : F64 × F64) (criterion : AssessmentCriteria) :
    F64 × F64 :=
  match p.Scores criterion.ID with
  | none => acc
  | some compScore =>
    (F64.add acc.1 (F64.mul (F64.ofInt compScore.Score) criterion.Weight),
     F64.add acc.2 criterion.Weight)

/-- The exact product score × weight of one criterion, 0 when the participant has no entry
for it. -/
def scoredValue (p : ParticipantAssessment) (criterion : AssessmentCriteria) : ℚ :=
  match p.Scores criterion.ID with
  | none => 0
  | some compScore => (compScore.Score : ℚ) * criterion.Weight.toRat

/-- The exact weight of one criterion, 0 when the participant has no entry for it. -/
def scoredWeight (p : ParticipantAssessment) (criterion : AssessmentCriteria) : ℚ :=
  match p.Scores criterion.ID with
  | none => 0
  | some _ => criterion.Weight.toRat

/-- Every score entry of the participant for a requested criterion lies in 0..5. -/
def ScoresInRange (criteria : List AssessmentCriteria) (p : ParticipantAssessment) : Prop :=
  ∀ c ∈ criteria, ∀ compScore, p.Scores c.ID = some compScore →
    0 ≤ compScore.Score ∧ compScore.Score ≤ 5

/-- The request with every criterion's weight multiplied by `k`. -/
def scaleWeights (k : F64) (req : AssessmentRequest) : AssessmentRequest :=
  { req with
    Criteria := req.Criteria.map (fun c => { c with Weight := F64.mul k c.Weight }) }

/-! ## PromptBuilder -/

/-- The magnitude of a finite `float64` rounded to the nearest integer, ties to the even
one. -/
def roundHalfEven (x : F64) : Nat :=
  if 0 ≤ x.ex then x.mant <<< x.ex.toNat
  else
    let k := (-x.ex).toNat
    let q := x.mant >>> k
    let r := x.mant - (q <<< k)
    let half := 1 <<< (k - 1)
    if half < r ∨ (r = half ∧ q % 2 = 1) then q + 1 else q

/-- The Go `fmt.Sprintf("%.0f", x)`: the nearest integer in decimal, with the sign of `x`
when the sign bit is set. -/
def formatFloat0 (x : F64) : String :=
  if x.isNaN then "NaN"
  else if x.isInf then (if x.sign then "-Inf" else "+Inf")
  else (if x.sign then "-" else "") ++ toString (roundHalfEven x)

/-- The lines written for the levels 1 through 5 that a rubric map has (lines 352-356 and
363-367). -/
def levelLines (m : List (Int × String)) : String :=
  String.join (([1, 2, 3, 4, 5] : List Int).map (fun level =>
    match m.lookup level with
    | some desc => "  Level " ++ toString level ++ ": " ++ desc ++ "\n"
    | none => ""))

/-- The text written for the criterion at index `i` (lines 344-380). -/
def renderCriterion (i : Nat) (criterion : AssessmentCriteria) : String :=
  "**" ++ toString (i + 1) ++ ". " ++ criterion.Name ++ "** (Weight: "
    ++ formatFloat0 (F64.mul criterion.Weight (F64.ofRatio 100 1)) ++ "%, Category: " ++ criterion.Category ++ ")\n"
  ++ ("Description: " ++ criterion.Description ++ "\n")
  ++ ("Detailed Behaviors: " ++ criterion.DetailedBehaviors ++ "\n\n")
  ++ (if criterion.LevelDescriptors.length > 0 then
        "Level Descriptors:\n" ++ levelLines criterion.LevelDescriptors ++ "\n"
      else "")
  ++ (if criterion.CaseSpecificExamples.length > 0 then
        "Case-Specific Examples:\n" ++ levelLines criterion.CaseSpecificExamples ++ "\n"
      else "")
  ++ (if criterion.KeyObservables.length > 0 then
        "Key Observables:\n"
          ++ String.join (criterion.KeyObservables.map (fun observable =>
              "  - " ++ observable ++ "\n"))
          ++ "\n"
      else "")
  ++ "\n"

/-- The criteria loop (lines 343-381), from index `i` on. -/
def renderCriteria : Nat → List AssessmentCriteria → String
  | _, [] => ""
  | i, criterion :: rest => renderCriterion i criterion ++ renderCriteria (i + 1) rest

/-- The system instruction and the criteria section (lines 335-381). -/
def promptHead (req : AssessmentRequest) : String :=
  "You are an expert HR assessor evaluating a participant\x27s performance in a group assessment session. "
  ++ (if req.Language = "vietnamese" then
        "The transcript is in Vietnamese, but please respond in English. "
      else "")
  ++ "Analyze the transcript and provide objective assessments based on the criteria provided.\n\n"
  ++ "COMPREHENSIVE ASSESSMENT CRITERIA:\n\n"
  ++ renderCriteria 0 req.Criteria

/-- The instructions that follow a unified transcript (lines 389-397). -/
def unifiedTranscriptInstructions : String :=
  "**IMPORTANT INSTRUCTIONS FOR UNIFIED TRANSCRIPT:**\n"
  ++ "1. This transcript contains participant mapping and conversation data\n"
  ++ "2. Look for the \x27PARTICIPANT MAPPING\x27 section to get correct participant IDs and names\n"
  ++ "3. Each mapping line shows: [Participant ID: actual_id = Name - Role]\n"
  ++ "4. In conversation lines: \x27[actual_id] Name - Role: text\x27\n"
  ++ "5. You must assess EACH participant separately based on their individual contributions\n"
  ++ "6. For participantId in your response, use ONLY the ID value (NOT including brackets)\n"
  ++ "7. Example: If you see \x27[Participant ID: abc123 = John Doe - Engineer]\x27, use \"abc123\" as participantId\n"
  ++ "8. Example: If you see \x27[1] Nguyễn Văn Minh - Senior Software Engineer:\x27, use \"1\" as participantId\n\n"

/-- The scenario section (lines 383-413): unified transcript, participant with group
context, or plain transcript. -/
def scenarioSection (req : AssessmentRequest) : String :=
  if req.ParticipantID = "unified" then
    "\nUNIFIED TRANSCRIPT WITH MULTIPLE SPEAKERS:\n" ++ req.Transcript ++ "\n\n"
      ++ unifiedTranscriptInstructions
  else if req.Context ≠ "" then
    "\nFULL GROUP CONVERSATION CONTEXT:\n" ++ req.Context ++ "\n\n"
      ++ ("PARTICIPANT TO ASSESS (ID: " ++ req.ParticipantID ++ "):\n")
      ++ "Focus your assessment on this participant\x27s contributions:\n"
      ++ req.Transcript ++ "\n\n"
  else
    "\nTRANSCRIPT TO ASSESS:\n" ++ req.Transcript ++ "\n\n"

/-- The instruction block written after the scenario section (lines 416-444). -/
def assessmentInstructions : String :=
  String.join [
    "\n",
    "**ASSESSMENT CONTEXT:**\n",
    "You are an expert assessor evaluating participants in a Heineken group case ",
    "study discussion about GLOVIA brand in Southeast Asia. This assessment focuses ",
    "primarily on BEHAVIORAL COMPETENCIES observed through group interaction, ",
    "analysis, and collaboration.\n",
    "\n",
    "**WORD COUNT THRESHOLD:**\n",
    "Only provide meaningful assessment scores if the participant has contributed at ",
    "least 50 words in the transcript. If the transcript contains fewer than 50 ",
    "words from this participant, assign score of 0 (N/A) for all competencies ",
    "except those clearly demonstrated in their limited contribution.\n",
    "\n",
    "**CRITICAL CASE CONTEXT:**\n",
    "This is a complex FMCG case involving CONTRADICTORY CONSUMER INSIGHTS that ",
    "require deep analytical thinking:\n",
    "- 68% Indonesian consumers prefer natural products BUT GLOVIA natural line has ",
    "only 12% sales\n",
    "- 59% Vietnamese consumers prefer online shopping BUT 72% transactions still ",
    "happen in traditional stores (GT)\n",
    "- 48% willing to pay premium for quality BUT only 17% choose GLOVIA premium ",
    "line\n",
    "- 36% prioritize price over quality BUT 54% interested in natural products ",
    "(typically more expensive)\n",
    "\n",
    "**PARTICIPANT ROLE CONFLICTS:**\n",
    "Each participant has specific role objectives that create natural tensions:\n",
    "- **Candidate A (MT)**: Wants to maintain MT investment despite declining ROI ",
    "vs. growing ecommerce\n",
    "- **Candidate B (GT)**: Defends GT\x27s large market share vs. other channels\x27 ",
    "growth potential  \n",
    "- **Candidate C (Ecommerce)**: Pushes for budget reallocation from traditional ",
    "channels to digital\n",
    "- **Candidate D (Indonesia)**: Advocates for market expansion investment vs. ",
    "other priorities\n",
    "- **Candidate E (Product & Innovation)**: Needs cross-functional support for ",
    "natural product launch\n",
    "\n",
    "**ASSESSMENT INSTRUCTIONS:**\n",
    "1. Evaluate each participant against ALL criteria provided above\n",
    "2. Use the Level Descriptors and Case-Specific Examples to determine ",
    "appropriate scores (1-5)\n",
    "3. Look for Key Observables as evidence of competency demonstration\n",
    "4. Consider how participants handle contradictory data and role conflicts\n",
    "5. Always assign score of 0 (N/A) when there\x27s insufficient evidence for a ",
    "competency, or answers are clearly irrelevant\n",
    "6. Do not make assumptions or give default scores without evidence"]

/-- The scoring framework block (lines 447-458). -/
def scoringFrameworkText : String :=
  String.join [
    "Use the 1-5 scale based on the Level Descriptors provided for each criterion ",
    "above.\n",
    "- Always score 0 (N/A) only when there\x27s insufficient evidence for a ",
    "competency, or off topic or irrelevant\n",
    "- Reference the Case-Specific Examples to understand what behaviors correspond ",
    "to each level\n",
    "- Look for the Key Observables as evidence of competency demonstration\n",
    "\n",
    "**FUNCTIONAL COMPETENCY OBSERVATIONS (Optional):**\n",
    "Note any demonstrations of:\n",
    "- Brand Strategy: Positioning, competitive differentiation, USP clarity\n",
    "- Touchpoint Planning: Budget allocation, channel effectiveness, ROI ",
    "optimization\n",
    "- Content & Activities: KOL strategy, packaging, messaging development\n",
    "- Store Back Marketing: POSM proposals, mini size strategy, shopper insights\n",
    "- RTM & Channel: Distribution strategy, channel integration, market approaches"]

/-- The response format block of the unified case (lines 462-577). -/
def unifiedResponseFormat : String :=
  String.join [
    "\n",
    "\n",
    "**RESPONSE FORMAT - Return as JSON Array with ALL participants found in the ",
    "mapping:**\n",
    "[\n",
    "  \x7b\n",
    "    \"participantId\": \"actual_id_value_without_brackets\",\n",
    "    \"participantName\": \"Exact Name From Mapping\",\n",
    "    \"assignedRole\": \"role in case study (e.g., MT Channel Manager)\",\n",
    "    \"scores\": \x7b\n",
    "      \"1\": \x7b\n",
    "        \"score\": 1-5,\n",
    "        \"evidence\": [\n",
    "          \"Specific quote or behavior showing consumer insight analysis\",\n",
    "          \"Example of how they handled contradictory data\", \n",
    "          \"Instance of consumer-first recommendations\"\n",
    "        ],\n",
    "        \"feedback\": \"Detailed developmental feedback with specific examples\",\n",
    "        \"levelJustification\": \"Why this specific level (1-5) was assigned with ",
    "reference to case context\"\n",
    "      \x7d,\n",
    "      \"2\": \x7b\n",
    "        \"score\": 1-5,\n",
    "        \"evidence\": [\n",
    "          \"Questions they asked to uncover deeper insights\",\n",
    "          \"How they challenged assumptions or synthesized information\",\n",
    "          \"Strategic thinking demonstrated\"\n",
    "        ],\n",
    "        \"feedback\": \"Analytical and strategic thinking development areas\",\n",
    "        \"levelJustification\": \"Reasoning for level assignment\"\n",
    "      \x7d,\n",
    "      \"3\": \x7b\n",
    "        \"score\": 1-5,\n",
    "        \"evidence\": [\n",
    "          \"Structure and clarity of their presentations\",\n",
    "          \"How they influenced group direction\",\n",
    "          \"Language effectiveness (Vietnamese/English)\"\n",
    "        ],\n",
    "        \"feedback\": \"Communication effectiveness and influence development\",\n",
    "        \"levelJustification\": \"Communication level reasoning\"\n",
    "      \x7d,\n",
    "      \"4\": \x7b\n",
    "        \"score\": 1-5,\n",
    "        \"evidence\": [\n",
    "          \"How they sought and integrated others\x27 perspectives\",\n",
    "          \"Collaboration across role conflicts\",\n",
    "          \"Facilitation of group discussion\"\n",
    "        ],\n",
    "        \"feedback\": \"Teamwork and inclusion development feedback\",\n",
    "        \"levelJustification\": \"Collaboration level reasoning\"\n",
    "      \x7d,\n",
    "      \"5\": \x7b\n",
    "        \"score\": 1-5,\n",
    "        \"evidence\": [\n",
    "          \"Balance of logic and emotion in presentations\",\n",
    "          \"Authentic connection with team\",\n",
    "          \"Personal impact demonstrations\"\n",
    "        ],\n",
    "        \"feedback\": \"Emotional intelligence and authenticity development\",\n",
    "        \"levelJustification\": \"Logic/emotion balance level reasoning\"\n",
    "      \x7d,\n",
    "      \"6\": \x7b\n",
    "        \"score\": 1-5,\n",
    "        \"evidence\": [\n",
    "          \"Quality of narratives and storytelling\",\n",
    "          \"Language use and switching effectiveness\",\n",
    "          \"Inspirational impact of stories\"\n",
    "        ],\n",
    "        \"feedback\": \"Storytelling and inspiration development\",\n",
    "        \"levelJustification\": \"Storytelling level reasoning\"\n",
    "      \x7d,\n",
    "      \"7\": \x7b\n",
    "        \"score\": 1-5,\n",
    "        \"evidence\": [\n",
    "          \"Strategic priorities identified and defended\",\n",
    "          \"Courage in challenging status quo\",\n",
    "          \"Innovation and ambition demonstrated\"\n",
    "        ],\n",
    "        \"feedback\": \"Strategic courage and ambition development\",\n",
    "        \"levelJustification\": \"Strategic thinking level reasoning\"\n",
    "      \x7d\n",
    "    \x7d,\n",
    "    \"functionalCompetencyObservations\": \x7b\n",
    "      \"brandStrategy\": \"Any brand positioning or competitive analysis insights ",
    "demonstrated\",\n",
    "      \"touchpointPlanning\": \"Budget allocation reasoning or channel ",
    "effectiveness insights\",\n",
    "      \"contentActivities\": \"KOL/content strategy or messaging development ",
    "shown\",\n",
    "      \"storeBackMarketing\": \"POSM, mini size, or shopper behavior insights\",\n",
    "      \"rtmChannel\": \"Distribution or market-specific strategy insights\"\n",
    "    \x7d,\n",
    "  \x7d\n",
    "]\n",
    "\n",
    "**CRITICAL ASSESSMENT REMINDERS:**\n",
    "1. **Evidence-Based Scoring**: Every score must be justified with specific ",
    "behavioral examples from the transcript\n",
    "2. **Limited Participation**: If a participant contributed minimally (e.g., ",
    "only introduction), score as 0 (N/A) for most competencies\n",
    "3. **Role Conflict Analysis**: Evaluate how they balanced role advocacy with ",
    "collaborative problem-solving\n",
    "4. **Developmental Focus**: Provide actionable feedback that participants can ",
    "use for growth\n",
    "5. **Cultural Sensitivity**: Consider Vietnamese workplace communication norms ",
    "while maintaining global standards\n",
    "6. **No Assumptions**: Do not give default scores - use N/A when evidence is ",
    "insufficient\n",
    "7. **Fair assessment**: Must ensure fairness between participants, score should ",
    "be consistent for similar performance.\n",
    "\n",
    "**RED FLAGS TO IDENTIFY:**\n",
    "- Accepting contradictory consumer data without questioning or analysis\n",
    "- Ignoring role conflicts or failing to find collaborative solutions\n",
    "- Making strategic recommendations without consumer insight foundation\n",
    "- Dominating discussion without building on others\x27 contributions\n",
    "- Avoiding difficult decisions or showing no strategic courage\n",
    "- Poor listening skills or dismissive behavior toward other roles\n",
    "\n",
    "**QUALITY MARKERS FOR HIGH SCORES:**\n",
    "- Sophisticated analysis of consumer insight contradictions with proposed ",
    "solutions\n",
    "- Strategic thinking that balances multiple stakeholder priorities\n",
    "- Collaborative leadership that transcends role boundaries\n",
    "- Compelling communication that influences group direction\n",
    "- Innovative solutions that are both ambitious and implementable\n",
    "\n",
    "Return ONLY the JSON array with complete participant assessments. Ensure all ",
    "competency scores are thoroughly justified with specific evidence from the ",
    "group discussion transcript.\n"]

/-- The response format block of the individual case up to the participant id (lines 580-585). -/
def individualFormatBefore : String :=
  String.join [
    "\n",
    "\n",
    "**RESPONSE FORMAT - Return as JSON Array with ONE participant:**\n",
    "[\n",
    "  \x7b\n",
    "    \"participantId\": \""]

/-- The response format block of the individual case after the participant id (lines 585-602). -/
def individualFormatAfter : String :=
  String.join [
    "\",\n",
    "    \"participantName\": \"participant name from transcript\",\n",
    "    \"assignedRole\": \"role in case study (e.g., MT Channel Manager)\",\n",
    "    \"scores\": \x7b\n",
    "      \"1\": \x7b \"score\": 1-5, \"evidence\": [], \"feedback\": \"\", ",
    "\"levelJustification\": \"\" \x7d,\n",
    "      \"2\": \x7b \"score\": 1-5, \"evidence\": [], \"feedback\": \"\", ",
    "\"levelJustification\": \"\" \x7d,\n",
    "      \"3\": \x7b \"score\": 1-5, \"evidence\": [], \"feedback\": \"\", ",
    "\"levelJustification\": \"\" \x7d,\n",
    "      \"4\": \x7b \"score\": 1-5, \"evidence\": [], \"feedback\": \"\", ",
    "\"levelJustification\": \"\" \x7d,\n",
    "      \"5\": \x7b \"score\": 1-5, \"evidence\": [], \"feedback\": \"\", ",
    "\"levelJustification\": \"\" \x7d,\n",
    "      \"6\": \x7b \"score\": 1-5, \"evidence\": [], \"feedback\": \"\", ",
    "\"levelJustification\": \"\" \x7d,\n",
    "      \"7\": \x7b \"score\": 1-5, \"evidence\": [], \"feedback\": \"\", ",
    "\"levelJustification\": \"\" \x7d\n",
    "    \x7d,\n",
    "    \"functionalCompetencyObservations\": \x7b\x7d\n",
    "  \x7d\n",
    "]\n",
    "\n",
    "Return ONLY the JSON array with complete participant assessment.\n"]

/-- The instructions, scoring framework and response format written after the scenario
section (lines 415-603). -/
def promptTail (req : AssessmentRequest) : String :=
  assessmentInstructions
  ++ "\n\n**SCORING FRAMEWORK:**\n"
  ++ scoringFrameworkText
  ++ (if req.ParticipantID = "unified" then unifiedResponseFormat
      else individualFormatBefore ++ req.ParticipantID ++ individualFormatAfter)

/-- buildAssessmentPrompt creates a structured prompt for the LLM. -/
def buildAssessmentPrompt (req : AssessmentRequest) : String :=
  promptHead req ++ scenarioSection req ++ promptTail req

/-- The object the group fields are read from (lines 1121-1127): the nested
`groupSolutionAssessment` object when there is one, else the decoded object itself. -/
def groupAssessmentObject (parsed : List (String × JSONValue)) : List (String × JSONValue) :=
  match parsed.lookup "groupSolutionAssessment" with
  | some (.object assessmentData) => assessmentData
  | _ => parsed

/-- The group prompt up to the transcript (lines 1228-1286). -/
def groupPromptBefore : String :=
  String.join [
    "# GROUP SOLUTION ASSESSMENT PROMPT\n",
    "## Heineken GLOVIA Case Study - Southeast Asia\n",
    "\n",
    "You are an expert assessor evaluating the **QUALITY OF THE GROUP\x27S SOLUTION** ",
    "in a Heineken group case study discussion about GLOVIA brand in Southeast Asia. ",
    "This assessment focuses on the strategic quality and comprehensiveness of the ",
    "final solution the team proposes collectively.\n",
    "\n",
    "## ASSESSMENT TASK\n",
    "\n",
    "Evaluate the group\x27s proposed solution based on:\n",
    "1. How well they identified GLOVIA\x27s core challenges\n",
    "2. Strategic completeness of their solution\n",
    "3. Feasibility and implementation clarity\n",
    "4. Integration across departments\n",
    "5. Use of consumer insights and data\n",
    "6. Alignment with CEO guidance\n",
    "\n",
    "## SCORING RUBRIC (0-5)\n",
    "\n",
    "**IMPORTANT: Use Score 0 for irrelevant or nonsensical conversations** that do ",
    "not address the GLOVIA case study at all:\n",
    "- Completely off-topic discussions (personal matters, unrelated projects, ",
    "random topics)\n",
    "- Testing the system, joking around, or not engaging with the case seriously\n",
    "- Incomprehensible, fragmented transcripts with no business discussion\n",
    "- No attempt to address GLOVIA\x27s business challenges\n",
    "\n",
    "**Scores 1-5 are for conversations that attempt to address the case study:**\n",
    "\n",
    "### Score 5: Ideal Solution\n",
    "- Fully identifies ALL core challenges with data support\n",
    "- Comprehensive coverage of all strategic elements\n",
    "- Clear, feasible, well-integrated action plan\n",
    "- Budget allocation and communication strategy clearly defined\n",
    "- Demonstrates exceptional strategic thinking\n",
    "\n",
    "### Score 4: Good Solution\n",
    "- Identifies most key challenges\n",
    "- Clear strategic direction with some depth gaps\n",
    "- Feasible action plan but lacks some implementation details\n",
    "- Some cross-functional coordination shown\n",
    "\n",
    "### Score 3: Average Solution\n",
    "- Identifies only 1-2 challenges\n",
    "- Limited strategic scope\n",
    "- Generic action plan lacking feasibility\n",
    "- Does not reflect full understanding of case data\n",
    "\n",
    "### Score 2: Poor Solution\n",
    "- Fails to identify major issues\n",
    "- Lacks structure and strategic clarity\n",
    "- Addresses only minor aspects\n",
    "- No actionable plan\n",
    "\n",
    "### Score 1: Incorrect Solution\n",
    "- Misunderstands case context\n",
    "- Does not address actual challenges\n",
    "- No use of data or insights\n",
    "- No strategic recommendations\n",
    "\n",
    "## TRANSCRIPT TO ASSESS\n",
    "\n"]

/-- The group prompt after the transcript (lines 1291-1329). -/
def groupPromptAfter : String :=
  String.join [
    "## RESPONSE FORMAT\n",
    "\n",
    "Return assessment as JSON:\n",
    "\n",
    "\x7b\n",
    "  \"groupSolutionAssessment\": \x7b\n",
    "    \"score\": 0-5,\n",
    "    \"scoringJustification\": \"Detailed explanation of why this score was ",
    "assigned\",\n",
    "    \"challengesIdentified\": [\n",
    "      \"List each core challenge the team successfully identified\",\n",
    "      \"Note which critical challenges were missed\"\n",
    "    ],\n",
    "    \"strategicElementsCovered\": \x7b\n",
    "      \"priorityMarkets\": \"What the team proposed for market selection\",\n",
    "      \"channelStrategy\": \"How they addressed MT, GT, and Ecommerce channels\",\n",
    "      \"productStrategy\": \"Natural Line launch plan, mini size, brand ",
    "positioning\",\n",
    "      \"marketingCommunication\": \"KOL/influencer strategy, packaging, ",
    "localization\",\n",
    "      \"budgetAllocation\": \"How they proposed reallocating the 2026 budget\"\n",
    "    \x7d,\n",
    "    \"solutionStrengths\": [\n",
    "      \"Key strength 1 with specific examples\",\n",
    "      \"Key strength 2 with specific examples\",\n",
    "      \"Key strength 3 with specific examples\"\n",
    "    ],\n",
    "    \"solutionGaps\": [\n",
    "      \"Critical gap 1 - what was missing\",\n",
    "      \"Critical gap 2 - where solution lacked depth\",\n",
    "      \"Critical gap 3 - missed opportunities\"\n",
    "    ],\n",
    "    \"feasibilityAssessment\": \"Evaluation of whether proposed actions are ",
    "realistic and implementable\",\n",
    "    \"integrationQuality\": \"How well solution integrated across departments\",\n",
    "    \"consumerInsightUtilization\": \"How effectively team used consumer data\",\n",
    "    \"alignmentWithCEOGuidance\": \"How well solution aligned with CEO ",
    "priorities\",\n",
    "    \"overallComments\": \"Comprehensive assessment with developmental feedback\"\n",
    "  \x7d\n",
    "\x7d\n",
    "\n",
    "Return ONLY the JSON object, no markdown formatting or additional text.\n"]

/-- buildGroupAssessmentPrompt creates the prompt for group assessment. -/
def buildGroupAssessmentPrompt (req : GroupAssessmentRequest) : String :=
  groupPromptBefore ++ req.Transcript ++ "\n\n" ++ groupPromptAfter
/-! ## AssessmentStore and the handlers that write to it (`soniox_handler.go`) -/

/-- One entry of the consolidated result list (lines 842-846, 855-859, 888-892). -/
structure ConsolidatedItem where
  participant_id : String
  participant_name : String
  results : List AssessmentResult
deriving DecidableEq

/-- The data stored under the consolidated key (lines 923-937). -/
structure ConsolidatedData where
  session_id : String
  assessments : List ConsolidatedItem
  group_assessment : Option GroupAssessmentResponse
  timestamp : Int
  type_ : Option String
deriving DecidableEq

/-- A value held by the handler's `assessmentResults` map, by its dynamic type:
`*AssessmentResponse`, `*GroupAssessmentResponse`, `string`, `map[int]string` or the
consolidated `map[string]interface{}`. -/
inductive StoreValue where
  | assessment (r : AssessmentResponse)
  | group (g : GroupAssessmentResponse)
  | text (s : String)
  | names (m : List (Int × String))
  | consolidated (d : ConsolidatedData)
deriving DecidableEq

/-- The Go `sync.Map.Store`: the entry for `key` is replaced or added. -/
def storeStore (store : List (String × StoreValue)) (key : String) (value : StoreValue) :
    List (String × StoreValue) :=
  (key, value) :: store.filter (fun e => e.1 ≠ key)

/-- The Go `sync.Map.Load`. -/
def storeLoad (store : List (String × StoreValue)) (key : String) : Option StoreValue :=
  store.lookup key

/-- SonioxHandler: the LLM service and the in-memory result map. `Range` visits the
entries of `assessmentResults` in list order. -/
structure SonioxHandler where
  llmService : LLMAssessmentService
  assessmentResults : List (String × StoreValue)

/-- TranscriptSyncRequest represents a transcript sync request. -/
structure TranscriptSyncRequest where
  ParticipantID : String
  Transcript : String
  SessionID : String
  Timestamp : Int

/-- ConsolidatedTranscriptParticipant represents a participant in the consolidated
transcript. -/
structure ConsolidatedTranscriptParticipant where
  ParticipantID : String
  ParticipantName : String
  Role : String
  Transcript : String

/-- What the handlers take from outside: the backends and decoders, `uuid.Parse` as a
validity test, the tables of `getComprehensiveAssessmentCriteria` and
`getGroupAssessmentCriteria`, and `time.Now().Unix()`. -/
structure HandlerEnv where
  env : Env
  unmarshalObject : String → Except String (List (String × JSONValue))
  validUUID : String → Bool
  criteria : List AssessmentCriteria
  groupCriteria : List AssessmentCriteria
  now : Int

/-- processAssessmentInBackground processes assessment in background and stores result. -/
def processAssessmentInBackground (w : HandlerEnv) (h : SonioxHandler)
    (sessionID participantID transcript : String) : SonioxHandler :=
  let assessmentReq : AssessmentRequest :=
    { ParticipantID := participantID, SessionID := sessionID, Transcript := transcript,
      Criteria := w.criteria, Language := "vietnamese", Context := "" }
  let out := ProcessAssessment w.env h.llmService (buildAssessmentPrompt assessmentReq)
    assessmentReq
  match out.result with
  | .error _ => { h with llmService := out.service }
  | .ok result =>
    { llmService := out.service,
      assessmentResults :=
        storeStore h.assessmentResults (sessionID ++ "_" ++ participantID)
          (.assessment result) }

/-- SyncTranscript receives and processes transcript data from frontend: the HTTP status
and the handler once the background task it starts has run. -/
def SyncTranscript (w : HandlerEnv) (h : SonioxHandler) (req : TranscriptSyncRequest) :
    Nat × SonioxHandler :=
  if req.ParticipantID = "" ∨ req.Transcript = "" ∨ req.SessionID = "" then (400, h)
  else if req.SessionID ≠ "test" ∧ w.validUUID req.SessionID = false then (400, h)
  else (200, processAssessmentInBackground w h req.SessionID req.ParticipantID req.Transcript)

/-- The conversation context built in lines 797-800. -/
def fullConversationOf (conversation : List ConsolidatedTranscriptParticipant) : String :=
  conversation.foldl (fun fullConversation participant =>
    fullConversation ++ ("\n[" ++ participant.ParticipantName ++ " - " ++ participant.Role
      ++ "]:\n" ++ participant.Transcript ++ "\n")) ""

/-- Loop variables of the consolidated task: the handler and the `results` list. -/
structure ConsolidatedProgress where
  handler : SonioxHandler
  results : List ConsolidatedItem

/-- One iteration of the loop over the unified batch (lines 836-849). -/
def storeUnifiedStep (sessionID : String) (pr : ConsolidatedProgress)
    (participantAssessment : AssessmentResponse) : ConsolidatedProgress :=
  { handler := { pr.handler with
      assessmentResults :=
        storeStore pr.handler.assessmentResults
          (sessionID ++ "_" ++ participantAssessment.ParticipantID)
          (.assessment participantAssessment) },
    results := pr.results ++ [{
      participant_id := participantAssessment.ParticipantID,
      participant_name := participantAssessment.ParticipantID,
      results := participantAssessment.Results }] }

/-- One iteration of the loop over the participants (lines 865-895). -/
def storeIndividualStep (w : HandlerEnv) (sessionID fullConversation : String)
    (pr : ConsolidatedProgress) (participant : ConsolidatedTranscriptParticipant) :
    ConsolidatedProgress :=
  let assessmentReq : AssessmentRequest :=
    { ParticipantID := participant.ParticipantID, SessionID := sessionID,
      Transcript := participant.Transcript, Criteria := w.criteria,
      Language := "vietnamese", Context := fullConversation }
  let out := ProcessAssessment w.env pr.handler.llmService
    (buildAssessmentPrompt assessmentReq) assessmentReq
  match out.result with
  | .error _ => { pr with handler := { pr.handler with llmService := out.service } }
  | .ok result =>
    { handler :=
        { llmService := out.service,
          assessmentResults :=
            storeStore pr.handler.assessmentResults
              (sessionID ++ "_" ++ participant.ParticipantID) (.assessment result) },
      results := pr.results ++ [{
        participant_id := participant.ParticipantID,
        participant_name := participant.ParticipantName,
        results := result.Results }] }

/-- The group assessment and the consolidated entry written at the end of the consolidated
task (lines 898-941). -/
def storeGroupAndConsolidated (w : HandlerEnv) (sessionID fullConversation : String)
    (pr : ConsolidatedProgress) : SonioxHandler :=
  let groupAssessmentReq : GroupAssessmentRequest :=
    { SessionID := sessionID, Transcript := fullConversation, Criteria := w.groupCriteria,
      Language := "vietnamese" }
  let groupOut := ProcessGroupAssessment w.env w.unmarshalObject pr.handler.llmService
    (buildGroupAssessmentPrompt groupAssessmentReq) groupAssessmentReq
  let groupResult : Option GroupAssessmentResponse := groupOut.1.toOption
  let store1 :=
    match groupResult with
    | none => pr.handler.assessmentResults
    | some g => storeStore pr.handler.assessmentResults (sessionID ++ "_group") (.group g)
  let type_ : Option String :=
    match pr.results with
    | [] => none
    | firstResult :: _ =>
      if firstResult.participant_id ≠ "unified" then some "unified_individual" else none
  { pr.handler with
    assessmentResults :=
      storeStore store1 (sessionID ++ "_consolidated")
        (.consolidated { session_id := sessionID, assessments := pr.results,
                         group_assessment := groupResult, timestamp := w.now,
                         type_ := type_ }) }

/-- The unified branch of the consolidated task (lines 808-862): the service alone when
the task returns early on an error, else the handler and the results so far. -/
def processUnifiedTranscript (w : HandlerEnv) (h : SonioxHandler) (sessionID : String)
    (transcript : String) : Except LLMAssessmentService ConsolidatedProgress :=
  let assessmentReq : AssessmentRequest :=
    { ParticipantID := "unified", SessionID := sessionID, Transcript := transcript,
      Criteria := w.criteria, Language := "vietnamese", Context := "" }
  let out := ProcessAssessment w.env h.llmService (buildAssessmentPrompt assessmentReq)
    assessmentReq
  match out.result with
  | .error _ => .error out.service
  | .ok result =>
    if result.ParticipantID = "unified_multiple" then
      .ok ((GetLastUnifiedAssessments out.service).foldl (storeUnifiedStep sessionID)
        ⟨{ h with llmService := out.service }, []⟩)
    else
      .ok
        { handler :=
            { llmService := out.service,
              assessmentResults :=
                storeStore h.assessmentResults (sessionID ++ "_unified")
                  (.assessment result) },
          results := [{ participant_id := "unified", participant_name := "All Speakers",
                        results := result.Results }] }

/-- processConsolidatedAssessmentInBackground processes assessment for all participants. -/
def processConsolidatedAssessmentInBackground (w : HandlerEnv) (h : SonioxHandler)
    (sessionID : String) (conversation : List ConsolidatedTranscriptParticipant) :
    SonioxHandler :=
  let fullConversation := fullConversationOf conversation
  let individual : SonioxHandler :=
    storeGroupAndConsolidated w sessionID fullConversation
      (conversation.foldl (storeIndividualStep w sessionID fullConversation) ⟨h, []⟩)
  match conversation with
  | [only] =>
    if only.ParticipantID = "unified" then
      match processUnifiedTranscript w h sessionID only.Transcript with
      | .error service => { h with llmService := service }
      | .ok pr => storeGroupAndConsolidated w sessionID fullConversation pr
    else individual
  | _ => individual

/-- The writes of `SubmitAsyncTranscription` (lines 1011-1015 and 1195-1203). `provider` is
the file id and the transcription id when the upload and the job creation succeeded, and
`none` when the handler returned before line 1195. -/
def SubmitAsyncTranscription (h : SonioxHandler) (sessionID : String)
    (speakerMapping manualCorrections : List (Int × String))
    (provider : Option (String × String)) : SonioxHandler :=
  if sessionID = "" then h
  else
    match provider with
    | none => h
    | some (fileID, transcriptionID) =>
      let s1 := storeStore h.assessmentResults (sessionID ++ "_async_id")
        (.text transcriptionID)
      let s2 := storeStore s1 (sessionID ++ "_file_id") (.text fileID)
      let s3 := if speakerMapping.length > 0 then
        storeStore s2 (sessionID ++ "_speaker_mapping") (.names speakerMapping) else s2
      let s4 := if manualCorrections.length > 0 then
        storeStore s3 (sessionID ++ "_manual_corrections") (.names manualCorrections) else s3
      { h with assessmentResults := s4 }

/-- How `GetAsyncTranscriptionStatus` obtains the transcription id (lines 1216-1230). -/
inductive TranscriptionLookup where
  | badRequest
  | notFound
  | assertionPanic
  | found (transcriptionID : String)
deriving DecidableEq

/-- Lines 1216-1230 of `GetAsyncTranscriptionStatus`: the load of the transcription id and
the unchecked type assertion `value.(string)`. -/
def lookupTranscriptionID (h : SonioxHandler) (sessionID : String) : TranscriptionLookup :=
  if sessionID = "" then .badRequest
  else
    match storeLoad h.assessmentResults (sessionID ++ "_async_id") with
    | none => .notFound
    | some (.text transcriptionID) => .found transcriptionID
    | some _ => .assertionPanic

/-- The reply of `GetConsolidatedAssessmentResults`. -/
inductive ConsolidatedReply where
  | badRequest (error : String)
  | stored (value : StoreValue)
  | assembled (session_id : String) (assessments : List (String × List AssessmentResult))
  | notFound
deriving DecidableEq

/-- The test of line 975 on a stored key: longer than the session id, beginning with it,
and not the consolidated key. Lengths are counted in characters; together with the
comparison of the initial part this is the same test as on bytes. -/
def isSessionKey (sessionID keyStr : String) : Bool :=
  decide (keyStr.length > sessionID.length)
    && decide (keyStr.data.take sessionID.length = sessionID.data)
    && decide (keyStr ≠ sessionID ++ "_consolidated")

/-- The `Range` callback of lines 973-985 over the stored entries. -/
def scanSession (store : List (String × StoreValue)) (sessionID : String) :
    List (String × List AssessmentResult) :=
  store.filterMap (fun e =>
    if isSessionKey sessionID e.1 then
      match e.2 with
      | .assessment assessmentResult =>
        some (assessmentResult.ParticipantID, assessmentResult.Results)
      | _ => none
    else none)

/-- GetConsolidatedAssessmentResults retrieves consolidated assessment results for all
participants. -/
def GetConsolidatedAssessmentResults (w : HandlerEnv) (h : SonioxHandler)
    (sessionID : String) : ConsolidatedReply :=
  if sessionID = "" then .badRequest "session_id is required"
  else if sessionID ≠ "test" ∧ w.validUUID sessionID = false then
    .badRequest "invalid session_id format"
  else
    match storeLoad h.assessmentResults (sessionID ++ "_consolidated") with
    | some result => .stored result
    | none =>
      if (scanSession h.assessmentResults sessionID).length > 0 then
        .assembled sessionID (scanSession h.assessmentResults sessionID)
      else .notFound
/-- Whether a stored value is an `*AssessmentResponse` (the checked assertion of
line 976). -/
def isAssessmentValue : StoreValue → Bool
  | .assessment _ => true
  | _ => false

/-! ## Pagination of the assessment lists (`assessment_handler.go`) -/

/-- The value returned by the Go `strconv.Atoi` on a 64-bit platform, its error dropped:
an optional sign and decimal digits give their value, clamped to the `int` range, and
anything else gives 0. -/
def atoi (s : String) : Int :=
  match s.data with
  | [] => 0
  | c :: cs =>
    let ds := if c = '+' ∨ c = '-' then cs else c :: cs
    if ds.isEmpty ∨ ¬ (ds.all Char.isDigit = true) then 0
    else if c = '-' then
      (if digitsValue ds > 2 ^ 63 then -(2 ^ 63) else -(digitsValue ds : Int))
    else (if digitsValue ds ≥ 2 ^ 63 then 2 ^ 63 - 1 else (digitsValue ds : Int))

/-- Wrap-around of 64-bit signed arithmetic. -/
def wrapInt64 (x : Int) : Int :=
  (x + 2 ^ 63) % 2 ^ 64 - 2 ^ 63

/-- The expression `(total + int64(limit) - 1) / int64(limit)` of lines 96, 329 and 368:
`none` stands for the run-time panic of an integer division by zero. -/
def pageCount (total limit : Int) : Option Int :=
  if limit = 0 then none
  else some (wrapInt64 (Int.tdiv (wrapInt64 (wrapInt64 (total + limit) - 1)) limit))

/-- The reply of a paginated list handler. -/
inductive PageReply where
  | badRequest (error : String)
  | internalError (error : String)
  | divisionPanic
  | ok (page limit total pages : Int)
deriving DecidableEq

/-- The pagination shared by the three list handlers: `pageQuery` and `limitQuery` are the
query parameters when present, `listAssessments offset limit` is the service call
`h.assessmentService.ListAssessments` with the total it returns. -/
def paginate (defaultLimit : String) (pageQuery limitQuery : Option String)
    (listAssessments : Int → Int → Except String Int) : PageReply :=
  let page := atoi (pageQuery.getD "1")
  let limit := atoi (limitQuery.getD defaultLimit)
  let offset := wrapInt64 (wrapInt64 (page - 1) * limit)
  match listAssessments offset limit with
  | .error err => .internalError err
  | .ok total =>
    match pageCount total limit with
    | none => .divisionPanic
    | some pages => .ok page limit total pages

/-- ListAssessments handles GET /api/v1/assessments (pagination part). -/
def ListAssessments (pageQuery limitQuery : Option String)
    (listAssessments : Int → Int → Except String Int) : PageReply :=
  paginate "20" pageQuery limitQuery listAssessments

/-- GetEmployeeAssessments handles GET /api/v1/employees/:id/assessments (pagination
part); `employeeIDValid` is the outcome of `uuid.Parse` on the path parameter. -/
def GetEmployeeAssessments (employeeIDValid : Bool) (pageQuery limitQuery : Option String)
    (listAssessments : Int → Int → Except String Int) : PageReply :=
  if employeeIDValid then paginate "10" pageQuery limitQuery listAssessments
  else .badRequest "Invalid employee ID"

/-- GetPendingAssessments handles GET /api/v1/assessments/pending (pagination part). -/
def GetPendingAssessments (pageQuery limitQuery : Option String)
    (listAssessments : Int → Int → Except String Int) : PageReply :=
  paginate "20" pageQuery limitQuery listAssessments

/-! ## Concrete inputs used by the evaluations below -/

/-- A criterion with the given id and weight and no rubric text. -/
def sampleCriterion (id : String) (weight : F64) : AssessmentCriteria :=
  { ID := id, Name := id, Category := "", Description := "", DetailedBehaviors := "",
    Weight := weight, LevelDescriptors := [],
    CaseSpecificExamples := [], KeyObservables := [] }

/-- Three criteria with weights 0.2, 0.3 and 0.5. -/
def sampleCriteria : List AssessmentCriteria :=
  [sampleCriterion "c1" (F64.ofRatio 2 10), sampleCriterion "c2" (F64.ofRatio 3 10),
   sampleCriterion "c3" (F64.ofRatio 5 10)]

/-- A score entry with no evidence and no text. -/
def sampleScore (score : Int) : CompetencyScore :=
  { Score := score, Evidence := [], Feedback := "", LevelJustification := "" }

/-- A decoded participant scored 0, 4 and 2 on `c1`, `c2` and `c3`. -/
def sampleParticipant (id : String) : ParticipantAssessment :=
  { ParticipantID := id, ParticipantName := id, AssignedRole := "",
    Scores := fun k =>
      if k = "c1" then some (sampleScore 0)
      else if k = "c2" then some (sampleScore 4)
      else if k = "c3" then some (sampleScore 2)
      else none,
    FunctionalCompetencyObs := fun _ => none, RoleSpecificAnalysis := fun _ => none,
    KeyStrengths := [], DevelopmentPriorities := [], CaseInsightHandling := fun _ => none,
    StandoutMoments := [], OverallAssessment := "", GroupContribution := "" }

/-- A request over `sampleCriteria` in session `s1`. -/
def sampleRequest (participantID transcript : String) : AssessmentRequest :=
  { ParticipantID := participantID, SessionID := "s1", Transcript := transcript,
    Criteria := sampleCriteria, Language := "english", Context := "" }

/-- A service with only the Anthropic key configured and no stored batch. -/
def sampleService : LLMAssessmentService :=
  { geminiAPIKey := "", anthropicAPIKey := "key", lastUnifiedAssessments := [] }

/-- A speech token with the given speaker string, text and times. -/
def sampleToken (speaker text : String) (startMs endMs : Int) : Token :=
  { Text := text, StartMs := startMs, EndMs := endMs, Confidence := F64.ofInt 1,
    Speaker := speaker,
    Language := "", IsAudioEvent := none }

/-- The token stream `Hi ` and `there` by speaker 1, then `Hello` by speaker 2. -/
def sampleTokens : List Token :=
  [sampleToken "1" "Hi " 0 400, sampleToken "1" "there" 500 900,
   sampleToken "2" "Hello" 1200 1800]

/-- Manual corrections naming speaker 1 `Anh`. -/
def sampleManualCorrections : Int → Option String :=
  fun t => if t = 1 then some "Anh" else none

/-- Automatic speaker mapping naming speaker 1 `Minh`. -/
def sampleSpeakerMapping : Int → Option String :=
  fun t => if t = 1 then some "Minh" else none

/-- A provider that answers the first model identifier with a server error whose body
mentions 404, and every other request with a decodable success. -/
def sampleGeminiEnv : Env :=
  { post := fun url _ =>
      if url = geminiURL "gemini-2.0-flash-exp" then
        .response 500 "backend failure, trace 404"
      else .response 200 "ok",
    decodeClaude := fun _ => .error "unused",
    decodeGemini := fun _ => .ok ⟨[⟨[⟨"answer"⟩]⟩]⟩,
    unmarshalParticipants := fun _ => none }

/-- A provider that answers 404 for the first two model identifiers and succeeds for
every other one. -/
def sampleNotFoundEnv : Env :=
  { post := fun url _ =>
      if url = geminiURL "gemini-2.0-flash-exp" ∨ url = geminiURL "gemini-1.5-flash-latest"
      then .response 404 "model is not found"
      else .response 200 "ok",
    decodeClaude := fun _ => .error "unused",
    decodeGemini := fun _ => .ok ⟨[⟨[⟨"answer"⟩]⟩]⟩,
    unmarshalParticipants := fun _ => none }

/-- A provider that answers 404 for every request. -/
def sampleAllNotFoundEnv : Env :=
  { post := fun _ _ => .response 404 "model is not found",
    decodeClaude := fun _ => .error "unused",
    decodeGemini := fun _ => .error "unused",
    unmarshalParticipants := fun _ => none }

/-- A Claude backend answering with a text block, a block of another type and a second
text block. -/
def sampleClaudeEnv : Env :=
  { post := fun _ _ => .response 200 "body",
    decodeClaude := fun _ =>
      .ok ⟨[⟨"Hello, ", "text"⟩, ⟨"ignored", "tool_use"⟩, ⟨"world", "text"⟩], "end_turn"⟩,
    decodeGemini := fun _ => .error "unused",
    unmarshalParticipants := fun _ => none }

/-- A Gemini backend whose first candidate carries the two parts `Hello, ` and `world`. -/
def sampleMultiPartEnv : Env :=
  { post := fun _ _ => .response 200 "body",
    decodeClaude := fun _ => .error "unused",
    decodeGemini := fun _ => .ok ⟨[⟨[⟨"Hello, "⟩, ⟨"world"⟩]⟩]⟩,
    unmarshalParticipants := fun _ => none }

/-- A decoded participant whose scores for `c1` and `c2` are 7 and -1. -/
def sampleOutOfRangeParticipant : ParticipantAssessment :=
  { sampleParticipant "p1" with
    Scores := fun k =>
      if k = "c1" then some (sampleScore 7)
      else if k = "c2" then some (sampleScore (-1))
      else none }

/-- A Claude backend answering with `reply` as its only text block. -/
def sampleReplyEnv (reply : String) : Env :=
  { post := fun _ _ => .response 200 "body",
    decodeClaude := fun _ => .ok ⟨[⟨reply, "text"⟩], "end_turn"⟩,
    decodeGemini := fun _ => .error "unused",
    unmarshalParticipants := fun _ => none }

/-- A group assessment request for session `s1`. -/
def sampleGroupRequest : GroupAssessmentRequest :=
  { SessionID := "s1", Transcript := "", Criteria := [], Language := "vietnamese" }

/-- Handler surroundings in which Claude answers every prompt with `[]` and the participant
list does not decode, so that every assessment ends in the fallback response. -/
def sampleHandlerEnv : HandlerEnv :=
  { env := { sampleReplyEnv "[]" with unmarshalParticipants := fun _ => none },
    unmarshalObject := fun _ => .error "unused",
    validUUID := fun _ => false,
    criteria := sampleCriteria,
    groupCriteria := [],
    now := 0 }

/-- A handler with the sample service and an empty result map. -/
def sampleHandler : SonioxHandler :=
  { llmService := sampleService, assessmentResults := [] }

/-- A transcript of `n` one-letter words, each followed by a blank. -/
def wordsTranscript (n : Nat) : String :=
  String.mk (List.replicate n ['w', ' ']).flatten

/-! ## Quantities used to state the accuracy of the floating-point scores -/

/-- The relative rounding error of one `float64` operation: 2^-53. -/
def unitRoundoff : ℚ := 2 ^ (-53 : Int)

/-- The value `x` approximates the exact value `e` after at most `m` roundings: each
rounding changes a value by the factor 1 ± 2^-53 at most. -/
def Approx (m : Nat) (x e : ℚ) : Prop :=
  e * (1 - unitRoundoff) ^ m ≤ x ∧ x ≤ e * (1 + unitRoundoff) ^ m

/-- The weight of every criterion of the list is finite and not negative. -/
def WeightsNonneg (cs : List AssessmentCriteria) : Prop :=
  ∀ c ∈ cs, c.Weight.isFinite = true ∧ 0 ≤ c.Weight.toRat

/-- The weights of a criteria list are in range: finite and not negative, at most 2^1000 in
sum, and at most 2^40 in number, so that no sum of the scoring loops overflows. -/
def WeightsInRange (cs : List AssessmentCriteria) : Prop :=
  WeightsNonneg cs
  ∧ (cs.map (fun c => c.Weight.toRat)).sum ≤ 2 ^ (1000 : Int)
  ∧ cs.length ≤ 1099511627776

/-- The exact weighted average of the scores over the criteria the participant has an entry
for: the quotient of the exact sums, 0 when the weights sum to 0. -/
def exactOverall (cs : List AssessmentCriteria) (p : ParticipantAssessment) : ℚ :=
  (cs.map (scoredValue p)).sum / (cs.map (scoredWeight p)).sum

/-- A decoded participant with the same score for every criterion and no text. -/
def uniformParticipant (score : Int) : ParticipantAssessment :=
  { ParticipantID := "", ParticipantName := "", AssignedRole := "",
    Scores := fun _ => some { Score := score, Evidence := [], Feedback := "",
                              LevelJustification := "" },
    FunctionalCompetencyObs := fun _ => none, RoleSpecificAnalysis := fun _ => none,
    KeyStrengths := [], DevelopmentPriorities := [], CaseInsightHandling := fun _ => none,
    StandoutMoments := [], OverallAssessment := "", GroupContribution := "" }

/-- The bound on the overall score over `n` criteria: 5 (1 + (3 n + 1) 2^-52). -/
def overallUpperBound (n : Nat) : ℚ := 5 * (1 + (3 * (n : ℚ) + 1) * 2 ^ (-52 : Int))

/-- Two criteria with the weights 0.15 and 0.3. -/
def roundingCriteria : List AssessmentCriteria :=
  [sampleCriterion "c1" (F64.ofRatio 15 100), sampleCriterion "c2" (F64.ofRatio 3 10)]

/-- A decoded participant `p1` scored 5 on every criterion. -/
def sampleFivesParticipant : ParticipantAssessment :=
  { sampleParticipant "p1" with Scores := fun _ => some (sampleScore 5) }

/-- Two criteria with the weight 0.05 each. -/
def twentiethCriteria : List AssessmentCriteria :=
  [sampleCriterion "c1" (F64.ofRatio 5 100), sampleCriterion "c2" (F64.ofRatio 5 100)]

/-- The factor `k` rescales the weights of the list within range: it is finite and
positive, k times the sum of the weights is at most 2^999, and no product of k with a
weight other than 0 falls below 2^-1022. -/
def ScalingInRange (k : F64) (cs : List AssessmentCriteria) : Prop :=
  k.isFinite = true ∧ 0 < k.toRat
  ∧ k.toRat * (cs.map (fun c => c.Weight.toRat)).sum ≤ 2 ^ (999 : Int)
  ∧ ∀ c ∈ cs, c.Weight.toRat = 0 ∨ (2 : ℚ) ^ (-1022 : Int) ≤ k.toRat * c.Weight.toRat

/-- The bound on the change of the overall score over `n` criteria when the weights are
rescaled: (30 n + 21) 2^-52. -/
def rescalingBound (n : Nat) : ℚ := (30 * (n : ℚ) + 21) * 2 ^ (-52 : Int)

/-- Truncation of a rational toward zero. -/
def truncRat (x : ℚ) : Int := if 0 ≤ x then ⌊x⌋ else -⌊-x⌋

/-- The text that `ProcessGroupAssessment` hands to the decoder (lines 1095-1107): the
trimmed reply from its first opening brace to its last closing brace. -/
def groupJSONSpan (llmResponse : String) : String :=
  sliceStr (trimSpace llmResponse) (indexChar (Char.ofNat 123) (trimSpace llmResponse).data)
    (lastIndexChar (Char.ofNat 125) (trimSpace llmResponse).data + 1)

/-- A decoder of the object text with the score 4.7, failing on every other text. -/
def sampleScoreDecoder (jsonStr : String) : Except String (List (String × JSONValue)) :=
  if jsonStr = "\x7b\"score\": 4.7\x7d" then .ok [("score", .number (F64.ofRatio 47 10))]
  else .error "unexpected text"

/-- A decoder of the object text with the score 7, failing on every other text. -/
def sampleSevenDecoder (jsonStr : String) : Except String (List (String × JSONValue)) :=
  if jsonStr = "\x7b\"score\": 7\x7d" then .ok [("score", .number (F64.ofInt 7))]
  else .error "unexpected text"

/-- The endpoint that `callClaudeAPI` posts to. -/
def claudeURL : String := "https://api.anthropic.com/v1/messages"

/-- Two criteria with the weight 2^1023 each, the largest power of two of a `float64`. -/
def hugeCriteria : List AssessmentCriteria :=
  [sampleCriterion "c1" ⟨false, 2046, 0⟩, sampleCriterion "c2" ⟨false, 2046, 0⟩]

/-- Two criteria with the weight 2^999 each. -/
def largeCriteria : List AssessmentCriteria :=
  [sampleCriterion "c1" ⟨false, 2022, 0⟩, sampleCriterion "c2" ⟨false, 2022, 0⟩]

/-- Two criteria with the weight 2^-1074 each, the smallest positive `float64`. -/
def tinyCriteria : List AssessmentCriteria :=
  [sampleCriterion "c1" ⟨false, 0, 1⟩, sampleCriterion "c2" ⟨false, 0, 1⟩]

/-- One criterion `c2` with the weight -1. -/
def negativeCriteria : List AssessmentCriteria :=
  [sampleCriterion "c2" (F64.ofInt (-1))]

/-! ## Status derivation and weighted score of a decoded participant -/

/-- C1 (behaviour of the code): for a present score entry both paths derive "Fail" for every
score below 3, the score 0 included, and "Pass" from 3 on; "N/A" is never derived for a
present entry. Decoding a participant scored 0, 4, 2 gives statuses Fail, Pass, Fail on the
individual path and in the unified batch. -/
theorem status_of_zero_entry_is_fail :
    (∀ score : Int, score < 3 → unifiedStatus score = "Fail" ∧ individualStatus score = "Fail")
    ∧ (∀ score : Int, 3 ≤ score →
        unifiedStatus score = "Pass" ∧ individualStatus score = "Pass")
    ∧ unifiedStatus 0 = "Fail" ∧ individualStatus 0 = "Fail"
    ∧ (parseAssessmentResponse (fun _ => some [sampleParticipant "p1"]) sampleService "[]"
        (sampleRequest "p1" "")).1.toOption.map
          (fun r => r.Results.map (fun x => (x.Score, x.Status)))
        = some [(0, "Fail"), (4, "Pass"), (2, "Fail")]
    ∧ (GetLastUnifiedAssessments
        (parseAssessmentResponse (fun _ => some [sampleParticipant "p1"]) sampleService "[]"
          (sampleRequest "unified" "")).2).map
          (fun r => r.Results.map (fun x => (x.Score, x.Status)))
        = [[(0, "Fail"), (4, "Pass"), (2, "Fail")]] := by
  refine ⟨?_, ?_, by decide, by decide, by decide, by decide⟩
  · intro score h
    simp [unifiedStatus, individualStatus, h]
  · intro score h
    have h1 : ¬ score < 3 := by omega
    have h2 : ¬ score = 0 := by omega
    simp [unifiedStatus, individualStatus, h1, h2]

theorem sample_individual_overall :
    (individualResponse (sampleRequest "p1" "") (sampleParticipant "p1")).OverallScore
      = F64.ofRatio 11 5 := by
  set_option maxRecDepth 100000 in decide

theorem sample_unified_overall :
    (unifiedResponse (sampleRequest "unified" "") (sampleParticipant "p1")).OverallScore
      = F64.ofRatio 11 5 := by
  set_option maxRecDepth 100000 in decide

/-- C2 (behaviour of the code): with weights 0.2, 0.3, 0.5 and decoded scores 0, 4, 2 the
overall score returned on the individual path and stored on the unified path is
(0×0.2 + 4×0.3 + 2×0.5) / (0.2 + 0.3 + 0.5), the `float64` 2.2, not 2.75: the weight of the
criterion scored 0 stays in the denominator. -/
theorem overall_score_keeps_zero_scored_weight :
    (parseAssessmentResponse (fun _ => some [sampleParticipant "p1"]) sampleService "[]"
        (sampleRequest "p1" "")).1.toOption.map (fun r => r.OverallScore)
      = some (F64.ofRatio 11 5)
    ∧ (GetLastUnifiedAssessments
        (parseAssessmentResponse (fun _ => some [sampleParticipant "p1"]) sampleService "[]"
          (sampleRequest "unified" "")).2).map (fun r => r.OverallScore) = [F64.ofRatio 11 5]
    ∧ F64.ofRatio 11 5 ≠ F64.ofRatio 11 4 := by
  have h1 : (parseAssessmentResponse (fun _ => some [sampleParticipant "p1"]) sampleService
      "[]" (sampleRequest "p1" "")).1
      = .ok (individualResponse (sampleRequest "p1" "") (sampleParticipant "p1")) := by
    rfl
  have h2 : GetLastUnifiedAssessments
      (parseAssessmentResponse (fun _ => some [sampleParticipant "p1"]) sampleService "[]"
        (sampleRequest "unified" "")).2
      = [unifiedResponse (sampleRequest "unified" "") (sampleParticipant "p1")] := by
    rfl
  refine ⟨?_, ?_, by decide⟩
  · rw [h1]
    simp only [Except.toOption, Option.map, sample_individual_overall]
  · rw [h2]
    simp only [List.map, sample_unified_overall]

/-! ## Parse errors and the fallback response -/

/-- C3 (behaviour of the code): for prose without any bracket the parser returns the error
"no valid JSON array found in LLM response" and no response, whatever the decoder, service
and request; `ProcessAssessment` hands that error on to its caller, wrapped. -/
theorem prose_without_brackets_is_an_error
    (unmarshal : String → Option (List ParticipantAssessment)) (s : LLMAssessmentService)
    (req : AssessmentRequest) (env : Env) (prompt : String) :
    parseAssessmentResponse unmarshal s "I cannot assess this transcript." req
      = (.error "no valid JSON array found in LLM response", s)
    ∧ (ProcessAssessment
        { env with
          post := fun _ _ => .response 200 "",
          decodeClaude := fun _ =>
            .ok ⟨[⟨"I cannot assess this transcript.", "text"⟩], "end_turn"⟩ }
        sampleService prompt req).result
      = .error ("failed to parse assessment response: "
          ++ "no valid JSON array found in LLM response") := by
  constructor
  · rfl
  · rfl

theorem fieldsAux_words (n : Nat) :
    fieldsAux [] (List.replicate n ['w', ' ']).flatten = List.replicate n ['w'] := by
  induction n with
  | zero => rfl
  | succ k ih =>
    have hw : isSpace 'w' = false := by decide
    have hs : isSpace ' ' = true := by decide
    simp [List.replicate_succ, fieldsAux, hw, hs, ih]

theorem fields_wordsTranscript (n : Nat) : (fields (wordsTranscript n)).length = n := by
  simp [fields, wordsTranscript, fieldsAux_words]

theorem fallback_results_map (req : AssessmentRequest) :
    (createFallbackResponse req).Results
      = req.Criteria.map (fallbackResult (decide ((fields req.Transcript).length < 50))
          (fields req.Transcript).length) := rfl

/-- C4: `createFallbackResponse` gives every criterion, in order, score 0 and status "N/A"
when the transcript has fewer than 50 whitespace-separated words and score 3 and status
"Pass" otherwise; transcripts of 40, 60 and exactly 50 words give all 0/N-A, all 3/Pass and
all 3/Pass. -/
theorem createFallbackResponse_word_threshold :
    (∀ req : AssessmentRequest,
      (createFallbackResponse req).Results.map (fun r => (r.CriterionID, r.Score, r.Status))
        = req.Criteria.map (fun c =>
            (c.ID, if (fields req.Transcript).length < 50 then ((0 : Int), "N/A")
                   else ((3 : Int), "Pass"))))
    ∧ (fields (wordsTranscript 40)).length = 40
    ∧ (fields (wordsTranscript 60)).length = 60
    ∧ (fields (wordsTranscript 50)).length = 50
    ∧ (∀ pid sid criteria lang ctx,
        (createFallbackResponse ⟨pid, sid, wordsTranscript 40, criteria, lang, ctx⟩).Results.map
          (fun r => (r.Score, r.Status)) = criteria.map (fun _ => ((0 : Int), "N/A")))
    ∧ (∀ pid sid criteria lang ctx,
        (createFallbackResponse ⟨pid, sid, wordsTranscript 60, criteria, lang, ctx⟩).Results.map
          (fun r => (r.Score, r.Status)) = criteria.map (fun _ => ((3 : Int), "Pass")))
    ∧ (∀ pid sid criteria lang ctx,
        (createFallbackResponse ⟨pid, sid, wordsTranscript 50, criteria, lang, ctx⟩).Results.map
          (fun r => (r.Score, r.Status)) = criteria.map (fun _ => ((3 : Int), "Pass"))) := by
  refine ⟨?_, fields_wordsTranscript 40, fields_wordsTranscript 60, fields_wordsTranscript 50,
    ?_, ?_, ?_⟩
  · intro req
    rw [fallback_results_map, List.map_map]
    apply List.map_congr_left
    intro c _
    by_cases h : (fields req.Transcript).length < 50 <;> simp [fallbackResult, h]
  all_goals
    intro pid sid criteria lang ctx
    rw [fallback_results_map, List.map_map]
    apply List.map_congr_left
    intro c _
    simp [fallbackResult, fields_wordsTranscript]

/-! ## Unified and individual paths of `parseAssessmentResponse` -/

/-- C5: on a unified request whose bracket span decodes to a non-empty list, the parser
returns the "unified_multiple" sentinel (request's session id, no results, overall score 0,
summary with the batch size), and `GetLastUnifiedAssessments` afterwards returns one response
per decoded participant, in order, each with that participant's id and the request's
session id. -/
theorem unified_round_trip (unmarshal : String → Option (List ParticipantAssessment))
    (s : LLMAssessmentService) (llmResponse : String) (req : AssessmentRequest)
    (participants : List ParticipantAssessment)
    (hu : req.ParticipantID = "unified")
    (hspan : ¬ (indexChar '[' llmResponse.data = -1
      ∨ lastIndexChar ']' llmResponse.data + 1 ≤ indexChar '[' llmResponse.data))
    (hdec : unmarshal (sliceStr llmResponse (indexChar '[' llmResponse.data)
      (lastIndexChar ']' llmResponse.data + 1)) = some participants)
    (hne : participants ≠ []) :
    (parseAssessmentResponse unmarshal s llmResponse req).1
      = .ok { ParticipantID := "unified_multiple", SessionID := req.SessionID, Results := [],
              OverallScore := F64.zero false,
              Summary := "Unified assessment with " ++ toString participants.length
                ++ " participants" }
    ∧ (GetLastUnifiedAssessments
        (parseAssessmentResponse unmarshal s llmResponse req).2).length = participants.length
    ∧ (GetLastUnifiedAssessments (parseAssessmentResponse unmarshal s llmResponse req).2).map
        (fun r => (r.ParticipantID, r.SessionID))
      = participants.map (fun p => (p.ParticipantID, req.SessionID)) := by
  have hlen : 0 < participants.length := List.length_pos.mpr hne
  simp only [parseAssessmentResponse, if_neg hspan, hdec, hu, if_true, List.length_map,
    gt_iff_lt, if_pos hlen, GetLastUnifiedAssessments, List.map_map]
  refine ⟨trivial, trivial, ?_⟩
  apply List.map_congr_left
  intro p _
  rfl

/-- C5 at a two-participant reply: the sentinel is returned and the batch has exactly two
entries, for `p1` and `p2`. -/
theorem unified_round_trip_two_participants :
    (parseAssessmentResponse (fun _ => some [sampleParticipant "p1", sampleParticipant "p2"])
        sampleService "reply: [two participants]" (sampleRequest "unified" "")).1
      = .ok { ParticipantID := "unified_multiple", SessionID := "s1", Results := [],
              OverallScore := F64.zero false,
              Summary := "Unified assessment with 2 participants" }
    ∧ (GetLastUnifiedAssessments
        (parseAssessmentResponse
          (fun _ => some [sampleParticipant "p1", sampleParticipant "p2"])
          sampleService "reply: [two participants]" (sampleRequest "unified" "")).2).length = 2
    ∧ (GetLastUnifiedAssessments
        (parseAssessmentResponse
          (fun _ => some [sampleParticipant "p1", sampleParticipant "p2"])
          sampleService "reply: [two participants]" (sampleRequest "unified" "")).2).map
        (fun r => (r.ParticipantID, r.SessionID)) = [("p1", "s1"), ("p2", "s1")] :=
  unified_round_trip (fun _ => some [sampleParticipant "p1", sampleParticipant "p2"])
    sampleService "reply: [two participants]" (sampleRequest "unified" "")
    [sampleParticipant "p1", sampleParticipant "p2"] rfl (by decide) rfl (by simp)

theorem findTarget_first (participantID : String) (pre post : List ParticipantAssessment)
    (p : ParticipantAssessment)
    (hpre : ∀ q ∈ pre, ¬ (q.ParticipantID = participantID ∨ q.ParticipantName = participantID))
    (hp : p.ParticipantID = participantID ∨ p.ParticipantName = participantID) :
    findTarget participantID (pre ++ p :: post) = some p := by
  induction pre with
  | nil => simp [findTarget, hp]
  | cons q qs ih =>
    have hq := hpre q (List.mem_cons_self q qs)
    have hqs : ∀ r ∈ qs,
        ¬ (r.ParticipantID = participantID ∨ r.ParticipantName = participantID) :=
      fun r hr => hpre r (List.mem_cons_of_mem q hr)
    simp only [List.cons_append, findTarget, if_neg hq]
    exact ih hqs

theorem findTarget_none (participantID : String) (ps : List ParticipantAssessment)
    (h : ∀ q ∈ ps, ¬ (q.ParticipantID = participantID ∨ q.ParticipantName = participantID)) :
    findTarget participantID ps = none := by
  induction ps with
  | nil => rfl
  | cons q qs ih =>
    have hq := h q (List.mem_cons_self q qs)
    simp only [findTarget, if_neg hq]
    exact ih (fun r hr => h r (List.mem_cons_of_mem q hr))

/-- C6: on an individual request with a decodable list, the parser scores the first decoded
participant whose id or name equals the requested participant id and returns that result
under the requested participant id and session id; when no decoded participant matches it
returns exactly `createFallbackResponse req`. The service is left as it was. -/
theorem individual_path_first_match (unmarshal : String → Option (List ParticipantAssessment))
    (s : LLMAssessmentService) (llmResponse : String) (req : AssessmentRequest)
    (participants : List ParticipantAssessment)
    (hu : req.ParticipantID ≠ "unified")
    (hspan : ¬ (indexChar '[' llmResponse.data = -1
      ∨ lastIndexChar ']' llmResponse.data + 1 ≤ indexChar '[' llmResponse.data))
    (hdec : unmarshal (sliceStr llmResponse (indexChar '[' llmResponse.data)
      (lastIndexChar ']' llmResponse.data + 1)) = some participants) :
    (∀ pre p post, participants = pre ++ p :: post →
      (∀ q ∈ pre, ¬ (q.ParticipantID = req.ParticipantID
        ∨ q.ParticipantName = req.ParticipantID)) →
      (p.ParticipantID = req.ParticipantID ∨ p.ParticipantName = req.ParticipantID) →
      parseAssessmentResponse unmarshal s llmResponse req
        = (.ok { ParticipantID := req.ParticipantID, SessionID := req.SessionID,
                 Results := (req.Criteria.foldl (individualScoreStep p)
                   ⟨[], F64.zero false, F64.zero false⟩).results,
                 OverallScore := normalize (req.Criteria.foldl (individualScoreStep p)
                   ⟨[], F64.zero false, F64.zero false⟩),
                 Summary := summaryOf p }, s))
    ∧ ((∀ q ∈ participants, ¬ (q.ParticipantID = req.ParticipantID
        ∨ q.ParticipantName = req.ParticipantID)) →
      parseAssessmentResponse unmarshal s llmResponse req
        = (.ok (createFallbackResponse req), s)) := by
  constructor
  · intro pre p post hsplit hpre hp
    have hf := findTarget_first req.ParticipantID pre post p hpre hp
    simp only [parseAssessmentResponse, if_neg hspan, hdec, if_neg hu, hsplit, hf,
      individualResponse]
  · intro hnone
    have hf := findTarget_none req.ParticipantID participants hnone
    simp only [parseAssessmentResponse, if_neg hspan, hdec, if_neg hu, hf]

/-- C6 at a concrete reply: `p2` is matched behind the non-matching `p1` and answered under
the requested id `p2` in session `s1`; a request for the absent `p3` gets the fallback
response. -/
theorem individual_path_first_match_sample :
    parseAssessmentResponse (fun _ => some [sampleParticipant "p1", sampleParticipant "p2"])
        sampleService "[reply]" (sampleRequest "p2" "")
      = (.ok { ParticipantID := "p2", SessionID := "s1",
               Results := (sampleCriteria.foldl
                 (individualScoreStep (sampleParticipant "p2"))
                 ⟨[], F64.zero false, F64.zero false⟩).results,
               OverallScore := normalize (sampleCriteria.foldl
                 (individualScoreStep (sampleParticipant "p2"))
                 ⟨[], F64.zero false, F64.zero false⟩),
               Summary := summaryOf (sampleParticipant "p2") }, sampleService)
    ∧ parseAssessmentResponse (fun _ => some [sampleParticipant "p1", sampleParticipant "p2"])
        sampleService "[reply]" (sampleRequest "p3" "")
      = (.ok (createFallbackResponse (sampleRequest "p3" "")), sampleService) :=
  ⟨(individual_path_first_match
      (fun _ => some [sampleParticipant "p1", sampleParticipant "p2"])
      sampleService "[reply]" (sampleRequest "p2" "")
      [sampleParticipant "p1", sampleParticipant "p2"] (by decide) (by decide) rfl).1
      [sampleParticipant "p1"] (sampleParticipant "p2") [] rfl (by decide) (by decide),
   (individual_path_first_match
      (fun _ => some [sampleParticipant "p1", sampleParticipant "p2"])
      sampleService "[reply]" (sampleRequest "p3" "")
      [sampleParticipant "p1", sampleParticipant "p2"] (by decide) (by decide) rfl).2
      (by decide)⟩

/-! ## Segment reconstruction -/

theorem segmentStep_audio (mc sm : Int → Option String) (st : SegState) (t : Token)
    (h : isSpeech t = false) : segmentStep mc sm st t = st := by
  have h1 : t.IsAudioEvent = some true := by
    simpa [isSpeech] using h
  simp [segmentStep, h1]

theorem foldl_segmentStep_filter (mc sm : Int → Option String) (tokens : List Token) :
    ∀ st : SegState, tokens.foldl (segmentStep mc sm) st
      = (tokens.filter isSpeech).foldl (segmentStep mc sm) st := by
  induction tokens with
  | nil => intro st; rfl
  | cons t ts ih =>
    intro st
    cases h : isSpeech t with
    | false =>
      simp only [List.foldl_cons, List.filter_cons, h, segmentStep_audio mc sm st t h]
      exact ih st
    | true =>
      simp only [List.foldl_cons, List.filter_cons, h, if_true]
      exact ih _

theorem string_join_concat (l : List String) (x : String) :
    String.join (l ++ [x]) = String.join l ++ x := by
  simp [String.join, List.foldl_append]

theorem openSegment_eq_run (mc sm : Int → Option String) (t : Token) :
    openSegment mc sm t = segmentOfRun mc sm [t] := by
  simp [openSegment, segmentOfRun, String.join]

theorem segmentStep_open (mc sm : Int → Option String) (segs : List Segment) (t : Token)
    (h : isSpeech t = true) :
    segmentStep mc sm ⟨segs, none⟩ t = ⟨segs, some (segmentOfRun mc sm [t])⟩ := by
  have h1 : ¬ t.IsAudioEvent = some true := by
    simpa [isSpeech] using h
  simp [segmentStep, h1, openSegment_eq_run]

theorem segmentStep_switch (mc sm : Int → Option String) (segs : List Segment)
    (a : Token) (as : List Token) (t : Token) (h : isSpeech t = true)
    (hne : speakerIDOf a ≠ speakerIDOf t) :
    segmentStep mc sm ⟨segs, some (segmentOfRun mc sm (a :: as))⟩ t
      = ⟨segs ++ [segmentOfRun mc sm (a :: as)], some (segmentOfRun mc sm [t])⟩ := by
  have h1 : ¬ t.IsAudioEvent = some true := by
    simpa [isSpeech] using h
  have h2 : (segmentOfRun mc sm (a :: as)).Speaker ≠ speakerIDOf t := hne
  simp only [segmentStep, if_neg h1, if_pos h2, openSegment_eq_run]

theorem segmentStep_extend (mc sm : Int → Option String) (segs : List Segment)
    (a : Token) (as : List Token) (t : Token) (h : isSpeech t = true)
    (heq : speakerIDOf a = speakerIDOf t) :
    segmentStep mc sm ⟨segs, some (segmentOfRun mc sm (a :: as))⟩ t
      = ⟨segs, some (segmentOfRun mc sm (a :: (as ++ [t])))⟩ := by
  have h1 : ¬ t.IsAudioEvent = some true := by
    simpa [isSpeech] using h
  have h2 : ¬ (segmentOfRun mc sm (a :: as)).Speaker ≠ speakerIDOf t := by
    simpa [segmentOfRun] using heq
  have h3 : String.join ((a :: (as ++ [t])).map (fun u => u.Text))
      = String.join ((a :: as).map (fun u => u.Text)) ++ t.Text := by
    rw [← string_join_concat]
    simp
  simp only [segmentStep, if_neg h1, if_neg h2]
  simp only [segmentOfRun, h3, List.getLastD_concat]

/-- Walking speech tokens from an open segment that stands for the run `a :: as`: the
result is described by a decomposition into maximal runs whose first run extends
`a :: as`. -/
theorem fold_open_run (mc sm : Int → Option String) (ts : List Token) :
    ∀ (segs : List Segment) (a : Token) (as : List Token),
      (∀ t ∈ ts, isSpeech t = true) → (∀ b ∈ as, speakerIDOf b = speakerIDOf a) →
      ∃ (q : List Token) (runs : List (List Token)),
        (a :: as) ++ ts = (a :: (as ++ q)) ++ runs.flatten
        ∧ MaximalRuns ((a :: (as ++ q)) :: runs)
        ∧ finishSegments (ts.foldl (segmentStep mc sm)
            ⟨segs, some (segmentOfRun mc sm (a :: as))⟩)
          = segs ++ ((a :: (as ++ q)) :: runs).map (segmentOfRun mc sm) := by
  induction ts with
  | nil =>
    intro segs a as _ has
    refine ⟨[], [], by simp, ?_, by simp [finishSegments]⟩
    refine ⟨by simp, ?_, by simp⟩
    intro q hq x hx y hy
    simp only [List.mem_singleton] at hq
    subst hq
    have hx1 : speakerIDOf x = speakerIDOf a := by
      simp only [List.append_nil, List.mem_cons] at hx
      rcases hx with rfl | hx
      · rfl
      · exact has x hx
    have hy1 : speakerIDOf y = speakerIDOf a := by
      simp only [List.append_nil, List.mem_cons] at hy
      rcases hy with rfl | hy
      · rfl
      · exact has y hy
    rw [hx1, hy1]
  | cons t ts ih =>
    intro segs a as hsp has
    have ht : isSpeech t = true := hsp t (List.mem_cons_self t ts)
    have hts : ∀ u ∈ ts, isSpeech u = true := fun u hu => hsp u (List.mem_cons_of_mem t hu)
    by_cases hst : speakerIDOf a = speakerIDOf t
    · -- the token extends the open run
      have has1 : ∀ b ∈ as ++ [t], speakerIDOf b = speakerIDOf a := by
        intro b hb
        simp only [List.mem_append, List.mem_singleton] at hb
        rcases hb with hb | rfl
        · exact has b hb
        · exact hst.symm
      obtain ⟨q, runs, hcat, hmax, hfin⟩ := ih segs a (as ++ [t]) hts has1
      refine ⟨t :: q, runs, ?_, ?_, ?_⟩
      · simpa using hcat
      · simpa using hmax
      · rw [List.foldl_cons, segmentStep_extend mc sm segs a as t ht hst, hfin]
        simp
    · -- the token opens a new run
      obtain ⟨q, runs, hcat, hmax, hfin⟩ :=
        ih (segs ++ [segmentOfRun mc sm (a :: as)]) t [] hts (by simp)
      obtain ⟨hne, huni, hchain⟩ := hmax
      refine ⟨[], (t :: q) :: runs, ?_, ?_, ?_⟩
      · simp only [List.nil_append] at hcat
        simp only [List.append_nil, List.flatten_cons, List.cons_append, List.cons.injEq,
          true_and, List.append_cancel_left_eq]
        simpa using hcat
      · refine ⟨?_, ?_, ?_⟩
        · intro r hr
          rcases List.mem_cons.mp hr with rfl | hr
          · simp
          · exact hne r (by simpa using hr)
        · intro r hr x hx y hy
          rcases List.mem_cons.mp hr with rfl | hr
          · have hx1 : speakerIDOf x = speakerIDOf a := by
              simp only [List.append_nil, List.mem_cons] at hx
              rcases hx with rfl | hx
              · rfl
              · exact has x hx
            have hy1 : speakerIDOf y = speakerIDOf a := by
              simp only [List.append_nil, List.mem_cons] at hy
              rcases hy with rfl | hy
              · rfl
              · exact has y hy
            rw [hx1, hy1]
          · exact huni r (by simpa using hr) x hx y hy
        · rw [List.chain'_cons]
          refine ⟨?_, by simpa using hchain⟩
          intro x hx y hy
          have hx1 : speakerIDOf x = speakerIDOf a := by
            simp only [List.append_nil, List.mem_cons] at hx
            rcases hx with rfl | hx
            · rfl
            · exact has x hx
          have hy1 : speakerIDOf y = speakerIDOf t :=
            huni (t :: ([] ++ q)) (List.mem_cons_self _ _) y (by simpa using hy) t
              (List.mem_cons_self _ _)
          rw [hx1, hy1]
          exact hst
      · rw [List.foldl_cons, segmentStep_switch mc sm segs a as t ht hst, hfin]
        simp

/-- The segments are the images of a decomposition of the speech tokens into maximal
runs of equal speaker tag. -/
theorem buildSegments_runs (mc sm : Int → Option String) (tokens : List Token) :
    ∃ runs : List (List Token),
      runs.flatten = tokens.filter isSpeech ∧ MaximalRuns runs
      ∧ buildSegments mc sm tokens = runs.map (segmentOfRun mc sm) := by
  have hsp : ∀ t ∈ tokens.filter isSpeech, isSpeech t = true :=
    fun t ht => (List.mem_filter.mp ht).2
  rw [buildSegments, foldl_segmentStep_filter]
  cases hf : tokens.filter isSpeech with
  | nil =>
    exact ⟨[], rfl, ⟨by simp, by simp, by simp⟩, rfl⟩
  | cons t ts =>
    rw [hf] at hsp
    have ht : isSpeech t = true := hsp t (List.mem_cons_self t ts)
    have hts : ∀ u ∈ ts, isSpeech u = true := fun u hu => hsp u (List.mem_cons_of_mem t hu)
    obtain ⟨q, runs, hcat, hmax, hfin⟩ := fold_open_run mc sm ts [] t [] hts (by simp)
    refine ⟨(t :: ([] ++ q)) :: runs, ?_, hmax, ?_⟩
    · simpa using hcat.symm
    · rw [List.foldl_cons, segmentStep_open mc sm [] t ht, hfin]
      simp

/-- C7: the segments built from a token stream are the maximal runs of consecutive tokens
with equal numeric speaker tag among the tokens not flagged as audio events, in stream
order; a run's segment carries the tag of its tokens, their texts concatenated in order,
the start of its first token and the end of its last token (milliseconds over 1000). An
empty stream gives no segments, and `Hi `, `there` by speaker 1 followed by `Hello` by
speaker 2 gives exactly (1, "Hi there") and (2, "Hello"). -/
theorem segments_are_maximal_speaker_runs :
    (∀ (mc sm : Int → Option String) (tokens : List Token),
      ∃ runs : List (List Token),
        runs.flatten = tokens.filter isSpeech ∧ MaximalRuns runs
        ∧ buildSegments mc sm tokens = runs.map (segmentOfRun mc sm))
    ∧ (∀ (mc sm : Int → Option String) (t : Token) (ts : List Token),
        (segmentOfRun mc sm (t :: ts)).Speaker = speakerIDOf t
        ∧ (segmentOfRun mc sm (t :: ts)).Text = String.join ((t :: ts).map (fun u => u.Text))
        ∧ (segmentOfRun mc sm (t :: ts)).StartTime
            = F64.div (F64.ofInt t.StartMs) (F64.ofRatio 1000 1)
        ∧ (segmentOfRun mc sm (t :: ts)).EndTime
            = F64.div (F64.ofInt (((t :: ts).getLast?).getD t).EndMs) (F64.ofRatio 1000 1))
    ∧ (∀ mc sm : Int → Option String, buildSegments mc sm [] = [])
    ∧ (∀ mc sm : Int → Option String,
        (buildSegments mc sm sampleTokens).map (fun s => (s.Speaker, s.Text))
          = [(1, "Hi there"), (2, "Hello")]) := by
  refine ⟨buildSegments_runs, ?_, fun _ _ => rfl, fun _ _ => rfl⟩
  intro mc sm t ts
  refine ⟨rfl, rfl, rfl, ?_⟩
  simp only [segmentOfRun, List.getLastD_eq_getLast?]
  cases ts with
  | nil => rfl
  | cons u us => simp [List.getLast?_cons_cons]

/-- C8: every segment's display name is the manual correction for its speaker tag when
there is one, otherwise the automatic speaker mapping for the tag when there is one,
otherwise the placeholder "Speaker <tag>"; with manual correction 1 ↦ "Anh" and automatic
mapping 1 ↦ "Minh" speaker 1 is named "Anh". -/
theorem segment_name_precedence :
    (∀ (mc sm : Int → Option String) (tokens : List Token),
      ∀ seg ∈ buildSegments mc sm tokens,
        seg.Name = match mc seg.Speaker with
          | some name => name
          | none =>
            match sm seg.Speaker with
            | some name => name
            | none => "Speaker " ++ toString seg.Speaker)
    ∧ speakerNameOf sampleManualCorrections sampleSpeakerMapping 1 = "Anh"
    ∧ (buildSegments sampleManualCorrections sampleSpeakerMapping sampleTokens).map
        (fun s => (s.Speaker, s.Name)) = [(1, "Anh"), (2, "Speaker 2")]
    ∧ (buildSegments (fun _ => none) sampleSpeakerMapping sampleTokens).map
        (fun s => (s.Speaker, s.Name)) = [(1, "Minh"), (2, "Speaker 2")] := by
  refine ⟨?_, by decide, by decide, by decide⟩
  intro mc sm tokens seg hseg
  obtain ⟨runs, _, hmax, hbuild⟩ := buildSegments_runs mc sm tokens
  rw [hbuild, List.mem_map] at hseg
  obtain ⟨run, hrun, rfl⟩ := hseg
  cases run with
  | nil => exact absurd rfl (hmax.1 [] hrun)
  | cons t ts => rfl

/-! ## Model fallback of the Gemini backend -/

/-- C9 (behaviour of the code): a server error (status 500) whose body mentions 404 does
not end the loop: the first model's call fails with that error, and `callGeminiAPI` goes on
to call the second model and returns its text. -/
theorem server_error_mentioning_404_advances (prompt : String) :
    callGeminiAPIWithURL sampleGeminiEnv (geminiURL "gemini-2.0-flash-exp") prompt
      = .error "gemini API returned status 500: backend failure, trace 404"
    ∧ callGeminiAPI sampleGeminiEnv prompt
      = (.ok "answer", ["gemini-2.0-flash-exp", "gemini-1.5-flash-latest"]) := by
  constructor
  · rfl
  · rfl

theorem containsStr_mid (a b c : String) : containsStr (a ++ b ++ c) b = true := by
  simp only [containsStr, List.any_eq_true, String.data_append]
  refine ⟨b.data ++ c.data, ?_, ?_⟩
  · rw [List.mem_tails, List.append_assoc]
    exact List.suffix_append _ _
  · rw [List.isPrefixOf_iff_prefix]
    exact List.prefix_append _ _

/-- A call answered with status 404 fails with an error text that mentions 404. -/
theorem call_not_found (env : Env) (url prompt body : String)
    (h : env.post url prompt = .response 404 body) :
    ∃ err, callGeminiAPIWithURL env url prompt = .error err ∧ containsStr err "404" = true := by
  refine ⟨"gemini API returned status " ++ "404" ++ (": " ++ body), ?_, containsStr_mid _ _ _⟩
  simp only [callGeminiAPIWithURL, h]
  rw [if_pos (by decide)]
  have h404 : toString (404 : Int) = "404" := by decide
  rw [h404, String.append_assoc]

theorem geminiLoop_calls_initial (env : Env) (prompt : String) (ms : List String) :
    ∀ le : Option String, (geminiLoop env prompt ms le).2 <+: ms := by
  induction ms with
  | nil => intro le; simp [geminiLoop]
  | cons m rest ih =>
    intro le
    simp only [geminiLoop]
    cases hc : callGeminiAPIWithURL env (geminiURL m) prompt with
    | ok response => simp
    | error err =>
      by_cases hb : (!containsStr err "404" && !containsStr err "NOT_FOUND") = true
      · simp [hb]
      · simp only [hb]
        simpa using ih (some err)

theorem geminiLoop_calls_head (env : Env) (prompt : String) (m : String) (rest : List String)
    (le : Option String) : ∃ cs, (geminiLoop env prompt (m :: rest) le).2 = m :: cs := by
  simp only [geminiLoop]
  cases hc : callGeminiAPIWithURL env (geminiURL m) prompt with
  | ok response => exact ⟨[], rfl⟩
  | error err =>
    by_cases hb : (!containsStr err "404" && !containsStr err "NOT_FOUND") = true
    · exact ⟨[], by simp [hb]⟩
    · exact ⟨_, by simp only [hb]; rfl⟩

theorem geminiLoop_ok (env : Env) (prompt : String) (ms : List String) :
    ∀ (le : Option String) (text : String), (geminiLoop env prompt ms le).1 = .ok text →
      ∃ m, (geminiLoop env prompt ms le).2.getLast? = some m
        ∧ callGeminiAPIWithURL env (geminiURL m) prompt = .ok text
        ∧ ∀ m1 ∈ (geminiLoop env prompt ms le).2.dropLast,
            ∃ err, callGeminiAPIWithURL env (geminiURL m1) prompt = .error err := by
  induction ms with
  | nil => intro le text h; simp [geminiLoop] at h
  | cons m rest ih =>
    intro le text
    simp only [geminiLoop]
    cases hc : callGeminiAPIWithURL env (geminiURL m) prompt with
    | ok response =>
      intro h
      simp only [Except.ok.injEq] at h
      subst h
      exact ⟨m, by simp, hc, by simp⟩
    | error err =>
      by_cases hb : (!containsStr err "404" && !containsStr err "NOT_FOUND") = true
      · simp [hb]
      · simp only [hb]
        intro h
        obtain ⟨m2, hlast, hcall, hprev⟩ := ih (some err) text h
        have hne : (geminiLoop env prompt rest (some err)).2 ≠ [] := by
          intro hnil
          rw [hnil] at hlast
          simp at hlast
        obtain ⟨c, cs, hcs⟩ := List.exists_cons_of_ne_nil hne
        refine ⟨m2, ?_, hcall, ?_⟩
        · simp only [Bool.false_eq_true, if_false]
          rw [hcs] at hlast ⊢
          rw [List.getLast?_cons_cons]
          exact hlast
        · simp only [Bool.false_eq_true, if_false]
          intro m1 hm1
          rw [hcs, List.dropLast_cons₂] at hm1
          rcases List.mem_cons.mp hm1 with rfl | hm1
          · exact ⟨err, hc⟩
          · exact hprev m1 (by rw [hcs]; exact hm1)

theorem geminiLoop_earlier_failed (env : Env) (prompt : String) (ms : List String) :
    ∀ le : Option String, ∀ m1 ∈ (geminiLoop env prompt ms le).2.dropLast,
      ∃ err, callGeminiAPIWithURL env (geminiURL m1) prompt = .error err
        ∧ (containsStr err "404" = true ∨ containsStr err "NOT_FOUND" = true) := by
  induction ms with
  | nil => intro le m1 h; simp [geminiLoop] at h
  | cons m rest ih =>
    intro le m1
    simp only [geminiLoop]
    cases hc : callGeminiAPIWithURL env (geminiURL m) prompt with
    | ok response => simp
    | error err =>
      by_cases hb : (!containsStr err "404" && !containsStr err "NOT_FOUND") = true
      · simp [hb]
      · simp only [hb, Bool.false_eq_true, if_false]
        intro h
        cases hcs : (geminiLoop env prompt rest (some err)).2 with
        | nil => rw [hcs] at h; simp at h
        | cons c cs =>
          rw [hcs, List.dropLast_cons₂] at h
          rcases List.mem_cons.mp h with rfl | h
          · refine ⟨err, hc, ?_⟩
            simp only [Bool.and_eq_true, Bool.not_eq_true', not_and, Bool.not_eq_false] at hb
            by_cases h404 : containsStr err "404" = true
            · exact Or.inl h404
            · exact Or.inr (hb (by simpa using h404))
          · exact ih (some err) m1 (by rw [hcs]; exact h)

theorem geminiLoop_not_found_step (env : Env) (prompt : String) (m : String)
    (ms : List String) (le : Option String) (err : String)
    (herr : callGeminiAPIWithURL env (geminiURL m) prompt = .error err)
    (hcontains : containsStr err "404" = true) :
    geminiLoop env prompt (m :: ms) le
      = ((geminiLoop env prompt ms (some err)).1,
         m :: (geminiLoop env prompt ms (some err)).2) := by
  simp only [geminiLoop, herr, hcontains, Bool.not_true, Bool.false_and,
    Bool.false_eq_true, if_false]

theorem geminiLoop_skip_not_found (env : Env) (prompt : String) (pre rest : List String) :
    ∀ le : Option String,
      (∀ m ∈ pre, ∃ body, env.post (geminiURL m) prompt = .response 404 body) →
      ∃ le1 : Option String, geminiLoop env prompt (pre ++ rest) le
        = ((geminiLoop env prompt rest le1).1,
           pre ++ (geminiLoop env prompt rest le1).2) := by
  induction pre with
  | nil => intro le _; exact ⟨le, rfl⟩
  | cons m ms ih =>
    intro le h
    obtain ⟨body, hbody⟩ := h m (List.mem_cons_self m ms)
    obtain ⟨err, herr, hcontains⟩ := call_not_found env (geminiURL m) prompt body hbody
    obtain ⟨le1, hle1⟩ := ih (some err) (fun x hx => h x (List.mem_cons_of_mem m hx))
    refine ⟨le1, ?_⟩
    rw [List.cons_append, geminiLoop_not_found_step env prompt m (ms ++ rest) le err herr
      hcontains, hle1]
    rfl

/-- C10: `callGeminiAPI` tries the identifiers gemini-2.0-flash-exp, gemini-1.5-flash-latest,
gemini-1.5-flash, gemini-1.5-pro-latest, gemini-1.5-pro in this order: the identifiers it
calls are an initial part of that list (so at most 5 calls); a returned text is the text of
the last identifier called; every identifier called before the last one failed with an error
text mentioning 404 or NOT_FOUND, so none is called after a success; when the identifiers
before one all answer 404 that one is called, and if its call succeeds its text is returned
and nothing after it is called; when all five answer 404 all five are called and an error
is returned. -/
theorem callGeminiAPI_model_order (env : Env) (prompt : String) :
    geminiModels = ["gemini-2.0-flash-exp", "gemini-1.5-flash-latest", "gemini-1.5-flash",
      "gemini-1.5-pro-latest", "gemini-1.5-pro"]
    ∧ (callGeminiAPI env prompt).2 <+: geminiModels
    ∧ (callGeminiAPI env prompt).2.length ≤ 5
    ∧ (∀ text, (callGeminiAPI env prompt).1 = .ok text →
        ∃ m, (callGeminiAPI env prompt).2.getLast? = some m
          ∧ callGeminiAPIWithURL env (geminiURL m) prompt = .ok text
          ∧ ∀ m1 ∈ (callGeminiAPI env prompt).2.dropLast,
              ∃ err, callGeminiAPIWithURL env (geminiURL m1) prompt = .error err)
    ∧ (∀ m1 ∈ (callGeminiAPI env prompt).2.dropLast,
        ∃ err, callGeminiAPIWithURL env (geminiURL m1) prompt = .error err
          ∧ (containsStr err "404" = true ∨ containsStr err "NOT_FOUND" = true))
    ∧ (∀ pre m post, geminiModels = pre ++ m :: post →
        (∀ m1 ∈ pre, ∃ body, env.post (geminiURL m1) prompt = .response 404 body) →
        pre ++ [m] <+: (callGeminiAPI env prompt).2)
    ∧ (∀ pre m post text, geminiModels = pre ++ m :: post →
        (∀ m1 ∈ pre, ∃ body, env.post (geminiURL m1) prompt = .response 404 body) →
        callGeminiAPIWithURL env (geminiURL m) prompt = .ok text →
        callGeminiAPI env prompt = (.ok text, pre ++ [m]))
    ∧ ((∀ m ∈ geminiModels, ∃ body, env.post (geminiURL m) prompt = .response 404 body) →
        (∃ err, (callGeminiAPI env prompt).1 = .error err)
        ∧ (callGeminiAPI env prompt).2 = geminiModels) := by
  have hpre := geminiLoop_calls_initial env prompt geminiModels none
  refine ⟨rfl, hpre, ?_, ?_, geminiLoop_earlier_failed env prompt geminiModels none,
    ?_, ?_, ?_⟩
  · have hlen := hpre.length_le
    simpa [geminiModels] using hlen
  · intro text h
    exact geminiLoop_ok env prompt geminiModels none text h
  · intro pre m post hsplit hnf
    obtain ⟨le1, hle1⟩ := geminiLoop_skip_not_found env prompt pre (m :: post) none hnf
    obtain ⟨cs, hcs⟩ := geminiLoop_calls_head env prompt m post le1
    rw [callGeminiAPI, hsplit, hle1, hcs]
    exact ⟨cs, by simp⟩
  · intro pre m post text hsplit hnf hok
    obtain ⟨le1, hle1⟩ := geminiLoop_skip_not_found env prompt pre (m :: post) none hnf
    rw [callGeminiAPI, hsplit, hle1]
    simp only [geminiLoop, hok]
  · intro hall
    obtain ⟨le1, hle1⟩ := geminiLoop_skip_not_found env prompt geminiModels [] none hall
    rw [List.append_nil] at hle1
    rw [callGeminiAPI, hle1]
    exact ⟨⟨_, rfl⟩, by simp [geminiLoop]⟩

/-- C10 at concrete providers: when the first two identifiers answer 404 and the third
succeeds, exactly these three are called and the third's text is returned; when every
identifier answers 404, all five are called and an error is returned. -/
theorem callGeminiAPI_model_order_sample :
    callGeminiAPI sampleNotFoundEnv "p"
      = (.ok "answer", ["gemini-2.0-flash-exp", "gemini-1.5-flash-latest"] ++ ["gemini-1.5-flash"])
    ∧ ((∃ err, (callGeminiAPI sampleAllNotFoundEnv "p").1 = .error err)
      ∧ (callGeminiAPI sampleAllNotFoundEnv "p").2 = geminiModels) :=
  ⟨(callGeminiAPI_model_order sampleNotFoundEnv "p").2.2.2.2.2.2.1
      ["gemini-2.0-flash-exp", "gemini-1.5-flash-latest"] "gemini-1.5-flash"
      ["gemini-1.5-pro-latest", "gemini-1.5-pro"] "answer" rfl
      (by
        intro m1 hm
        simp only [List.mem_cons, List.mem_singleton, List.not_mem_nil, or_false] at hm
        rcases hm with rfl | rfl <;> exact ⟨_, rfl⟩)
      rfl,
   (callGeminiAPI_model_order sampleAllNotFoundEnv "p").2.2.2.2.2.2.2
      (fun _ _ => ⟨_, rfl⟩)⟩

/-! ## Backend selection -/

theorem callGeminiAPI_calls_ne_nil (env : Env) (prompt : String) :
    (callGeminiAPI env prompt).2 ≠ [] := by
  obtain ⟨cs, hcs⟩ := geminiLoop_calls_head env prompt "gemini-2.0-flash-exp"
    ["gemini-1.5-flash-latest", "gemini-1.5-flash", "gemini-1.5-pro-latest", "gemini-1.5-pro"]
    none
  have h : (callGeminiAPI env prompt).2 = "gemini-2.0-flash-exp" :: cs := hcs
  rw [h]
  simp

theorem callGeminiAPI_calls_not_claude (env : Env) (prompt : String) :
    "claude" ∉ (callGeminiAPI env prompt).2 := by
  intro h
  have hsub := (geminiLoop_calls_initial env prompt geminiModels none).subset h
  revert hsub
  decide

theorem ProcessAssessment_gemini_calls (env : Env) (s : LLMAssessmentService)
    (prompt : String) (req : AssessmentRequest) (ha : s.anthropicAPIKey = "")
    (hg : s.geminiAPIKey ≠ "") :
    (ProcessAssessment env s prompt req).calls = (callGeminiAPI env prompt).2 := by
  simp only [ProcessAssessment, ha, ne_eq, not_true_eq_false, if_false, hg, not_false_eq_true,
    if_true]
  rcases hc : callGeminiAPI env prompt with ⟨r, calls⟩
  cases r with
  | error err => rfl
  | ok llmResponse =>
    simp only
    rcases hp : parseAssessmentResponse env.unmarshalParticipants s llmResponse req
      with ⟨r1, s1⟩
    cases r1 <;> rfl

theorem ProcessAssessment_claude_calls (env : Env) (s : LLMAssessmentService)
    (prompt : String) (req : AssessmentRequest) (ha : s.anthropicAPIKey ≠ "") :
    (ProcessAssessment env s prompt req).calls = ["claude"] := by
  simp only [ProcessAssessment, ne_eq, ha, not_false_eq_true, if_true]
  cases hc : callClaudeAPI env prompt with
  | error err => rfl
  | ok llmResponse =>
    simp only
    rcases hp : parseAssessmentResponse env.unmarshalParticipants s llmResponse req
      with ⟨r1, s1⟩
    cases r1 <;> rfl

theorem IdentifySpeaker_claude_calls (env : Env)
    (unmarshal : String → Option SpeakerIdentificationResponse) (s : LLMAssessmentService)
    (prompt : String) (req : SpeakerIdentificationRequest) (ha : s.anthropicAPIKey ≠ "") :
    (IdentifySpeaker env unmarshal s prompt req).2 = ["claude"] := by
  have h1 : ¬ (s.anthropicAPIKey = "" ∧ s.geminiAPIKey = "") := fun h => ha h.1
  simp only [IdentifySpeaker, if_neg h1, ne_eq, ha, not_false_eq_true, if_true]
  cases hc : callClaudeAPI env prompt with
  | error err => rfl
  | ok llmResponse =>
    simp only
    cases parseSpeakerIdentificationResponse unmarshal llmResponse req.SpeakerID <;> rfl

theorem IdentifySpeaker_gemini_calls (env : Env)
    (unmarshal : String → Option SpeakerIdentificationResponse) (s : LLMAssessmentService)
    (prompt : String) (req : SpeakerIdentificationRequest) (ha : s.anthropicAPIKey = "")
    (hg : s.geminiAPIKey ≠ "") :
    (IdentifySpeaker env unmarshal s prompt req).2 = (callGeminiAPI env prompt).2 := by
  have h1 : ¬ (s.anthropicAPIKey = "" ∧ s.geminiAPIKey = "") := fun h => hg h.2
  have h2 : ¬ s.anthropicAPIKey ≠ "" := fun h => h ha
  simp only [IdentifySpeaker, if_neg h1, if_neg h2]
  rcases hc : callGeminiAPI env prompt with ⟨r, calls⟩
  cases r with
  | error err => rfl
  | ok llmResponse =>
    simp only
    cases parseSpeakerIdentificationResponse unmarshal llmResponse req.SpeakerID <;> rfl

/-! ## Closed forms of the scoring loops and of the parser's outcomes -/

theorem unifiedScoreStep_eq_individual : unifiedScoreStep = individualScoreStep := rfl

theorem individualScoreStep_closed (p : ParticipantAssessment) (acc : ScoreAcc)
    (c : AssessmentCriteria) :
    individualScoreStep p acc c
      = ⟨acc.results ++ [resultFor p c],
         (sumStep p (acc.overallScore, acc.totalWeight) c).1,
         (sumStep p (acc.overallScore, acc.totalWeight) c).2⟩ := by
  unfold individualScoreStep resultFor sumStep
  cases p.Scores c.ID <;> simp

theorem foldl_individualScoreStep (p : ParticipantAssessment) (cs : List AssessmentCriteria) :
    ∀ acc : ScoreAcc, cs.foldl (individualScoreStep p) acc
      = ⟨acc.results ++ cs.map (resultFor p),
         (cs.foldl (sumStep p) (acc.overallScore, acc.totalWeight)).1,
         (cs.foldl (sumStep p) (acc.overallScore, acc.totalWeight)).2⟩ := by
  induction cs with
  | nil => intro acc; simp
  | cons c cs ih =>
    intro acc
    rw [List.foldl_cons, ih, individualScoreStep_closed]
    simp

theorem individualResponse_results (req : AssessmentRequest) (p : ParticipantAssessment) :
    (individualResponse req p).Results = req.Criteria.map (resultFor p) := by
  simp [individualResponse, foldl_individualScoreStep]

theorem individualResponse_overall (req : AssessmentRequest) (p : ParticipantAssessment) :
    (individualResponse req p).OverallScore
      = if F64.gt (req.Criteria.foldl (sumStep p) (F64.zero false, F64.zero false)).2
            (F64.zero false) = true then
          F64.div (req.Criteria.foldl (sumStep p) (F64.zero false, F64.zero false)).1
            (req.Criteria.foldl (sumStep p) (F64.zero false, F64.zero false)).2
        else (req.Criteria.foldl (sumStep p) (F64.zero false, F64.zero false)).1 := by
  simp [individualResponse, foldl_individualScoreStep, normalize]

theorem foldl_sumStep_skip (p : ParticipantAssessment) (pre post : List AssessmentCriteria)
    (c : AssessmentCriteria) (hnone : p.Scores c.ID = none) (acc : F64 × F64) :
    (pre ++ c :: post).foldl (sumStep p) acc = (pre ++ post).foldl (sumStep p) acc := by
  have hstep : ∀ a : F64 × F64, sumStep p a c = a := by
    intro a
    simp [sumStep, hnone]
  rw [List.foldl_append, List.foldl_cons, hstep, List.foldl_append]

theorem unifiedResponse_results (req : AssessmentRequest) (p : ParticipantAssessment) :
    (unifiedResponse req p).Results = (individualResponse req p).Results := rfl

theorem unifiedResponse_overall (req : AssessmentRequest) (p : ParticipantAssessment) :
    (unifiedResponse req p).OverallScore = (individualResponse req p).OverallScore := rfl

theorem findTarget_mem (participantID : String) (ps : List ParticipantAssessment)
    (p : ParticipantAssessment) (h : findTarget participantID ps = some p) : p ∈ ps := by
  induction ps with
  | nil => simp [findTarget] at h
  | cons q qs ih =>
    simp only [findTarget] at h
    split at h
    · simp only [Option.some.injEq] at h
      subst h
      exact List.mem_cons_self _ _
    · exact List.mem_cons_of_mem _ (ih h)

/-- The responses the parser can return without error: the fallback, the sentinel of the
unified path, or the individual result of a decoded participant. -/
theorem parse_ok_cases (unmarshal : String → Option (List ParticipantAssessment))
    (s : LLMAssessmentService) (llmResponse : String) (req : AssessmentRequest)
    (r : AssessmentResponse)
    (h : (parseAssessmentResponse unmarshal s llmResponse req).1 = .ok r) :
    r = createFallbackResponse req
    ∨ (r.ParticipantID = "unified_multiple" ∧ r.Results = []
        ∧ r.OverallScore = F64.zero false)
    ∨ ∃ ps p, unmarshal (sliceStr llmResponse (indexChar '[' llmResponse.data)
          (lastIndexChar ']' llmResponse.data + 1)) = some ps
        ∧ p ∈ ps ∧ r = individualResponse req p := by
  unfold parseAssessmentResponse at h
  simp only at h
  split at h
  · simp at h
  · split at h
    · simp only [Except.ok.injEq] at h
      exact Or.inl h.symm
    · rename_i ps hps
      split at h
      · split at h
        · simp only [Except.ok.injEq] at h
          subst h
          exact Or.inr (Or.inl ⟨rfl, rfl, rfl⟩)
        · simp only [Except.ok.injEq] at h
          exact Or.inl h.symm
      · split at h
        · simp only [Except.ok.injEq] at h
          exact Or.inl h.symm
        · rename_i p hp
          simp only [Except.ok.injEq] at h
          exact Or.inr (Or.inr ⟨ps, p, hps, findTarget_mem _ _ _ hp, h.symm⟩)

/-- The batch after a call of the parser: the batch of before, or the unified responses of
the decoded participants. -/
theorem parse_batch_cases (unmarshal : String → Option (List ParticipantAssessment))
    (s : LLMAssessmentService) (llmResponse : String) (req : AssessmentRequest) :
    (parseAssessmentResponse unmarshal s llmResponse req).2.lastUnifiedAssessments
        = s.lastUnifiedAssessments
    ∨ ∃ ps, unmarshal (sliceStr llmResponse (indexChar '[' llmResponse.data)
          (lastIndexChar ']' llmResponse.data + 1)) = some ps
        ∧ (parseAssessmentResponse unmarshal s llmResponse req).2.lastUnifiedAssessments
            = ps.map (unifiedResponse req) := by
  unfold parseAssessmentResponse
  simp only
  split
  · exact Or.inl rfl
  · split
    · exact Or.inl rfl
    · rename_i ps hps
      split
      · split
        · exact Or.inr ⟨ps, hps, rfl⟩
        · exact Or.inl rfl
      · split <;> exact Or.inl rfl

/-! ## Bounds and shape of the computed results -/

/-- C13: a criterion whose id has no entry in the participant's scores gets the result with
score 0, status "N/A" and observation "No assessment data available" at its position, on
both paths; the loop step leaves the weighted sum and the weight total as they were, and
the overall score is the one computed without that criterion. -/
theorem missing_entry_contributes_nothing (req : AssessmentRequest)
    (p : ParticipantAssessment) (pre post : List AssessmentCriteria) (c : AssessmentCriteria)
    (hc : req.Criteria = pre ++ c :: post) (hnone : p.Scores c.ID = none) :
    (individualResponse req p).Results[pre.length]?
      = some { CriterionID := c.ID, CriterionName := c.Name, Score := 0, Status := "N/A",
               Observations := "No assessment data available", Evidence := "" }
    ∧ (unifiedResponse req p).Results[pre.length]?
      = some { CriterionID := c.ID, CriterionName := c.Name, Score := 0, Status := "N/A",
               Observations := "No assessment data available", Evidence := "" }
    ∧ (∀ acc : ScoreAcc,
        (individualScoreStep p acc c).overallScore = acc.overallScore
        ∧ (individualScoreStep p acc c).totalWeight = acc.totalWeight
        ∧ (unifiedScoreStep p acc c).overallScore = acc.overallScore
        ∧ (unifiedScoreStep p acc c).totalWeight = acc.totalWeight)
    ∧ (individualResponse req p).OverallScore
      = (individualResponse { req with Criteria := pre ++ post } p).OverallScore
    ∧ (unifiedResponse req p).OverallScore
      = (unifiedResponse { req with Criteria := pre ++ post } p).OverallScore := by
  have hres : (individualResponse req p).Results[pre.length]?
      = some { CriterionID := c.ID, CriterionName := c.Name, Score := 0, Status := "N/A",
               Observations := "No assessment data available", Evidence := "" } := by
    rw [individualResponse_results, hc, List.map_append, List.map_cons]
    rw [List.getElem?_append_right (by simp)]
    simp [resultFor, hnone]
  have hover : (individualResponse req p).OverallScore
      = (individualResponse { req with Criteria := pre ++ post } p).OverallScore := by
    rw [individualResponse_overall, individualResponse_overall, hc]
    simp only [foldl_sumStep_skip p pre post c hnone]
  refine ⟨hres, ?_, ?_, hover, ?_⟩
  · rw [unifiedResponse_results]
    exact hres
  · intro acc
    rw [unifiedScoreStep_eq_individual]
    simp [individualScoreStep, hnone]
  · rw [unifiedResponse_overall, unifiedResponse_overall]
    exact hover

/-- C13 at a concrete request: the sample participant has no entry for `c4`, so the fourth
result is the "no data" result and the overall score is that of the three other criteria. -/
theorem missing_entry_contributes_nothing_sample :
    (individualResponse
        { sampleRequest "p1" "" with Criteria := sampleCriteria ++ [sampleCriterion "c4" (F64.ofInt 1)] }
        (sampleParticipant "p1")).Results[sampleCriteria.length]?
      = some { CriterionID := "c4", CriterionName := "c4", Score := 0, Status := "N/A",
               Observations := "No assessment data available", Evidence := "" }
    ∧ (individualResponse
        { sampleRequest "p1" "" with Criteria := sampleCriteria ++ [sampleCriterion "c4" (F64.ofInt 1)] }
        (sampleParticipant "p1")).OverallScore
      = (individualResponse
        { sampleRequest "p1" "" with Criteria := sampleCriteria ++ [] }
        (sampleParticipant "p1")).OverallScore :=
  ⟨(missing_entry_contributes_nothing
      { sampleRequest "p1" "" with Criteria := sampleCriteria ++ [sampleCriterion "c4" (F64.ofInt 1)] }
      (sampleParticipant "p1") sampleCriteria [] (sampleCriterion "c4" (F64.ofInt 1)) rfl rfl).1,
   (missing_entry_contributes_nothing
      { sampleRequest "p1" "" with Criteria := sampleCriteria ++ [sampleCriterion "c4" (F64.ofInt 1)] }
      (sampleParticipant "p1") sampleCriteria [] (sampleCriterion "c4" (F64.ofInt 1)) rfl rfl).2.2.2.1⟩

theorem resultFor_ids (p : ParticipantAssessment) (cs : List AssessmentCriteria) :
    (cs.map (resultFor p)).map (fun r => (r.CriterionID, r.CriterionName))
      = cs.map (fun c => (c.ID, c.Name)) := by
  rw [List.map_map]
  apply List.map_congr_left
  intro c _
  simp only [Function.comp, resultFor]
  cases p.Scores c.ID <;> rfl

theorem fallback_ids (req : AssessmentRequest) :
    (createFallbackResponse req).Results.map (fun r => (r.CriterionID, r.CriterionName))
      = req.Criteria.map (fun c => (c.ID, c.Name)) := by
  rw [fallback_results_map, List.map_map]
  apply List.map_congr_left
  intro c _
  simp only [Function.comp, fallbackResult]
  split <;> rfl

/-- C14: the fallback response, the individual-path response and each unified batch entry
carry exactly one result per requested criterion, in the request's order, the i-th result
bearing the i-th criterion's id and name. Hence every response the parser returns either is
the sentinel without results or has that shape, and every entry it stores in the batch has
that shape. -/
theorem results_follow_criteria (req : AssessmentRequest) :
    (createFallbackResponse req).Results.map (fun r => (r.CriterionID, r.CriterionName))
      = req.Criteria.map (fun c => (c.ID, c.Name))
    ∧ (createFallbackResponse req).Results.length = req.Criteria.length
    ∧ (∀ p, (individualResponse req p).Results.map (fun r => (r.CriterionID, r.CriterionName))
          = req.Criteria.map (fun c => (c.ID, c.Name))
        ∧ (individualResponse req p).Results.length = req.Criteria.length
        ∧ (unifiedResponse req p).Results.map (fun r => (r.CriterionID, r.CriterionName))
          = req.Criteria.map (fun c => (c.ID, c.Name))
        ∧ (unifiedResponse req p).Results.length = req.Criteria.length)
    ∧ (∀ (unmarshal : String → Option (List ParticipantAssessment))
        (s : LLMAssessmentService) (llmResponse : String) (r : AssessmentResponse),
        (parseAssessmentResponse unmarshal s llmResponse req).1 = .ok r →
        (r.ParticipantID = "unified_multiple" ∧ r.Results = [])
        ∨ r.Results.map (fun x => (x.CriterionID, x.CriterionName))
            = req.Criteria.map (fun c => (c.ID, c.Name)))
    ∧ (∀ (unmarshal : String → Option (List ParticipantAssessment))
        (s : LLMAssessmentService) (llmResponse : String),
        ∀ r ∈ GetLastUnifiedAssessments
            (parseAssessmentResponse unmarshal s llmResponse req).2,
          r ∈ s.lastUnifiedAssessments
          ∨ r.Results.map (fun x => (x.CriterionID, x.CriterionName))
              = req.Criteria.map (fun c => (c.ID, c.Name))) := by
  have hind : ∀ p, (individualResponse req p).Results.map
      (fun r => (r.CriterionID, r.CriterionName))
      = req.Criteria.map (fun c => (c.ID, c.Name)) := by
    intro p
    rw [individualResponse_results]
    exact resultFor_ids p req.Criteria
  refine ⟨fallback_ids req, ?_, ?_, ?_, ?_⟩
  · simp [fallback_results_map]
  · intro p
    refine ⟨hind p, ?_, ?_, ?_⟩
    · simp [individualResponse_results]
    · rw [unifiedResponse_results]
      exact hind p
    · rw [unifiedResponse_results]
      simp [individualResponse_results]
  · intro unmarshal s llmResponse r hr
    rcases parse_ok_cases unmarshal s llmResponse req r hr with h | h | h
    · right
      rw [h]
      exact fallback_ids req
    · left
      exact ⟨h.1, h.2.1⟩
    · right
      obtain ⟨ps, p, _, _, rfl⟩ := h
      exact hind p
  · intro unmarshal s llmResponse r hr
    rcases parse_batch_cases unmarshal s llmResponse req with h | h
    · left
      simpa [GetLastUnifiedAssessments, h] using hr
    · right
      obtain ⟨ps, _, hbatch⟩ := h
      simp only [GetLastUnifiedAssessments, hbatch, List.mem_map] at hr
      obtain ⟨p, _, rfl⟩ := hr
      rw [unifiedResponse_results]
      exact hind p

/-! ## Fallback score, decode failure, response texts -/

/-- C16: when the bracket span exists but does not decode, the parser returns, with no
error, exactly `createFallbackResponse req`, whatever the requested participant id, and
leaves the service as it was; that response echoes the request's participant id and
session id. -/
theorem decode_failure_gives_fallback
    (unmarshal : String → Option (List ParticipantAssessment))
    (s : LLMAssessmentService) (llmResponse : String) (req : AssessmentRequest)
    (hspan : ¬ (indexChar '[' llmResponse.data = -1
      ∨ lastIndexChar ']' llmResponse.data + 1 ≤ indexChar '[' llmResponse.data))
    (hdec : unmarshal (sliceStr llmResponse (indexChar '[' llmResponse.data)
      (lastIndexChar ']' llmResponse.data + 1)) = none) :
    parseAssessmentResponse unmarshal s llmResponse req
      = (.ok (createFallbackResponse req), s)
    ∧ (createFallbackResponse req).ParticipantID = req.ParticipantID
    ∧ (createFallbackResponse req).SessionID = req.SessionID := by
  refine ⟨?_, rfl, rfl⟩
  simp only [parseAssessmentResponse, if_neg hspan, hdec]

/-- C16 at a concrete reply whose span is not JSON, for a unified request. -/
theorem decode_failure_gives_fallback_sample :
    parseAssessmentResponse (fun _ => none) sampleService "scores: [4, oops]"
        (sampleRequest "unified" "")
      = (.ok (createFallbackResponse (sampleRequest "unified" "")), sampleService)
    ∧ (createFallbackResponse (sampleRequest "unified" "")).ParticipantID
        = (sampleRequest "unified" "").ParticipantID
    ∧ (createFallbackResponse (sampleRequest "unified" "")).SessionID
        = (sampleRequest "unified" "").SessionID :=
  decode_failure_gives_fallback (fun _ => none) sampleService "scores: [4, oops]"
    (sampleRequest "unified" "") (by decide) rfl

theorem string_foldl_append (l : List String) :
    ∀ a : String, l.foldl (fun r s => r ++ s) a = a ++ String.join l := by
  induction l with
  | nil => intro a; simp [String.join]
  | cons x xs ih =>
    intro a
    have hj : String.join (x :: xs) = x ++ String.join xs := by
      simp only [String.join, List.foldl_cons, String.empty_append]
      rw [ih x]
      simp [String.join]
    rw [List.foldl_cons, ih, hj, String.append_assoc]

theorem string_join_cons (x : String) (xs : List String) :
    String.join (x :: xs) = x ++ String.join xs := by
  simp only [String.join, List.foldl_cons, String.empty_append]
  rw [string_foldl_append xs x]
  simp [String.join]

theorem claude_text_fold (l : List ClaudeContent) :
    ∀ init : String,
      l.foldl (fun responseText content =>
          if content.Type_ = "text" then responseText ++ content.Text else responseText) init
        = init ++ String.join ((l.filter (fun c => decide (c.Type_ = "text"))).map
            (fun c => c.Text)) := by
  induction l with
  | nil => intro init; simp [String.join]
  | cons c cs ih =>
    intro init
    rw [List.foldl_cons, ih]
    by_cases h : c.Type_ = "text"
    · simp [h, List.filter_cons, string_join_cons, String.append_assoc]
    · simp [h, List.filter_cons]

/-- C17: for a 200 response from the Claude backend that decodes, `callClaudeAPI` returns
the concatenation, in provider order, of the text of the content blocks of type "text"
when the content list is non-empty, and the error "no response from Claude API" when it is
empty. -/
theorem callClaudeAPI_concatenates_text (env : Env) (prompt body : String)
    (resp : ClaudeResponse)
    (hpost : env.post "https://api.anthropic.com/v1/messages" prompt = .response 200 body)
    (hdec : env.decodeClaude body = .ok resp) :
    (resp.Content ≠ [] →
      callClaudeAPI env prompt
        = .ok (String.join ((resp.Content.filter (fun c => decide (c.Type_ = "text"))).map
            (fun c => c.Text))))
    ∧ (resp.Content = [] → callClaudeAPI env prompt = .error "no response from Claude API") := by
  constructor
  · intro hne
    have hlen : ¬ resp.Content.length = 0 := by
      intro h
      exact hne (List.length_eq_zero.mp h)
    simp only [callClaudeAPI, hpost, ne_eq, not_true_eq_false, if_false, hdec, if_neg hlen,
      claude_text_fold, String.empty_append]
  · intro he
    simp [callClaudeAPI, hpost, hdec, he]

/-- C17 at a concrete reply: the two text blocks around a block of another type give
"Hello, world". -/
theorem callClaudeAPI_concatenates_text_sample :
    callClaudeAPI sampleClaudeEnv "p" = .ok "Hello, world" :=
  (callClaudeAPI_concatenates_text sampleClaudeEnv "p" "body"
    ⟨[⟨"Hello, ", "text"⟩, ⟨"ignored", "tool_use"⟩, ⟨"world", "text"⟩], "end_turn"⟩
    rfl rfl).1 (by simp)

/-- C18 (behaviour of the code): when the first candidate carries the two parts `Hello, `
and `world`, `callGeminiAPIWithURL` returns only the first part. -/
theorem gemini_returns_first_part_only (url prompt : String) :
    callGeminiAPIWithURL sampleMultiPartEnv url prompt = .ok "Hello, "
    ∧ callGeminiAPIWithURL sampleMultiPartEnv url prompt ≠ .ok "Hello, world" := by
  have h : callGeminiAPIWithURL sampleMultiPartEnv url prompt = .ok "Hello, " := rfl
  refine ⟨h, ?_⟩
  rw [h]
  intro hcontra
  have hstr : "Hello, " = "Hello, world" := Except.ok.inj hcontra
  exact absurd hstr (by decide)

/-! ## Scenario selection of the prompt builder -/

/-- C20: `buildAssessmentPrompt` selects the scenario in the precedence unified, context,
default. For the participant id "unified" the transcript is written under the
unified-transcript header and the prompt does not depend on the context; otherwise, for a
non-empty context, the context is written first and the participant's transcript after it,
with the participant id named; otherwise only the transcript is written. The text before
and after the scenario section depends on neither transcript nor context, and in all three
cases the transcript appears verbatim in the prompt. -/
theorem prompt_scenario_precedence (req : AssessmentRequest) :
    (req.ParticipantID = "unified" →
      buildAssessmentPrompt req
        = promptHead req
          ++ ("\nUNIFIED TRANSCRIPT WITH MULTIPLE SPEAKERS:\n" ++ req.Transcript ++ "\n\n"
              ++ unifiedTranscriptInstructions)
          ++ promptTail req
      ∧ ∀ context : String,
          buildAssessmentPrompt { req with Context := context } = buildAssessmentPrompt req)
    ∧ (req.ParticipantID ≠ "unified" → req.Context ≠ "" →
      buildAssessmentPrompt req
        = promptHead req
          ++ ("\nFULL GROUP CONVERSATION CONTEXT:\n" ++ req.Context ++ "\n\n"
              ++ ("PARTICIPANT TO ASSESS (ID: " ++ req.ParticipantID ++ "):\n")
              ++ "Focus your assessment on this participant\x27s contributions:\n"
              ++ req.Transcript ++ "\n\n")
          ++ promptTail req)
    ∧ (req.ParticipantID ≠ "unified" → req.Context = "" →
      buildAssessmentPrompt req
        = promptHead req ++ ("\nTRANSCRIPT TO ASSESS:\n" ++ req.Transcript ++ "\n\n")
          ++ promptTail req)
    ∧ (∀ transcript context : String,
        promptHead { req with Transcript := transcript, Context := context } = promptHead req
        ∧ promptTail { req with Transcript := transcript, Context := context }
            = promptTail req)
    ∧ containsStr (buildAssessmentPrompt req) req.Transcript = true := by
  refine ⟨?_, ?_, ?_, fun _ _ => ⟨rfl, rfl⟩, ?_⟩
  · intro hu
    constructor
    · simp only [buildAssessmentPrompt, scenarioSection, if_pos hu]
    · intro context
      simp only [buildAssessmentPrompt, scenarioSection, if_pos hu, promptHead, promptTail]
  · intro hu hc
    simp only [buildAssessmentPrompt, scenarioSection, if_neg hu, if_pos hc]
  · intro hu hc
    have hc1 : ¬ req.Context ≠ "" := fun h => h hc
    simp only [buildAssessmentPrompt, scenarioSection, if_neg hu, if_neg hc1]
  · unfold buildAssessmentPrompt scenarioSection
    by_cases hu : req.ParticipantID = "unified"
    · rw [if_pos hu]
      have h := containsStr_mid
        (promptHead req ++ "\nUNIFIED TRANSCRIPT WITH MULTIPLE SPEAKERS:\n") req.Transcript
        ("\n\n" ++ unifiedTranscriptInstructions ++ promptTail req)
      simpa only [String.append_assoc] using h
    · rw [if_neg hu]
      by_cases hc : req.Context ≠ ""
      · rw [if_pos hc]
        have h := containsStr_mid
          (promptHead req ++ "\nFULL GROUP CONVERSATION CONTEXT:\n" ++ req.Context ++ "\n\n"
            ++ ("PARTICIPANT TO ASSESS (ID: " ++ req.ParticipantID ++ "):\n")
            ++ "Focus your assessment on this participant\x27s contributions:\n")
          req.Transcript ("\n\n" ++ promptTail req)
        simpa only [String.append_assoc] using h
      · rw [if_neg hc]
        have h := containsStr_mid (promptHead req ++ "\nTRANSCRIPT TO ASSESS:\n")
          req.Transcript ("\n\n" ++ promptTail req)
        simpa only [String.append_assoc] using h

/-! ## Score range of the results -/

/-- C22 (behaviour of the code): the parser copies the decoded score into the result
unchecked. A decoded participant scored 7 and -1 yields results with the scores 7 and -1 on
the individual path and in the unified batch, outside 0..5; the results of
`createFallbackResponse` always have score 0 or 3. -/
theorem decoded_score_is_copied_unchecked :
    (parseAssessmentResponse (fun _ => some [sampleOutOfRangeParticipant]) sampleService "[]"
        (sampleRequest "p1" "")).1.toOption.map
          (fun r => r.Results.map (fun x => (x.CriterionID, x.Score)))
        = some [("c1", 7), ("c2", -1), ("c3", 0)]
    ∧ (GetLastUnifiedAssessments
        (parseAssessmentResponse (fun _ => some [sampleOutOfRangeParticipant]) sampleService
          "[]" (sampleRequest "unified" "")).2).map
          (fun r => r.Results.map (fun x => (x.CriterionID, x.Score)))
        = [[("c1", 7), ("c2", -1), ("c3", 0)]]
    ∧ ¬ ((0 : Int) ≤ 7 ∧ (7 : Int) ≤ 5)
    ∧ ¬ ((0 : Int) ≤ -1 ∧ (-1 : Int) ≤ 5)
    ∧ (∀ req : AssessmentRequest, ∀ r ∈ (createFallbackResponse req).Results,
        r.Score = 0 ∨ r.Score = 3) := by
  refine ⟨by decide, by decide, by decide, by decide, ?_⟩
  intro req r hr
  rw [fallback_results_map] at hr
  obtain ⟨c, _, rfl⟩ := List.mem_map.mp hr
  unfold fallbackResult
  split
  · exact Or.inl rfl
  · exact Or.inr rfl

/-! ## Speaker identification -/

/-- C24: `parseSpeakerIdentificationResponse` always returns a response and no error, and
its SpeakerID is the requested speaker id, also when the decoded JSON carries another one;
without a brace span, or when the span does not decode, the response has Name "" and
Confidence "none". -/
theorem speaker_identification_never_fails
    (unmarshal : String → Option SpeakerIdentificationResponse)
    (llmResponse : String) (speakerID : Int) :
    (∃ r, parseSpeakerIdentificationResponse unmarshal llmResponse speakerID = .ok r
      ∧ r.SpeakerID = speakerID)
    ∧ ((indexChar (Char.ofNat 123) llmResponse.data = -1
        ∨ lastIndexChar (Char.ofNat 125) llmResponse.data + 1
            ≤ indexChar (Char.ofNat 123) llmResponse.data) →
      parseSpeakerIdentificationResponse unmarshal llmResponse speakerID
        = .ok { SpeakerID := speakerID, Name := "", Confidence := "none",
                Evidence := "Could not parse LLM response" })
    ∧ (¬ (indexChar (Char.ofNat 123) llmResponse.data = -1
        ∨ lastIndexChar (Char.ofNat 125) llmResponse.data + 1
            ≤ indexChar (Char.ofNat 123) llmResponse.data) →
      unmarshal (sliceStr llmResponse (indexChar (Char.ofNat 123) llmResponse.data)
        (lastIndexChar (Char.ofNat 125) llmResponse.data + 1)) = none →
      parseSpeakerIdentificationResponse unmarshal llmResponse speakerID
        = .ok { SpeakerID := speakerID, Name := "", Confidence := "none",
                Evidence := "Failed to parse JSON response" })
    ∧ (∀ response, ¬ (indexChar (Char.ofNat 123) llmResponse.data = -1
        ∨ lastIndexChar (Char.ofNat 125) llmResponse.data + 1
            ≤ indexChar (Char.ofNat 123) llmResponse.data) →
      unmarshal (sliceStr llmResponse (indexChar (Char.ofNat 123) llmResponse.data)
        (lastIndexChar (Char.ofNat 125) llmResponse.data + 1)) = some response →
      parseSpeakerIdentificationResponse unmarshal llmResponse speakerID
        = .ok { SpeakerID := speakerID, Name := response.Name,
                Confidence := response.Confidence, Evidence := response.Evidence })
    ∧ parseSpeakerIdentificationResponse
        (fun _ => some { SpeakerID := 9, Name := "Anh", Confidence := "high",
                         Evidence := "self-introduction" })
        "\x7b\"speaker_id\": 9\x7d" 2
        = .ok { SpeakerID := 2, Name := "Anh", Confidence := "high",
                Evidence := "self-introduction" } := by
  refine ⟨?_, ?_, ?_, ?_, rfl⟩
  · unfold parseSpeakerIdentificationResponse
    simp only
    split
    · exact ⟨_, rfl, rfl⟩
    · split
      · exact ⟨_, rfl, rfl⟩
      · exact ⟨_, rfl, rfl⟩
  · intro h
    simp only [parseSpeakerIdentificationResponse, if_pos h]
  · intro h hdec
    simp only [parseSpeakerIdentificationResponse, if_neg h, hdec]
  · intro response h hdec
    simp only [parseSpeakerIdentificationResponse, if_neg h, hdec]

/-! ## The two copies of the scoring code -/

/-- C25: the two copies of the scoring code agree. For requests with the same criteria and
every decoded participant p, the response built for p on the unified path has the same
Results, OverallScore and Summary as the response the individual path builds for p; the
unified one carries p's own id, the individual one the requested id, each its request's
session id. -/
theorem unified_and_individual_scoring_agree (reqU reqI : AssessmentRequest)
    (p : ParticipantAssessment) (hc : reqU.Criteria = reqI.Criteria) :
    (unifiedResponse reqU p).Results = (individualResponse reqI p).Results
    ∧ (unifiedResponse reqU p).OverallScore = (individualResponse reqI p).OverallScore
    ∧ (unifiedResponse reqU p).Summary = (individualResponse reqI p).Summary
    ∧ (unifiedResponse reqU p).ParticipantID = p.ParticipantID
    ∧ (individualResponse reqI p).ParticipantID = reqI.ParticipantID
    ∧ (unifiedResponse reqU p).SessionID = reqU.SessionID
    ∧ (individualResponse reqI p).SessionID = reqI.SessionID
    ∧ (∀ (acc : ScoreAcc) (c : AssessmentCriteria),
        unifiedScoreStep p acc c = individualScoreStep p acc c)
    ∧ (∀ score : Int, unifiedStatus score = individualStatus score) := by
  refine ⟨?_, ?_, rfl, rfl, rfl, rfl, rfl, fun _ _ => rfl, fun _ => rfl⟩
  · rw [unifiedResponse_results, individualResponse_results, individualResponse_results, hc]
  · rw [unifiedResponse_overall, individualResponse_overall, individualResponse_overall, hc]

/-- C25 at the sample participant, scored under a unified request and under a request for
`p1`. -/
theorem unified_and_individual_scoring_agree_sample :
    (unifiedResponse (sampleRequest "unified" "") (sampleParticipant "p1")).Results
      = (individualResponse (sampleRequest "p1" "") (sampleParticipant "p1")).Results
    ∧ (unifiedResponse (sampleRequest "unified" "") (sampleParticipant "p1")).OverallScore
      = (individualResponse (sampleRequest "p1" "") (sampleParticipant "p1")).OverallScore
    ∧ (unifiedResponse (sampleRequest "unified" "") (sampleParticipant "p1")).Summary
      = (individualResponse (sampleRequest "p1" "") (sampleParticipant "p1")).Summary :=
  ⟨(unified_and_individual_scoring_agree (sampleRequest "unified" "") (sampleRequest "p1" "")
      (sampleParticipant "p1") rfl).1,
   (unified_and_individual_scoring_agree (sampleRequest "unified" "") (sampleRequest "p1" "")
      (sampleParticipant "p1") rfl).2.1,
   (unified_and_individual_scoring_agree (sampleRequest "unified" "") (sampleRequest "p1" "")
      (sampleParticipant "p1") rfl).2.2.1⟩

/-! ## Frame of the stored batch -/

/-- C27: the parser writes the stored unified batch only together with the
"unified_multiple" sentinel. Either the service is returned as it was, or the request is
unified, the span decoded to a non-empty list, the sentinel is returned and only the batch
field changed. In particular the service is unchanged on an error, after a decode failure,
on the individual path and for a unified request whose list decodes to no participant, so
`GetLastUnifiedAssessments` still returns the earlier batch. -/
theorem batch_changes_only_with_sentinel
    (unmarshal : String → Option (List ParticipantAssessment))
    (s : LLMAssessmentService) (llmResponse : String) (req : AssessmentRequest) :
    ((parseAssessmentResponse unmarshal s llmResponse req).2 = s
      ∨ (req.ParticipantID = "unified"
        ∧ ∃ ps, ps ≠ []
          ∧ unmarshal (sliceStr llmResponse (indexChar '[' llmResponse.data)
              (lastIndexChar ']' llmResponse.data + 1)) = some ps
          ∧ (parseAssessmentResponse unmarshal s llmResponse req).1
              = .ok { ParticipantID := "unified_multiple", SessionID := req.SessionID,
                      Results := [], OverallScore := F64.zero false,
                      Summary := "Unified assessment with " ++ toString ps.length
                        ++ " participants" }
          ∧ (parseAssessmentResponse unmarshal s llmResponse req).2
              = { s with lastUnifiedAssessments := ps.map (unifiedResponse req) }))
    ∧ (∀ err, (parseAssessmentResponse unmarshal s llmResponse req).1 = .error err →
        (parseAssessmentResponse unmarshal s llmResponse req).2 = s)
    ∧ (unmarshal (sliceStr llmResponse (indexChar '[' llmResponse.data)
          (lastIndexChar ']' llmResponse.data + 1)) = none →
        (parseAssessmentResponse unmarshal s llmResponse req).2 = s)
    ∧ (req.ParticipantID ≠ "unified" →
        (parseAssessmentResponse unmarshal s llmResponse req).2 = s)
    ∧ (unmarshal (sliceStr llmResponse (indexChar '[' llmResponse.data)
          (lastIndexChar ']' llmResponse.data + 1)) = some [] →
        (parseAssessmentResponse unmarshal s llmResponse req).2 = s)
    ∧ ((parseAssessmentResponse unmarshal s llmResponse req).2 = s →
        GetLastUnifiedAssessments (parseAssessmentResponse unmarshal s llmResponse req).2
          = GetLastUnifiedAssessments s) := by
  have key : (parseAssessmentResponse unmarshal s llmResponse req).2 = s
      ∨ (req.ParticipantID = "unified"
        ∧ ∃ ps, ps ≠ []
          ∧ unmarshal (sliceStr llmResponse (indexChar '[' llmResponse.data)
              (lastIndexChar ']' llmResponse.data + 1)) = some ps
          ∧ (parseAssessmentResponse unmarshal s llmResponse req).1
              = .ok { ParticipantID := "unified_multiple", SessionID := req.SessionID,
                      Results := [], OverallScore := F64.zero false,
                      Summary := "Unified assessment with " ++ toString ps.length
                        ++ " participants" }
          ∧ (parseAssessmentResponse unmarshal s llmResponse req).2
              = { s with lastUnifiedAssessments := ps.map (unifiedResponse req) }) := by
    unfold parseAssessmentResponse
    simp only
    split
    · exact Or.inl rfl
    · split
      · exact Or.inl rfl
      · rename_i ps hps
        split
        · rename_i hu
          split
          · rename_i hlen
            refine Or.inr ⟨hu, ps, ?_, hps, ?_, rfl⟩
            · intro hnil
              simp [hnil] at hlen
            · simp
          · exact Or.inl rfl
        · split <;> exact Or.inl rfl
  refine ⟨key, ?_, ?_, ?_, ?_, ?_⟩
  · intro err herr
    rcases key with h | ⟨_, ps, _, _, hok, _⟩
    · exact h
    · rw [hok] at herr
      cases herr
  · intro hdec
    rcases key with h | ⟨_, ps, _, hps, _, _⟩
    · exact h
    · rw [hdec] at hps
      cases hps
  · intro hu
    rcases key with h | ⟨hu1, _⟩
    · exact h
    · exact absurd hu1 hu
  · intro hdec
    rcases key with h | ⟨_, ps, hne, hps, _, _⟩
    · exact h
    · rw [hdec] at hps
      simp only [Option.some.injEq] at hps
      exact absurd hps.symm hne
  · intro h
    rw [h]

/-! ## Text preservation of the segmentation -/

theorem string_join_append (a b : List String) :
    String.join (a ++ b) = String.join a ++ String.join b := by
  induction a with
  | nil => simp [String.join]
  | cons x xs ih => rw [List.cons_append, string_join_cons, string_join_cons, ih,
      String.append_assoc]

theorem join_run_texts (mc sm : Int → Option String) (runs : List (List Token))
    (hne : ∀ q ∈ runs, q ≠ []) :
    String.join ((runs.map (segmentOfRun mc sm)).map (fun s => s.Text))
      = String.join (runs.flatten.map (fun t => t.Text)) := by
  induction runs with
  | nil => rfl
  | cons q qs ih =>
    have hq : q ≠ [] := hne q (List.mem_cons_self q qs)
    have hqs : ∀ r ∈ qs, r ≠ [] := fun r hr => hne r (List.mem_cons_of_mem q hr)
    have htext : (segmentOfRun mc sm q).Text = String.join (q.map (fun t => t.Text)) := by
      cases q with
      | nil => exact absurd rfl hq
      | cons t ts => rfl
    simp only [List.map_cons, List.flatten_cons, List.map_append]
    rw [string_join_cons, string_join_append, ih hqs, htext]

/-- C30: segmentation loses and reorders no speech text: concatenating the Text of the
produced segments in order gives the concatenation, in stream order, of the text of the
tokens not flagged as audio events (for the sample stream, "Hi thereHello"). -/
theorem segmentation_preserves_text :
    (∀ (mc sm : Int → Option String) (tokens : List Token),
      String.join ((buildSegments mc sm tokens).map (fun s => s.Text))
        = String.join ((tokens.filter isSpeech).map (fun t => t.Text)))
    ∧ (∀ mc sm : Int → Option String,
        String.join ((buildSegments mc sm sampleTokens).map (fun s => s.Text))
          = "Hi thereHello") := by
  constructor
  · intro mc sm tokens
    obtain ⟨runs, hflat, hmax, hbuild⟩ := buildSegments_runs mc sm tokens
    rw [hbuild, join_run_texts mc sm runs hmax.1, hflat]
  · intro mc sm
    rfl

/-! ## Bounds of the extracted span -/

theorem indexChar_spec (c : Char) (l : List Char) :
    (indexChar c l = -1 ∧ ∀ j : Nat, l[j]? ≠ some c)
    ∨ ∃ n : Nat, indexChar c l = (n : Int) ∧ n < l.length ∧ l[n]? = some c
        ∧ ∀ j : Nat, j < n → l[j]? ≠ some c := by
  induction l with
  | nil => left; simp [indexChar]
  | cons x xs ih =>
    by_cases hx : x = c
    · right
      refine ⟨0, ?_, by simp, by simp [hx], by simp⟩
      simp [indexChar, hx]
    · rcases ih with ⟨h1, h2⟩ | ⟨n, h1, h2, h3, h4⟩
      · left
        refine ⟨by simp [indexChar, hx, h1], ?_⟩
        intro j
        cases j with
        | zero => simpa using hx
        | succ k => simpa using h2 k
      · right
        refine ⟨n + 1, ?_, by simpa using h2, by simpa using h3, ?_⟩
        · have hne : (n : Int) ≠ -1 := by omega
          simp only [indexChar, if_neg hx, h1, if_neg hne]
          push_cast
          rfl
        · intro j hj
          cases j with
          | zero => simpa using hx
          | succ k => simpa using h4 k (by omega)

theorem lastIndexChar_spec (c : Char) (l : List Char) :
    (lastIndexChar c l = -1 ∧ ∀ j : Nat, l[j]? ≠ some c)
    ∨ ∃ n : Nat, lastIndexChar c l = (n : Int) ∧ n < l.length ∧ l[n]? = some c
        ∧ ∀ j : Nat, n < j → l[j]? ≠ some c := by
  induction l with
  | nil => left; simp [lastIndexChar]
  | cons x xs ih =>
    rcases ih with ⟨h1, h2⟩ | ⟨n, h1, h2, h3, h4⟩
    · by_cases hx : x = c
      · right
        refine ⟨0, by simp [lastIndexChar, h1, hx], by simp, by simp [hx], ?_⟩
        intro j hj
        cases j with
        | zero => omega
        | succ k => simpa using h2 k
      · left
        refine ⟨by simp [lastIndexChar, h1, hx], ?_⟩
        intro j
        cases j with
        | zero => simpa using hx
        | succ k => simpa using h2 k
    · right
      refine ⟨n + 1, ?_, by simpa using h2, by simpa using h3, ?_⟩
      · have hne : (n : Int) ≠ -1 := by omega
        simp only [lastIndexChar, h1, if_neg hne]
        push_cast
        rfl
      · intro j hj
        cases j with
        | zero => omega
        | succ k => simpa using h4 k (by omega)

/-- The span cut out between the first `open_` and the last `close_` when the guard of the
parsers lets them continue. -/
theorem span_in_bounds (open_ close_ : Char) (text : String)
    (hguard : ¬ (indexChar open_ text.data = -1
      ∨ lastIndexChar close_ text.data + 1 ≤ indexChar open_ text.data)) :
    0 ≤ indexChar open_ text.data
    ∧ indexChar open_ text.data < lastIndexChar close_ text.data + 1
    ∧ lastIndexChar close_ text.data + 1 ≤ (text.data.length : Int)
    ∧ text.data[(indexChar open_ text.data).toNat]? = some open_
    ∧ (∀ j : Nat, j < (indexChar open_ text.data).toNat → text.data[j]? ≠ some open_)
    ∧ text.data[(lastIndexChar close_ text.data).toNat]? = some close_
    ∧ (∀ j : Nat, (lastIndexChar close_ text.data).toNat < j → text.data[j]? ≠ some close_)
    ∧ (sliceStr text (indexChar open_ text.data)
        (lastIndexChar close_ text.data + 1)).data.head? = some open_
    ∧ (sliceStr text (indexChar open_ text.data)
        (lastIndexChar close_ text.data + 1)).data.getLast? = some close_
    ∧ text.data = text.data.take (indexChar open_ text.data).toNat
        ++ (sliceStr text (indexChar open_ text.data)
            (lastIndexChar close_ text.data + 1)).data
        ++ text.data.drop (lastIndexChar close_ text.data + 1).toNat := by
  simp only [not_or, not_le] at hguard
  obtain ⟨hstart, hlt⟩ := hguard
  rcases indexChar_spec open_ text.data with ⟨h1, _⟩ | ⟨n, hn, hnlen, hnget, hnfirst⟩
  · exact absurd h1 hstart
  rcases lastIndexChar_spec close_ text.data with ⟨h1, _⟩ | ⟨m, hm, hmlen, hmget, hmlast⟩
  · rw [h1, hn] at hlt
    omega
  rw [hn, hm] at hlt
  have hnm : n ≤ m := by omega
  rw [hn, hm]
  have hslice : (sliceStr text (n : Int) ((m : Int) + 1)).data
      = (text.data.drop n).take (m + 1 - n) := by
    simp only [sliceStr]
    have h1 : ((m : Int) + 1).toNat = m + 1 := by omega
    rw [Int.toNat_ofNat, h1]
  refine ⟨by omega, by omega, by omega, by simpa using hnget, by simpa using hnfirst,
    by simpa using hmget, by simpa using hmlast, ?_, ?_, ?_⟩
  · rw [hslice, List.head?_take, if_neg (by omega), List.head?_drop]
    exact hnget
  · rw [hslice, List.getLast?_eq_getElem?]
    have hlen : ((text.data.drop n).take (m + 1 - n)).length = m + 1 - n := by
      rw [List.length_take, List.length_drop]
      omega
    rw [hlen, List.getElem?_take_of_lt (by omega), List.getElem?_drop]
    have : n + (m + 1 - n - 1) = m := by omega
    rw [this]
    exact hmget
  · rw [hslice]
    have h1 : ((m : Int) + 1).toNat = m + 1 := by omega
    rw [Int.toNat_ofNat, h1]
    have h2 : text.data.drop (m + 1) = (text.data.drop n).drop (m + 1 - n) := by
      rw [List.drop_drop]
      congr 1
      omega
    rw [h2, List.append_assoc, List.take_append_drop, List.take_append_drop]

/-- C26: whenever the guard `startIdx == -1 || endIdx <= startIdx` lets
`parseAssessmentResponse` continue, 0 <= startIdx < endIdx <= len(text); the slice
text[startIdx:endIdx] is a part of the text that begins with '[' at the first '[' of the
text and ends with ']' at its last ']'. The same holds for the brace span cut out by
`parseSpeakerIdentificationResponse`. -/
theorem extracted_span_in_bounds (text : String) :
    (¬ (indexChar '[' text.data = -1
        ∨ lastIndexChar ']' text.data + 1 ≤ indexChar '[' text.data) →
      0 ≤ indexChar '[' text.data
      ∧ indexChar '[' text.data < lastIndexChar ']' text.data + 1
      ∧ lastIndexChar ']' text.data + 1 ≤ (text.data.length : Int)
      ∧ text.data[(indexChar '[' text.data).toNat]? = some '['
      ∧ (∀ j : Nat, j < (indexChar '[' text.data).toNat → text.data[j]? ≠ some '[')
      ∧ text.data[(lastIndexChar ']' text.data).toNat]? = some ']'
      ∧ (∀ j : Nat, (lastIndexChar ']' text.data).toNat < j → text.data[j]? ≠ some ']')
      ∧ (sliceStr text (indexChar '[' text.data)
          (lastIndexChar ']' text.data + 1)).data.head? = some '['
      ∧ (sliceStr text (indexChar '[' text.data)
          (lastIndexChar ']' text.data + 1)).data.getLast? = some ']'
      ∧ text.data = text.data.take (indexChar '[' text.data).toNat
          ++ (sliceStr text (indexChar '[' text.data) (lastIndexChar ']' text.data + 1)).data
          ++ text.data.drop (lastIndexChar ']' text.data + 1).toNat)
    ∧ (¬ (indexChar (Char.ofNat 123) text.data = -1
        ∨ lastIndexChar (Char.ofNat 125) text.data + 1 ≤ indexChar (Char.ofNat 123) text.data) →
      0 ≤ indexChar (Char.ofNat 123) text.data
      ∧ indexChar (Char.ofNat 123) text.data < lastIndexChar (Char.ofNat 125) text.data + 1
      ∧ lastIndexChar (Char.ofNat 125) text.data + 1 ≤ (text.data.length : Int)
      ∧ text.data[(indexChar (Char.ofNat 123) text.data).toNat]? = some (Char.ofNat 123)
      ∧ (∀ j : Nat, j < (indexChar (Char.ofNat 123) text.data).toNat →
          text.data[j]? ≠ some (Char.ofNat 123))
      ∧ text.data[(lastIndexChar (Char.ofNat 125) text.data).toNat]? = some (Char.ofNat 125)
      ∧ (∀ j : Nat, (lastIndexChar (Char.ofNat 125) text.data).toNat < j →
          text.data[j]? ≠ some (Char.ofNat 125))
      ∧ (sliceStr text (indexChar (Char.ofNat 123) text.data)
          (lastIndexChar (Char.ofNat 125) text.data + 1)).data.head? = some (Char.ofNat 123)
      ∧ (sliceStr text (indexChar (Char.ofNat 123) text.data)
          (lastIndexChar (Char.ofNat 125) text.data + 1)).data.getLast?
            = some (Char.ofNat 125)
      ∧ text.data = text.data.take (indexChar (Char.ofNat 123) text.data).toNat
          ++ (sliceStr text (indexChar (Char.ofNat 123) text.data)
              (lastIndexChar (Char.ofNat 125) text.data + 1)).data
          ++ text.data.drop (lastIndexChar (Char.ofNat 125) text.data + 1).toNat) :=
  ⟨span_in_bounds '[' ']' text, span_in_bounds (Char.ofNat 123) (Char.ofNat 125) text⟩

/-- C26 at a concrete reply: the span of `Here: [1, [2]] done` runs from position 6 to
position 14 and is `[1, [2]]`. -/
theorem extracted_span_in_bounds_sample :
    indexChar '[' "Here: [1, [2]] done".data = 6
    ∧ lastIndexChar ']' "Here: [1, [2]] done".data + 1 = 14
    ∧ sliceStr "Here: [1, [2]] done" 6 14 = "[1, [2]]"
    ∧ (0 ≤ indexChar '[' "Here: [1, [2]] done".data
      ∧ indexChar '[' "Here: [1, [2]] done".data
          < lastIndexChar ']' "Here: [1, [2]] done".data + 1
      ∧ lastIndexChar ']' "Here: [1, [2]] done".data + 1
          ≤ ("Here: [1, [2]] done".data.length : Int)) :=
  ⟨by decide, by decide, by decide,
   ((extracted_span_in_bounds "Here: [1, [2]] done").1 (by decide)).1,
   ((extracted_span_in_bounds "Here: [1, [2]] done").1 (by decide)).2.1,
   ((extracted_span_in_bounds "Here: [1, [2]] done").1 (by decide)).2.2.1⟩

/-! ## Score of the group assessment -/

theorem groupResponseOf_score_error
    (unmarshal : String → Except String (List (String × JSONValue)))
    (req : GroupAssessmentRequest) (jsonStr err : String)
    (h : unmarshal jsonStr = .error err) :
    (groupResponseOf unmarshal req jsonStr).Score = 0 := by
  simp only [groupResponseOf, h]

theorem groupResponseOf_score_ok
    (unmarshal : String → Except String (List (String × JSONValue)))
    (req : GroupAssessmentRequest) (jsonStr : String) (parsed : List (String × JSONValue))
    (h : unmarshal jsonStr = .ok parsed) :
    (groupResponseOf unmarshal req jsonStr).Score
      = match (groupAssessmentObject parsed).lookup "score" with
        | some (.number scoreVal) => truncToInt scoreVal
        | _ => 0 := by
  simp only [groupResponseOf, h]
  rfl

/-! ## Session scan of the result map -/

theorem storeLoad_of_mem (store : List (String × StoreValue)) (key : String) (v : StoreValue)
    (h : (key, v) ∈ store) : storeLoad store key ≠ none := by
  induction store with
  | nil => simp at h
  | cons e es ih =>
    obtain ⟨k, x⟩ := e
    unfold storeLoad
    by_cases hk : key = k
    · subst hk
      simp [List.lookup]
    · have hne : (key == k) = false := by simpa using hk
      rw [List.lookup, hne]
      rcases List.mem_cons.mp h with heq | hmem
      · simp only [Prod.mk.injEq] at heq
        exact absurd heq.1 hk
      · exact ih hmem

theorem isSessionKey_iff (sessionID keyStr : String) :
    isSessionKey sessionID keyStr = true
      ↔ keyStr.length > sessionID.length ∧ sessionID.data <+: keyStr.data
        ∧ keyStr ≠ sessionID ++ "_consolidated" := by
  simp only [isSessionKey, Bool.and_eq_true, decide_eq_true_eq]
  have hp : keyStr.data.take sessionID.length = sessionID.data
      ↔ sessionID.data <+: keyStr.data := by
    rw [ List.prefix_iff_eq_take]
    exact eq_comm
  rw [hp]
  tauto

/-- C21 (amended): when no consolidated entry exists for a valid session id, the scan of
`GetConsolidatedAssessmentResults` returns an item for every stored entry whose key begins
with the session id and is longer than it and whose value is an AssessmentResponse, and
only for those; entries of another type (group result, transcription id, file id, speaker
maps) yield no item. The reply carries these items, or is "not found" when there is
none. -/
theorem scan_returns_participant_entries (w : HandlerEnv) (h : SonioxHandler)
    (sessionID : String) (hs : sessionID ≠ "")
    (hv : sessionID = "test" ∨ w.validUUID sessionID = true)
    (hnone : storeLoad h.assessmentResults (sessionID ++ "_consolidated") = none) :
    (GetConsolidatedAssessmentResults w h sessionID
        = .assembled sessionID (scanSession h.assessmentResults sessionID)
      ∨ (GetConsolidatedAssessmentResults w h sessionID = .notFound
        ∧ scanSession h.assessmentResults sessionID = []))
    ∧ (∀ key r, (key, StoreValue.assessment r) ∈ h.assessmentResults →
        sessionID.data <+: key.data → key.length > sessionID.length →
        (r.ParticipantID, r.Results) ∈ scanSession h.assessmentResults sessionID)
    ∧ (∀ item ∈ scanSession h.assessmentResults sessionID,
        ∃ key r, (key, StoreValue.assessment r) ∈ h.assessmentResults
          ∧ sessionID.data <+: key.data ∧ key.length > sessionID.length
          ∧ item = (r.ParticipantID, r.Results))
    ∧ (scanSession h.assessmentResults sessionID).length
        = (h.assessmentResults.filter
            (fun e => isSessionKey sessionID e.1 && isAssessmentValue e.2)).length := by
  refine ⟨?_, ?_, ?_, ?_⟩
  · have hvalid : ¬ (sessionID ≠ "test" ∧ w.validUUID sessionID = false) := by
      rintro ⟨h1, h2⟩
      rcases hv with hv | hv
      · exact h1 hv
      · rw [hv] at h2
        cases h2
    simp only [GetConsolidatedAssessmentResults, if_neg hs, if_neg hvalid, hnone]
    by_cases hlen : (scanSession h.assessmentResults sessionID).length > 0
    · left
      rw [if_pos hlen]
    · right
      rw [if_neg hlen]
      exact ⟨rfl, List.length_eq_zero.mp (by omega)⟩
  · intro key r hmem hpre hlen
    have hkey : key ≠ sessionID ++ "_consolidated" := by
      intro heq
      have := storeLoad_of_mem h.assessmentResults key _ hmem
      rw [heq] at this
      exact this hnone
    have hsk : isSessionKey sessionID key = true :=
      (isSessionKey_iff sessionID key).mpr ⟨hlen, hpre, hkey⟩
    simp only [scanSession, List.mem_filterMap]
    exact ⟨(key, StoreValue.assessment r), hmem, by simp [hsk]⟩
  · intro item hitem
    simp only [scanSession, List.mem_filterMap] at hitem
    obtain ⟨⟨key, v⟩, hmem, hsome⟩ := hitem
    by_cases hsk : isSessionKey sessionID key = true
    · simp only [hsk, if_true] at hsome
      cases v with
      | assessment r =>
        simp only [Option.some.injEq] at hsome
        obtain ⟨hlen, hpre, _⟩ := (isSessionKey_iff sessionID key).mp hsk
        exact ⟨key, r, hmem, hpre, hlen, hsome.symm⟩
      | group g => simp at hsome
      | text s => simp at hsome
      | names m => simp at hsome
      | consolidated d => simp at hsome
    · simp [hsk] at hsome
  · unfold scanSession
    generalize h.assessmentResults = store
    induction store with
    | nil => rfl
    | cons e es ih =>
      obtain ⟨key, v⟩ := e
      by_cases hsk : isSessionKey sessionID key = true
      · cases v <;> simp [List.filterMap_cons, List.filter_cons, hsk, isAssessmentValue, ih]
      · simp [List.filterMap_cons, List.filter_cons, hsk, ih]

/-- C21 (amended) at a concrete map: after an async submission and one participant result
for session `test`, the reply carries the single item of participant `p1`. -/
theorem scan_returns_participant_entries_sample :
    (GetConsolidatedAssessmentResults sampleHandlerEnv
        (SyncTranscript sampleHandlerEnv
          (SubmitAsyncTranscription sampleHandler "test" [] [] (some ("f1", "t1")))
          ⟨"p1", "hello", "test", 0⟩).2 "test"
      = .assembled "test" (scanSession
          (SyncTranscript sampleHandlerEnv
            (SubmitAsyncTranscription sampleHandler "test" [] [] (some ("f1", "t1")))
            ⟨"p1", "hello", "test", 0⟩).2.assessmentResults "test")
      ∨ (GetConsolidatedAssessmentResults sampleHandlerEnv
          (SyncTranscript sampleHandlerEnv
            (SubmitAsyncTranscription sampleHandler "test" [] [] (some ("f1", "t1")))
            ⟨"p1", "hello", "test", 0⟩).2 "test" = .notFound
        ∧ scanSession
          (SyncTranscript sampleHandlerEnv
            (SubmitAsyncTranscription sampleHandler "test" [] [] (some ("f1", "t1")))
            ⟨"p1", "hello", "test", 0⟩).2.assessmentResults "test" = []))
    ∧ (scanSession
        (SyncTranscript sampleHandlerEnv
          (SubmitAsyncTranscription sampleHandler "test" [] [] (some ("f1", "t1")))
          ⟨"p1", "hello", "test", 0⟩).2.assessmentResults "test").map (fun item => item.1)
        = ["p1"] :=
  ⟨(scan_returns_participant_entries sampleHandlerEnv
      (SyncTranscript sampleHandlerEnv
        (SubmitAsyncTranscription sampleHandler "test" [] [] (some ("f1", "t1")))
        ⟨"p1", "hello", "test", 0⟩).2 "test" (by decide) (Or.inl rfl) (by decide)).1,
    by decide⟩

/-- C21 as stated fails: after an async submission and one participant result for session
`test`, with every write complete and no consolidated entry, three stored keys begin with
the session id, yet the reply carries one item only, the one of participant `p1`; the
entries under `test_async_id` and `test_file_id` yield none. -/
theorem scan_skips_entries_of_other_types :
    (SyncTranscript sampleHandlerEnv
        (SubmitAsyncTranscription sampleHandler "test" [] [] (some ("f1", "t1")))
        ⟨"p1", "hello", "test", 0⟩).2.assessmentResults.map (fun e => e.1)
      = ["test_p1", "test_file_id", "test_async_id"]
    ∧ ((SyncTranscript sampleHandlerEnv
        (SubmitAsyncTranscription sampleHandler "test" [] [] (some ("f1", "t1")))
        ⟨"p1", "hello", "test", 0⟩).2.assessmentResults.all
          (fun e => isSessionKey "test" e.1)) = true
    ∧ storeLoad (SyncTranscript sampleHandlerEnv
        (SubmitAsyncTranscription sampleHandler "test" [] [] (some ("f1", "t1")))
        ⟨"p1", "hello", "test", 0⟩).2.assessmentResults ("test" ++ "_consolidated") = none
    ∧ GetConsolidatedAssessmentResults sampleHandlerEnv
        (SyncTranscript sampleHandlerEnv
          (SubmitAsyncTranscription sampleHandler "test" [] [] (some ("f1", "t1")))
          ⟨"p1", "hello", "test", 0⟩).2 "test"
      = .assembled "test"
          [("p1", (createFallbackResponse
            { ParticipantID := "p1", SessionID := "test", Transcript := "hello",
              Criteria := sampleCriteria, Language := "vietnamese", Context := "" }).Results)]
    ∧ [("p1", (createFallbackResponse
            { ParticipantID := "p1", SessionID := "test", Transcript := "hello",
              Criteria := sampleCriteria, Language := "vietnamese",
              Context := "" }).Results)].length < 3 := by
  refine ⟨by decide, by decide, by decide, by decide, by decide⟩

/-! ## The transcription id and the participant keys -/

/-- C28 (behaviour of the code): a transcript synced for session `test` with the
participant id `async_id` is accepted and its result is stored under the key
`test_async_id`, the reserved key of the transcription id; the stored value is an
AssessmentResponse, not a string, so the unchecked assertion of
`GetAsyncTranscriptionStatus` fails for session `test`. -/
theorem participant_key_hits_transcription_id :
    (SyncTranscript sampleHandlerEnv sampleHandler ⟨"async_id", "hello", "test", 0⟩).1 = 200
    ∧ (SyncTranscript sampleHandlerEnv sampleHandler
        ⟨"async_id", "hello", "test", 0⟩).2.assessmentResults.map (fun e => e.1)
      = ["test" ++ "_async_id"]
    ∧ "test" ++ "_" ++ "async_id" = "test" ++ "_async_id"
    ∧ (storeLoad (SyncTranscript sampleHandlerEnv sampleHandler
        ⟨"async_id", "hello", "test", 0⟩).2.assessmentResults ("test" ++ "_async_id")).map
          isAssessmentValue = some true
    ∧ lookupTranscriptionID (SyncTranscript sampleHandlerEnv sampleHandler
        ⟨"async_id", "hello", "test", 0⟩).2 "test" = .assertionPanic
    ∧ lookupTranscriptionID
        (SubmitAsyncTranscription sampleHandler "test" [] [] (some ("f1", "t1"))) "test"
      = .found "t1"
    ∧ lookupTranscriptionID
        (SyncTranscript sampleHandlerEnv
          (SubmitAsyncTranscription sampleHandler "test" [] [] (some ("f1", "t1")))
          ⟨"async_id", "hello", "test", 0⟩).2 "test" = .assertionPanic := by
  refine ⟨by decide, by decide, by decide, by decide, by decide, by decide, by decide⟩

/-! ## Page count -/

/-- C29 (behaviour of the code): a `limit` parameter of `0`, of `abc` or left empty is
parsed as 0, and when the service call succeeds the page count divides by it: the three
list handlers end in a division by zero. With the default limit the page count is
computed. -/
theorem zero_limit_divides_by_zero :
    atoi "0" = 0 ∧ atoi "abc" = 0 ∧ atoi "" = 0 ∧ atoi "20" = 20
    ∧ pageCount 45 0 = none
    ∧ (∀ total : Int, pageCount total 0 = none)
    ∧ ListAssessments (some "1") (some "0") (fun _ _ => .ok 45) = .divisionPanic
    ∧ ListAssessments none (some "abc") (fun _ _ => .ok 45) = .divisionPanic
    ∧ GetEmployeeAssessments true none (some "") (fun _ _ => .ok 0) = .divisionPanic
    ∧ GetPendingAssessments none (some "0") (fun _ _ => .ok 45) = .divisionPanic
    ∧ ListAssessments none none (fun _ _ => .ok 45) = .ok 1 20 45 3 := by
  refine ⟨by decide, by decide, by decide, by decide, by decide, fun _ => rfl, by decide,
    by decide, by decide, by decide, by decide⟩

/-! ## Rounding to binary64: the value of `round` -/

namespace F64

theorem ilog2Aux_spec : ∀ fuel n : Nat, n ≤ fuel → 0 < n →
    2 ^ ilog2Aux fuel n ≤ n ∧ n < 2 ^ (ilog2Aux fuel n + 1) := by
  intro fuel
  induction fuel with
  | zero => intro n h1 h2; omega
  | succ f ih =>
    intro n h1 h2
    unfold ilog2Aux
    by_cases hn : n < 2
    · rw [if_pos hn]
      constructor
      · simpa using h2
      · simpa using hn
    · rw [if_neg hn]
      have h3 : n / 2 ≤ f := by omega
      have h4 : 0 < n / 2 := by omega
      obtain ⟨a, b⟩ := ih (n / 2) h3 h4
      constructor
      · rw [pow_succ]
        omega
      · rw [pow_succ]
        omega

theorem ilog2_spec (n : Nat) (h : 0 < n) : 2 ^ ilog2 n ≤ n ∧ n < 2 ^ (ilog2 n + 1) :=
  ilog2Aux_spec n n (le_refl n) h

theorem two_zpow_pos (k : Int) : (0 : ℚ) < (2 : ℚ) ^ k := by positivity

theorem two_zpow_sub_nat (a b : Nat) : (2 : ℚ) ^ ((a : Int) - (b : Int)) = 2 ^ a / 2 ^ b := by
  rw [zpow_sub₀ (by norm_num : (2 : ℚ) ≠ 0), zpow_natCast, zpow_natCast]

/-- The quotient n / d lies in the binade found by comparing the leading digits. -/
theorem lgOf_zero_spec (n d : Nat) (hn : 0 < n) (hd : 0 < d) :
    (2 : ℚ) ^ (lgOf n d 0) ≤ (n : ℚ) / d ∧ (n : ℚ) / d < 2 ^ (lgOf n d 0 + 1) := by
  obtain ⟨ha1, ha2⟩ := ilog2_spec n hn
  obtain ⟨hb1, hb2⟩ := ilog2_spec d hd
  have hdq : (0 : ℚ) < d := by exact_mod_cast hd
  have hnq : (0 : ℚ) < n := by exact_mod_cast hn
  have ha1q : (2 : ℚ) ^ ilog2 n ≤ n := by exact_mod_cast ha1
  have ha2q : (n : ℚ) < 2 ^ (ilog2 n + 1) := by exact_mod_cast ha2
  have hb1q : (2 : ℚ) ^ ilog2 d ≤ d := by exact_mod_cast hb1
  have hb2q : (d : ℚ) < 2 ^ (ilog2 d + 1) := by exact_mod_cast hb2
  have hpa : (0 : ℚ) < 2 ^ ilog2 n := by positivity
  have hpb : (0 : ℚ) < 2 ^ ilog2 d := by positivity
  -- the coarse bounds
  have hlow : (2 : ℚ) ^ ((ilog2 n : Int) - (ilog2 d : Int) - 1) ≤ (n : ℚ) / d := by
    rw [zpow_sub₀ (by norm_num : (2 : ℚ) ≠ 0), two_zpow_sub_nat, zpow_one, div_div,
      div_le_div_iff₀ (by positivity) hdq]
    have : (d : ℚ) ≤ 2 ^ ilog2 d * 2 := by
      have := hb2q
      rw [pow_succ] at this
      exact this.le
    calc (2 : ℚ) ^ ilog2 n * d ≤ n * d := by
          exact mul_le_mul_of_nonneg_right ha1q hdq.le
      _ ≤ n * (2 ^ ilog2 d * 2) := by
          exact mul_le_mul_of_nonneg_left this hnq.le
  have hhigh : (n : ℚ) / d < (2 : ℚ) ^ ((ilog2 n : Int) - (ilog2 d : Int) + 1) := by
    rw [zpow_add₀ (by norm_num : (2 : ℚ) ≠ 0), two_zpow_sub_nat, zpow_one,
      div_lt_iff₀ hdq]
    have h1 : (n : ℚ) < 2 ^ ilog2 n * 2 := by
      have := ha2q
      rw [pow_succ] at this
      exact this
    have h2 : (2 : ℚ) ^ ilog2 n * 2 ≤ 2 ^ ilog2 n / 2 ^ ilog2 d * 2 * d := by
      rw [div_mul_eq_mul_div, div_mul_eq_mul_div, le_div_iff₀ hpb]
      nlinarith
    linarith
  unfold lgOf
  simp only [add_zero]
  by_cases hl : (0 : Int) ≤ (ilog2 n : Int) - (ilog2 d : Int)
  · rw [if_pos hl]
    by_cases hge : d <<< ((ilog2 n : Int) - (ilog2 d : Int)).toNat ≤ n
    · rw [decide_eq_true hge, if_pos rfl]
      refine ⟨?_, hhigh⟩
      rw [Nat.shiftLeft_eq] at hge
      have hgeq : (d : ℚ) * 2 ^ ((ilog2 n : Int) - (ilog2 d : Int)).toNat ≤ n := by
        exact_mod_cast hge
      rw [le_div_iff₀ hdq]
      have hz : (2 : ℚ) ^ ((ilog2 n : Int) - (ilog2 d : Int))
          = 2 ^ ((ilog2 n : Int) - (ilog2 d : Int)).toNat := by
        rw [← zpow_natCast, Int.toNat_of_nonneg hl]
      rw [hz]
      linarith
    · rw [decide_eq_false hge]
      simp only [Bool.false_eq_true, if_false]
      refine ⟨hlow, ?_⟩
      rw [Nat.shiftLeft_eq] at hge
      have hgeq : (n : ℚ) < (d : ℚ) * 2 ^ ((ilog2 n : Int) - (ilog2 d : Int)).toNat := by
        exact_mod_cast not_le.mp hge
      rw [sub_add_cancel, div_lt_iff₀ hdq]
      have hz : (2 : ℚ) ^ ((ilog2 n : Int) - (ilog2 d : Int))
          = 2 ^ ((ilog2 n : Int) - (ilog2 d : Int)).toNat := by
        rw [← zpow_natCast, Int.toNat_of_nonneg hl]
      rw [hz]
      linarith
  · rw [if_neg hl]
    have hl1 : (0 : Int) ≤ -((ilog2 n : Int) - (ilog2 d : Int)) := by omega
    have hz : (2 : ℚ) ^ (-((ilog2 n : Int) - (ilog2 d : Int)))
        = 2 ^ (-((ilog2 n : Int) - (ilog2 d : Int))).toNat := by
      rw [← zpow_natCast, Int.toNat_of_nonneg hl1]
    have hinv : (2 : ℚ) ^ ((ilog2 n : Int) - (ilog2 d : Int))
        * 2 ^ (-((ilog2 n : Int) - (ilog2 d : Int))).toNat = 1 := by
      rw [← hz, ← zpow_add₀ (by norm_num : (2 : ℚ) ≠ 0)]
      simp
    have hpz : (0 : ℚ) < 2 ^ (-((ilog2 n : Int) - (ilog2 d : Int))).toNat := by positivity
    by_cases hge : d ≤ n <<< (-((ilog2 n : Int) - (ilog2 d : Int))).toNat
    · rw [decide_eq_true hge, if_pos rfl]
      refine ⟨?_, hhigh⟩
      rw [Nat.shiftLeft_eq] at hge
      have hgeq : (d : ℚ) ≤ (n : ℚ) * 2 ^ (-((ilog2 n : Int) - (ilog2 d : Int))).toNat := by
        exact_mod_cast hge
      rw [le_div_iff₀ hdq]
      have hp := two_zpow_pos ((ilog2 n : Int) - (ilog2 d : Int))
      calc (2 : ℚ) ^ ((ilog2 n : Int) - (ilog2 d : Int)) * d
          ≤ 2 ^ ((ilog2 n : Int) - (ilog2 d : Int))
              * ((n : ℚ) * 2 ^ (-((ilog2 n : Int) - (ilog2 d : Int))).toNat) :=
            mul_le_mul_of_nonneg_left hgeq hp.le
        _ = n * (2 ^ ((ilog2 n : Int) - (ilog2 d : Int))
              * 2 ^ (-((ilog2 n : Int) - (ilog2 d : Int))).toNat) := by ring
        _ = n := by rw [hinv, mul_one]
    · rw [decide_eq_false hge]
      simp only [Bool.false_eq_true, if_false]
      refine ⟨hlow, ?_⟩
      rw [Nat.shiftLeft_eq] at hge
      have hgeq : (n : ℚ) * 2 ^ (-((ilog2 n : Int) - (ilog2 d : Int))).toNat < d := by
        exact_mod_cast not_le.mp hge
      rw [sub_add_cancel, div_lt_iff₀ hdq]
      have hp := two_zpow_pos ((ilog2 n : Int) - (ilog2 d : Int))
      calc (n : ℚ) = n * (2 ^ ((ilog2 n : Int) - (ilog2 d : Int))
              * 2 ^ (-((ilog2 n : Int) - (ilog2 d : Int))).toNat) := by rw [hinv, mul_one]
        _ = 2 ^ ((ilog2 n : Int) - (ilog2 d : Int))
              * ((n : ℚ) * 2 ^ (-((ilog2 n : Int) - (ilog2 d : Int))).toNat) := by ring
        _ < 2 ^ ((ilog2 n : Int) - (ilog2 d : Int)) * d :=
            mul_lt_mul_of_pos_left hgeq hp

theorem lgOf_add (n d : Nat) (e : Int) : lgOf n d e = lgOf n d 0 + e := by
  unfold lgOf
  simp

/-- The value (n / d) × 2^e lies in the binade numbered `lgOf n d e`. -/
theorem lgOf_spec (n d : Nat) (e : Int) (hn : 0 < n) (hd : 0 < d) :
    (2 : ℚ) ^ (lgOf n d e) ≤ (n : ℚ) / d * 2 ^ e
    ∧ (n : ℚ) / d * 2 ^ e < 2 ^ (lgOf n d e + 1) := by
  obtain ⟨h1, h2⟩ := lgOf_zero_spec n d hn hd
  have hp := two_zpow_pos e
  rw [lgOf_add]
  constructor
  · rw [zpow_add₀ (by norm_num : (2 : ℚ) ≠ 0)]
    exact mul_le_mul_of_nonneg_right h1 hp.le
  · have : lgOf n d 0 + e + 1 = (lgOf n d 0 + 1) + e := by ring
    rw [this, zpow_add₀ (by norm_num : (2 : ℚ) ≠ 0)]
    exact mul_lt_mul_of_pos_right h2 hp

theorem rne_spec (num den : Nat) (hden : 0 < den) :
    |(rne num den : ℚ) - (num : ℚ) / den| ≤ 1 / 2
    ∧ (∀ M : Nat, (num : ℚ) / den = M → rne num den = M) := by
  have hdq : (0 : ℚ) < den := by exact_mod_cast hden
  have hsplit : (num : ℚ) = den * (num / den : Nat) + (num % den : Nat) := by
    exact_mod_cast (Nat.div_add_mod num den).symm
  have hr : num % den < den := Nat.mod_lt _ hden
  have hrq : ((num % den : Nat) : ℚ) < den := by exact_mod_cast hr
  have hr0 : (0 : ℚ) ≤ ((num % den : Nat) : ℚ) := by positivity
  have hquot : (num : ℚ) / den = (num / den : Nat) + ((num % den : Nat) : ℚ) / den := by
    rw [div_eq_iff hdq.ne']
    rw [add_mul, div_mul_cancel₀ _ hdq.ne']
    linarith
  constructor
  · unfold rne
    simp only
    split
    · rename_i hc
      have h2 : den ≤ 2 * (num % den) := by
        rcases hc with h | h
        · exact h.le
        · exact h.1.ge
      have h2q : (den : ℚ) ≤ 2 * ((num % den : Nat) : ℚ) := by exact_mod_cast h2
      rw [hquot, abs_le]
      push_cast
      constructor
      · have : ((num % den : Nat) : ℚ) / den ≤ 1 := by
          rw [div_le_one hdq]
          exact hrq.le
        linarith
      · have : (1 : ℚ) / 2 ≤ ((num % den : Nat) : ℚ) / den := by
          rw [le_div_iff₀ hdq]
          linarith
        linarith
    · rename_i hc
      have h2 : 2 * (num % den) ≤ den := by
        by_contra hcon
        exact hc (Or.inl (not_le.mp hcon))
      have h2q : 2 * ((num % den : Nat) : ℚ) ≤ den := by exact_mod_cast h2
      rw [hquot, abs_le]
      have h3 : ((num % den : Nat) : ℚ) / den ≤ 1 / 2 := by
        rw [div_le_iff₀ hdq]
        linarith
      have h4 : 0 ≤ ((num % den : Nat) : ℚ) / den := div_nonneg hr0 hdq.le
      constructor
      · linarith
      · linarith
  · intro M hM
    have hnum : num = M * den := by
      have : (num : ℚ) = M * den := by
        rw [div_eq_iff hdq.ne'] at hM
        exact hM
      exact_mod_cast this
    have hmod : num % den = 0 := by
      rw [hnum]
      exact Nat.mul_mod_left M den
    have hdiv : num / den = M := by
      rw [hnum]
      exact Nat.mul_div_cancel M hden
    unfold rne
    simp only [hmod, hdiv]
    have hc : ¬ (den < 2 * 0 ∨ (2 * 0 = den ∧ M % 2 = 1)) := by
      intro h
      rcases h with h | h
      · omega
      · omega
    rw [if_neg hc]

/-- The magnitude mant × 2^ex of the value built by `encode`. -/
theorem encode_spec (neg : Bool) (q : Nat) (k : Int) (hq : q ≤ 9007199254740992)
    (hk1 : -1074 ≤ k) (hk2 : k ≤ 970) (hqk : 4503599627370496 ≤ q ∨ k = -1074) :
    (encode neg q k).isFinite = true ∧ (encode neg q k).sign = neg
    ∧ (encode neg q k).mag = (q : ℚ) * 2 ^ k := by
  unfold encode
  by_cases h1 : q < 4503599627370496
  · have hk : k = -1074 := by
      rcases hqk with h | h
      · omega
      · exact h
    rw [if_pos h1]
    have hmod : q % 4503599627370496 = q := Nat.mod_eq_of_lt h1
    refine ⟨by simp [isFinite], rfl, ?_⟩
    simp [mag, mant, ex, hmod, hk]
  · rw [if_neg h1]
    simp only
    by_cases h2 : q = 9007199254740992
    · subst h2
      simp only [if_true]
      have h3 : ¬ (2047 ≤ k + 1 + 1075) := by omega
      rw [if_neg h3]
      have h4 : (k + 1 + 1075).toNat % 2048 = (k + 1 + 1075).toNat := by
        apply Nat.mod_eq_of_lt
        omega
      have h5 : (k + 1 + 1075).toNat ≠ 0 := by omega
      have h6 : ((k + 1 + 1075).toNat : Int) = k + 1 + 1075 := Int.toNat_of_nonneg (by omega)
      refine ⟨?_, rfl, ?_⟩
      · simp only [isFinite, h4, decide_eq_true_eq]
        omega
      · simp only [mag, mant, ex, h4, if_neg h5, h6]
        norm_num
        rw [zpow_add₀ (by norm_num : (2 : ℚ) ≠ 0)]
        ring
    · simp only [if_neg h2]
      have h3 : ¬ (2047 ≤ k + 1075) := by omega
      rw [if_neg h3]
      have h4 : (k + 1075).toNat % 2048 = (k + 1075).toNat := by
        apply Nat.mod_eq_of_lt
        omega
      have h5 : (k + 1075).toNat ≠ 0 := by omega
      have h6 : ((k + 1075).toNat : Int) = k + 1075 := Int.toNat_of_nonneg (by omega)
      have h7 : (q - 4503599627370496) % 4503599627370496 = q - 4503599627370496 := by
        apply Nat.mod_eq_of_lt
        omega
      refine ⟨?_, rfl, ?_⟩
      · simp only [isFinite, h4, decide_eq_true_eq]
        omega
      · simp only [mag, mant, ex, h4, if_neg h5, h6, h7]
        have h8 : 4503599627370496 + (q - 4503599627370496) = q := by omega
        rw [h8]
        norm_num

theorem ulpExp_spec (lg : Int) :
    -1074 ≤ ulpExp lg ∧ lg - 52 ≤ ulpExp lg
    ∧ (ulpExp lg = lg - 52 ∨ (ulpExp lg = -1074 ∧ lg - 52 < -1074)) := by
  unfold ulpExp
  split
  · refine ⟨le_refl _, by omega, Or.inr ⟨rfl, by assumption⟩⟩
  · refine ⟨by omega, le_refl _, Or.inl rfl⟩

/-- The quotient that `round` hands to `rne` is the value in units of 2^k. -/
theorem round_quotient (n d : Nat) (e k : Int) (hd : 0 < d) :
    0 < (if 0 ≤ e - k then d else d <<< (-(e - k)).toNat)
    ∧ (((if 0 ≤ e - k then n <<< (e - k).toNat else n : Nat) : ℚ)
        / ((if 0 ≤ e - k then d else d <<< (-(e - k)).toNat : Nat) : ℚ)
      = (n : ℚ) / d * 2 ^ e / 2 ^ k) := by
  have hdq : (0 : ℚ) < d := by exact_mod_cast hd
  have hk := two_zpow_pos k
  have he := two_zpow_pos e
  by_cases hsh : 0 ≤ e - k
  · simp only [if_pos hsh]
    refine ⟨hd, ?_⟩
    rw [Nat.shiftLeft_eq]
    push_cast
    have hz : (2 : ℚ) ^ (e - k).toNat = 2 ^ e / 2 ^ k := by
      rw [← zpow_natCast, Int.toNat_of_nonneg hsh, zpow_sub₀ (by norm_num : (2 : ℚ) ≠ 0)]
    rw [hz]
    ring
  · simp only [if_neg hsh]
    have hsh1 : 0 ≤ -(e - k) := by omega
    constructor
    · rw [Nat.shiftLeft_eq]
      positivity
    · rw [Nat.shiftLeft_eq]
      push_cast
      have hz : (2 : ℚ) ^ (-(e - k)).toNat = 2 ^ k / 2 ^ e := by
        rw [← zpow_natCast, Int.toNat_of_nonneg hsh1]
        have : -(e - k) = k - e := by ring
        rw [this, zpow_sub₀ (by norm_num : (2 : ℚ) ≠ 0)]
      rw [hz]
      field_simp

theorem round_eq_encode (neg : Bool) (n d : Nat) (e : Int) (hn : 0 < n) (hd : 0 < d) :
    round neg n d e
      = encode neg
          (rne (if 0 ≤ e - ulpExp (lgOf n d e) then n <<< (e - ulpExp (lgOf n d e)).toNat
                else n)
            (if 0 ≤ e - ulpExp (lgOf n d e) then d
             else d <<< (-(e - ulpExp (lgOf n d e))).toNat))
          (ulpExp (lgOf n d e)) := by
  unfold round
  have h : ¬ (n = 0 ∨ d = 0) := by omega
  rw [if_neg h]

/-- Rounding of a positive value below 2^1023: the result is finite with the given sign;
its magnitude is within half a unit in the last place of the value, that is within the
relative error 2^-53 from 2^-1022 on and within 2^-1075 below; and a value with a
significand of at most 53 digits on the grid of the format is kept as it is. -/
theorem round_spec (neg : Bool) (n d : Nat) (e : Int) (hn : 0 < n) (hd : 0 < d)
    (hX : (n : ℚ) / d * 2 ^ e < 2 ^ (1023 : Int)) :
    (round neg n d e).isFinite = true ∧ (round neg n d e).sign = neg
    ∧ ((2 : ℚ) ^ (-1022 : Int) ≤ (n : ℚ) / d * 2 ^ e →
        |(round neg n d e).mag - (n : ℚ) / d * 2 ^ e|
          ≤ 2 ^ (-53 : Int) * ((n : ℚ) / d * 2 ^ e))
    ∧ ((n : ℚ) / d * 2 ^ e < (2 : ℚ) ^ (-1022 : Int) →
        |(round neg n d e).mag - (n : ℚ) / d * 2 ^ e| ≤ 2 ^ (-1075 : Int))
    ∧ (∀ (N : Nat) (j : Int), N < 9007199254740992 → -1074 ≤ j →
        (n : ℚ) / d * 2 ^ e = (N : ℚ) * 2 ^ j →
        (round neg n d e).mag = (n : ℚ) / d * 2 ^ e) := by
  have hnq : (0 : ℚ) < n := by exact_mod_cast hn
  have hdq : (0 : ℚ) < d := by exact_mod_cast hd
  have hXpos : (0 : ℚ) < (n : ℚ) / d * 2 ^ e := by positivity
  obtain ⟨hlg1, hlg2⟩ := lgOf_spec n d e hn hd
  obtain ⟨hk1, hk2, hk3⟩ := ulpExp_spec (lgOf n d e)
  obtain ⟨hden, hQ⟩ := round_quotient n d e (ulpExp (lgOf n d e)) hd
  obtain ⟨hr1, hr2⟩ := rne_spec
    (if 0 ≤ e - ulpExp (lgOf n d e) then n <<< (e - ulpExp (lgOf n d e)).toNat else n)
    (if 0 ≤ e - ulpExp (lgOf n d e) then d else d <<< (-(e - ulpExp (lgOf n d e))).toNat)
    hden
  rw [hQ] at hr1 hr2
  rw [round_eq_encode neg n d e hn hd]
  generalize hq1 : rne
    (if 0 ≤ e - ulpExp (lgOf n d e) then n <<< (e - ulpExp (lgOf n d e)).toNat else n)
    (if 0 ≤ e - ulpExp (lgOf n d e) then d else d <<< (-(e - ulpExp (lgOf n d e))).toNat)
    = q1 at hr1 hr2 ⊢
  generalize hXdef : (n : ℚ) / d * 2 ^ e = X at *
  generalize hlgdef : lgOf n d e = lg at *
  generalize hkdef : ulpExp lg = k at *
  have h2k := two_zpow_pos k
  -- the binade is below 1023
  have hlg3 : lg < 1023 := by
    have : (2 : ℚ) ^ lg < 2 ^ (1023 : Int) := lt_of_le_of_lt hlg1 hX
    exact (zpow_lt_zpow_iff_right₀ (by norm_num : (1 : ℚ) < 2)).mp this
  have hk4 : k ≤ 970 := by
    rcases hk3 with h | h
    · omega
    · omega
  -- the number of units is below 2^53
  have hQlt : X / 2 ^ k < 9007199254740992 := by
    rw [div_lt_iff₀ h2k]
    have h1 : (2 : ℚ) ^ (lg + 1) ≤ 2 ^ (k + 53) :=
      zpow_le_zpow_right₀ (by norm_num) (by omega)
    have h2 : (2 : ℚ) ^ (k + 53) = 9007199254740992 * 2 ^ k := by
      rw [zpow_add₀ (by norm_num : (2 : ℚ) ≠ 0)]
      norm_num
      ring
    linarith
  have hq1le : q1 ≤ 9007199254740992 := by
    have h1 : (q1 : ℚ) < 9007199254740992 + 1 := by
      have := (abs_le.mp hr1).2
      linarith
    have h2 : q1 < 9007199254740992 + 1 := by exact_mod_cast h1
    omega
  have hnormal : k = lg - 52 → 4503599627370496 ≤ q1 := by
    intro hk
    have h1 : (4503599627370496 : ℚ) ≤ X / 2 ^ k := by
      rw [le_div_iff₀ h2k]
      have h2 : (2 : ℚ) ^ lg = 4503599627370496 * 2 ^ k := by
        have : lg = k + 52 := by omega
        rw [this, zpow_add₀ (by norm_num : (2 : ℚ) ≠ 0)]
        norm_num
        ring
      linarith
    have h3 : (4503599627370495 : ℚ) < q1 := by
      have := (abs_le.mp hr1).1
      linarith
    have h4 : 4503599627370495 < q1 := by exact_mod_cast h3
    omega
  have hqk : 4503599627370496 ≤ q1 ∨ k = -1074 := by
    rcases hk3 with h | h
    · exact Or.inl (hnormal h)
    · exact Or.inr h.1
  obtain ⟨hfin, hsign, hmag⟩ := encode_spec neg q1 k hq1le hk1 hk4 hqk
  -- the distance to the value, in units of 2^k
  have herr : |(q1 : ℚ) * 2 ^ k - X| ≤ 2 ^ k / 2 := by
    have h1 : (q1 : ℚ) * 2 ^ k - X = (q1 - X / 2 ^ k) * 2 ^ k := by
      field_simp
    rw [h1, abs_mul, abs_of_pos h2k]
    calc |(q1 : ℚ) - X / 2 ^ k| * 2 ^ k ≤ 1 / 2 * 2 ^ k :=
          mul_le_mul_of_nonneg_right hr1 h2k.le
      _ = 2 ^ k / 2 := by ring
  refine ⟨hfin, hsign, ?_, ?_, ?_⟩
  · intro hlow
    rw [hmag]
    have hlg4 : -1022 < lg + 1 := by
      have : (2 : ℚ) ^ (-1022 : Int) < 2 ^ (lg + 1) := lt_of_le_of_lt hlow hlg2
      exact (zpow_lt_zpow_iff_right₀ (by norm_num : (1 : ℚ) < 2)).mp this
    have hk : k = lg - 52 := by
      rcases hk3 with h | h
      · exact h
      · omega
    have h2 : (2 : ℚ) ^ k / 2 = 2 ^ (-53 : Int) * 2 ^ lg := by
      have : lg = k + 52 := by omega
      rw [this, zpow_add₀ (by norm_num : (2 : ℚ) ≠ 0)]
      norm_num
      ring
    calc |(q1 : ℚ) * 2 ^ k - X| ≤ 2 ^ k / 2 := herr
      _ = 2 ^ (-53 : Int) * 2 ^ lg := h2
      _ ≤ 2 ^ (-53 : Int) * X := mul_le_mul_of_nonneg_left hlg1 (by positivity)
  · intro hsmall
    rw [hmag]
    have hlg4 : lg < -1022 := by
      have : (2 : ℚ) ^ lg < 2 ^ (-1022 : Int) := lt_of_le_of_lt hlg1 hsmall
      exact (zpow_lt_zpow_iff_right₀ (by norm_num : (1 : ℚ) < 2)).mp this
    have hk : k = -1074 := by
      rcases hk3 with h | h
      · omega
      · exact h.1
    have h2 : (2 : ℚ) ^ k / 2 = 2 ^ (-1075 : Int) := by
      rw [hk]
      have : (-1075 : Int) = -1074 + (-1) := by norm_num
      rw [this, zpow_add₀ (by norm_num : (2 : ℚ) ≠ 0)]
      norm_num
    rw [← h2]
    exact herr
  · intro N j hN hj hXN
    rw [hmag]
    have hNpos : 0 < N := by
      rcases Nat.eq_zero_or_pos N with h | h
      · rw [h] at hXN
        simp at hXN
        linarith
      · exact h
    -- the exponent of the unit is at most j
    have hkj : k ≤ j := by
      have h1 : (2 : ℚ) ^ lg < 2 ^ (j + 53) := by
        have hNq : (N : ℚ) < 9007199254740992 := by exact_mod_cast hN
        have h2 : (2 : ℚ) ^ (j + 53) = 9007199254740992 * 2 ^ j := by
          rw [zpow_add₀ (by norm_num : (2 : ℚ) ≠ 0)]
          norm_num
          ring
        have h3 : (N : ℚ) * 2 ^ j < 9007199254740992 * 2 ^ j :=
          mul_lt_mul_of_pos_right hNq (two_zpow_pos j)
        linarith
      have h4 : lg < j + 53 := (zpow_lt_zpow_iff_right₀ (by norm_num : (1 : ℚ) < 2)).mp h1
      rcases hk3 with h | h
      · omega
      · omega
    have hM : X / 2 ^ k = ((N * 2 ^ (j - k).toNat : Nat) : ℚ) := by
      push_cast
      have hz : (2 : ℚ) ^ (j - k).toNat = 2 ^ j / 2 ^ k := by
        rw [← zpow_natCast, Int.toNat_of_nonneg (by omega),
          zpow_sub₀ (by norm_num : (2 : ℚ) ≠ 0)]
      rw [hz, hXN]
      field_simp
    have hq := hr2 (N * 2 ^ (j - k).toNat) hM
    rw [hq, ← hM]
    field_simp

theorem mag_nonneg (x : F64) : 0 ≤ x.mag := by
  unfold mag
  positivity

theorem mag_zero (neg : Bool) : (zero neg).mag = 0 := by
  simp [mag, mant, zero]

theorem toRat_zero (neg : Bool) : (zero neg).toRat = 0 := by
  unfold toRat
  rw [mag_zero]
  simp

theorem isFinite_zero (neg : Bool) : (zero neg).isFinite = true := by
  simp [isFinite, zero]

theorem mag_eq_zero_iff (x : F64) : x.mag = 0 ↔ x.mant = 0 := by
  unfold mag
  have h := two_zpow_pos x.ex
  constructor
  · intro h0
    rcases mul_eq_zero.mp h0 with h1 | h1
    · exact_mod_cast h1
    · linarith
  · intro h0
    rw [h0]
    simp

theorem toRat_of_nonneg (x : F64) (h : 0 ≤ x.toRat) :
    x.toRat = x.mag ∧ (x.mant ≠ 0 → x.sign = false) := by
  have hm := mag_nonneg x
  unfold toRat at h ⊢
  cases hs : x.sign with
  | false => simp
  | true =>
    rw [hs] at h
    simp only [if_true] at h ⊢
    have h0 : x.mag = 0 := by linarith
    refine ⟨by rw [h0]; simp, ?_⟩
    intro hne
    exact absurd ((mag_eq_zero_iff x).mp h0) hne

theorem toRat_of_sign_false (x : F64) (h : x.sign = false) : x.toRat = x.mag := by
  simp [toRat, h]

theorem finite_not_special (x : F64) (h : x.isFinite = true) :
    x.isNaN = false ∧ x.isInf = false := by
  simp only [isFinite, decide_eq_true_eq] at h
  have h1 : ¬ (x.expo.val = 2047) := by omega
  simp [isNaN, isInf, h1]

theorem finite_bounds (x : F64) (h : x.isFinite = true) :
    x.mant < 9007199254740992 ∧ -1074 ≤ x.ex ∧ x.ex ≤ 971 := by
  simp only [isFinite, decide_eq_true_eq] at h
  have hf := x.frac.isLt
  unfold mant ex
  split <;> omega

/-- Rounding of a positive value below 2^1023 that lies on the grid of the format, that is,
is a whole number of units 2^j with j ≥ -1074: the relative error is at most 2^-53. -/
theorem round_grid (neg : Bool) (n d : Nat) (e : Int) (hn : 0 < n) (hd : 0 < d)
    (hX : (n : ℚ) / d * 2 ^ e < 2 ^ (1023 : Int))
    (N : Nat) (j : Int) (hj : -1074 ≤ j) (hN : (n : ℚ) / d * 2 ^ e = (N : ℚ) * 2 ^ j) :
    (round neg n d e).isFinite = true ∧ (round neg n d e).sign = neg
    ∧ |(round neg n d e).mag - (n : ℚ) / d * 2 ^ e|
        ≤ 2 ^ (-53 : Int) * ((n : ℚ) / d * 2 ^ e) := by
  obtain ⟨h1, h2, h3, _, h5⟩ := round_spec neg n d e hn hd hX
  have hnq : (0 : ℚ) < n := by exact_mod_cast hn
  have hdq : (0 : ℚ) < d := by exact_mod_cast hd
  have hXpos : (0 : ℚ) < (n : ℚ) / d * 2 ^ e := by positivity
  refine ⟨h1, h2, ?_⟩
  by_cases hNlt : N < 9007199254740992
  · rw [h5 N j hNlt hj hN]
    simp only [sub_self, abs_zero]
    positivity
  · apply h3
    rw [hN]
    have hNq : (9007199254740992 : ℚ) ≤ N := by exact_mod_cast not_lt.mp hNlt
    have hj2 : (2 : ℚ) ^ (-1074 : Int) ≤ 2 ^ j := zpow_le_zpow_right₀ (by norm_num) hj
    have h6 : (2 : ℚ) ^ (-1022 : Int) ≤ 9007199254740992 * 2 ^ (-1074 : Int) := by
      have : (-1022 : Int) = -1074 + 52 := by norm_num
      rw [this, zpow_add₀ (by norm_num : (2 : ℚ) ≠ 0)]
      norm_num
    calc (2 : ℚ) ^ (-1022 : Int) ≤ 9007199254740992 * 2 ^ (-1074 : Int) := h6
      _ ≤ 9007199254740992 * 2 ^ j := by
          exact mul_le_mul_of_nonneg_left hj2 (by norm_num)
      _ ≤ N * 2 ^ j := mul_le_mul_of_nonneg_right hNq (two_zpow_pos j).le

/-- The conversion of an integer from 0 to 2^53 is exact. -/
theorem ofInt_exact (s : Int) (h0 : 0 ≤ s) (h1 : s < 9007199254740992) :
    (ofInt s).isFinite = true ∧ (ofInt s).toRat = s ∧ (ofInt s).mag = s := by
  obtain ⟨m, rfl⟩ := Int.eq_ofNat_of_zero_le h0
  unfold ofInt
  have hneg : decide ((m : Int) < 0) = false := by simp
  rw [hneg, Int.natAbs_ofNat]
  simp only [Int.cast_natCast]
  rcases Nat.eq_zero_or_pos m with h | h
  · subst h
    have : round false 0 1 0 = zero false := by
      simp [round]
    rw [this]
    exact ⟨isFinite_zero false, by simp [toRat_zero], by simp [mag_zero]⟩
  · have hX : (m : ℚ) / (1 : Nat) * 2 ^ (0 : Int) < 2 ^ (1023 : Int) := by
      have h2 : (m : ℚ) < 9007199254740992 := by exact_mod_cast h1
      have h3 : (9007199254740992 : ℚ) < 2 ^ (1023 : Int) := by
        have : (9007199254740992 : ℚ) = 2 ^ (53 : Int) := by norm_num
        rw [this]
        exact zpow_lt_zpow_right₀ (by norm_num) (by norm_num)
      simp only [Nat.cast_one, div_one, zpow_zero, mul_one]
      linarith
    obtain ⟨hf, hsg, _, _, hex⟩ := round_spec false m 1 0 h Nat.one_pos hX
    have hmag := hex m 0 (by omega) (by norm_num) (by simp)
    simp only [Nat.cast_one, div_one, zpow_zero, mul_one] at hmag
    exact ⟨hf, by rw [toRat_of_sign_false _ hsg, hmag], hmag⟩

end F64

/-! ## The value of a sum, a product and a quotient -/

namespace F64

theorem int_sum_of_nat (A B : Nat) (hA : 0 < A) :
    ¬ ((A : Int) + (B : Int) = 0) ∧ decide ((A : Int) + (B : Int) < 0) = false
    ∧ ((A : Int) + (B : Int)).natAbs = A + B := by
  refine ⟨by omega, ?_, by omega⟩
  rw [decide_eq_false_iff_not]
  omega

theorem add_eq_round (a b : F64) (ha : a.isFinite = true) (hb : b.isFinite = true)
    (hsa : a.sign = false) (hsb : b.sign = false) (ha1 : a.mant ≠ 0) (hb1 : b.mant ≠ 0) :
    add a b
      = round false
          (a.mant <<< (a.ex - (if a.ex ≤ b.ex then a.ex else b.ex)).toNat
            + b.mant <<< (b.ex - (if a.ex ≤ b.ex then a.ex else b.ex)).toNat)
          1 (if a.ex ≤ b.ex then a.ex else b.ex) := by
  obtain ⟨han, hai⟩ := finite_not_special a ha
  obtain ⟨hbn, hbi⟩ := finite_not_special b hb
  have h0 : ¬ (a.mant = 0 ∧ b.mant = 0) := fun h => ha1 h.1
  have hApos : 0 < a.mant <<< (a.ex - (if a.ex ≤ b.ex then a.ex else b.ex)).toNat := by
    rw [Nat.shiftLeft_eq]
    have : 0 < a.mant := Nat.pos_of_ne_zero ha1
    positivity
  obtain ⟨hx, hneg, habs⟩ := int_sum_of_nat
    (a.mant <<< (a.ex - (if a.ex ≤ b.ex then a.ex else b.ex)).toNat)
    (b.mant <<< (b.ex - (if a.ex ≤ b.ex then a.ex else b.ex)).toNat) hApos
  simp only [add, han, hbn, hai, hbi, Bool.or_self, Bool.false_eq_true, if_false, ha1, hb1,
    hsa, hsb, one_mul, and_self]
  rw [if_neg hx, hneg, habs]

theorem shifted_mag (m : Nat) (ex e : Int) (h : e ≤ ex) :
    ((m <<< (ex - e).toNat : Nat) : ℚ) * 2 ^ e = (m : ℚ) * 2 ^ ex := by
  rw [Nat.shiftLeft_eq]
  push_cast
  have hz : (2 : ℚ) ^ (ex - e).toNat = 2 ^ ex / 2 ^ e := by
    rw [← zpow_natCast, Int.toNat_of_nonneg (by omega), zpow_sub₀ (by norm_num : (2 : ℚ) ≠ 0)]
  rw [hz]
  have := two_zpow_pos e
  field_simp

/-- The sum of two finite values that are not negative, below 2^1023: finite, not negative,
and within the relative error 2^-53 of the exact sum. -/
theorem add_spec (a b : F64) (ha : a.isFinite = true) (hb : b.isFinite = true)
    (ha0 : 0 ≤ a.toRat) (hb0 : 0 ≤ b.toRat) (hlt : a.toRat + b.toRat < 2 ^ (1023 : Int)) :
    (add a b).isFinite = true ∧ 0 ≤ (add a b).toRat
    ∧ |(add a b).toRat - (a.toRat + b.toRat)| ≤ 2 ^ (-53 : Int) * (a.toRat + b.toRat) := by
  obtain ⟨han, hai⟩ := finite_not_special a ha
  obtain ⟨hbn, hbi⟩ := finite_not_special b hb
  obtain ⟨hta, hsa⟩ := toRat_of_nonneg a ha0
  obtain ⟨htb, hsb⟩ := toRat_of_nonneg b hb0
  by_cases ha1 : a.mant = 0
  · have ha2 : a.toRat = 0 := by rw [hta]; exact (mag_eq_zero_iff a).mpr ha1
    by_cases hb1 : b.mant = 0
    · have hb2 : b.toRat = 0 := by rw [htb]; exact (mag_eq_zero_iff b).mpr hb1
      have h : add a b = zero (a.sign && b.sign) := by
        simp [add, han, hbn, hai, hbi, ha1, hb1]
      rw [h, ha2, hb2, toRat_zero]
      exact ⟨isFinite_zero _, le_refl _, by simp⟩
    · have h : add a b = b := by
        simp [add, han, hbn, hai, hbi, ha1, hb1]
      rw [h, ha2]
      refine ⟨hb, hb0, ?_⟩
      simp only [zero_add, sub_self, abs_zero]
      positivity
  · by_cases hb1 : b.mant = 0
    · have hb2 : b.toRat = 0 := by rw [htb]; exact (mag_eq_zero_iff b).mpr hb1
      have h : add a b = a := by
        simp [add, han, hbn, hai, hbi, ha1, hb1]
      rw [h, hb2]
      refine ⟨ha, ha0, ?_⟩
      simp only [add_zero, sub_self, abs_zero]
      positivity
    · rw [add_eq_round a b ha hb (hsa ha1) (hsb hb1) ha1 hb1, hta, htb]
      obtain ⟨_, hea, _⟩ := finite_bounds a ha
      obtain ⟨_, heb, _⟩ := finite_bounds b hb
      have he1 : (if a.ex ≤ b.ex then a.ex else b.ex) ≤ a.ex := by split <;> omega
      have he2 : (if a.ex ≤ b.ex then a.ex else b.ex) ≤ b.ex := by split <;> omega
      have he3 : -1074 ≤ (if a.ex ≤ b.ex then a.ex else b.ex) := by split <;> omega
      generalize (if a.ex ≤ b.ex then a.ex else b.ex) = e at he1 he2 he3 ⊢
      have hA := shifted_mag a.mant a.ex e he1
      have hB := shifted_mag b.mant b.ex e he2
      have hsum : ((a.mant <<< (a.ex - e).toNat + b.mant <<< (b.ex - e).toNat : Nat) : ℚ)
          / (1 : Nat) * 2 ^ e = a.mag + b.mag := by
        unfold mag
        push_cast
        rw [div_one, add_mul]
        rw [← hA, ← hB]
      have hNpos : 0 < a.mant <<< (a.ex - e).toNat + b.mant <<< (b.ex - e).toNat := by
        have : 0 < a.mant <<< (a.ex - e).toNat := by
          rw [Nat.shiftLeft_eq]
          have : 0 < a.mant := Nat.pos_of_ne_zero ha1
          positivity
        exact Nat.add_pos_left this _
      have hX : ((a.mant <<< (a.ex - e).toNat + b.mant <<< (b.ex - e).toNat : Nat) : ℚ)
          / (1 : Nat) * 2 ^ e < 2 ^ (1023 : Int) := by
        rw [hsum, ← hta, ← htb]
        exact hlt
      obtain ⟨hf, hsg, herr⟩ := round_grid false _ 1 e hNpos Nat.one_pos hX
        (a.mant <<< (a.ex - e).toNat + b.mant <<< (b.ex - e).toNat) e he3 (by simp)
      rw [hsum] at herr
      rw [toRat_of_sign_false _ hsg]
      exact ⟨hf, mag_nonneg _, herr⟩

theorem round_zero_num (neg : Bool) (d : Nat) (e : Int) : round neg 0 d e = zero neg := by
  simp [round]

/-- The product of two finite values that are not negative, below 2^1023: finite, not
negative, and within the relative error 2^-53 of the exact product when that product lies
on the grid of the format or is at least 2^-1022. -/
theorem mul_spec (a b : F64) (ha : a.isFinite = true) (hb : b.isFinite = true)
    (ha0 : 0 ≤ a.toRat) (hb0 : 0 ≤ b.toRat) (hlt : a.toRat * b.toRat < 2 ^ (1023 : Int))
    (hgrid : (∃ (N : Nat) (j : Int), -1074 ≤ j ∧ a.toRat * b.toRat = (N : ℚ) * 2 ^ j)
      ∨ (2 : ℚ) ^ (-1022 : Int) ≤ a.toRat * b.toRat) :
    (mul a b).isFinite = true ∧ 0 ≤ (mul a b).toRat
    ∧ |(mul a b).toRat - a.toRat * b.toRat| ≤ 2 ^ (-53 : Int) * (a.toRat * b.toRat) := by
  obtain ⟨han, hai⟩ := finite_not_special a ha
  obtain ⟨hbn, hbi⟩ := finite_not_special b hb
  obtain ⟨hta, hsa⟩ := toRat_of_nonneg a ha0
  obtain ⟨htb, hsb⟩ := toRat_of_nonneg b hb0
  have hmul : mul a b = round (a.sign != b.sign) (a.mant * b.mant) 1 (a.ex + b.ex) := by
    simp [mul, han, hbn, hai, hbi]
  rw [hmul]
  by_cases h0 : a.mant * b.mant = 0
  · have hX : a.toRat * b.toRat = 0 := by
      rcases Nat.mul_eq_zero.mp h0 with h | h
      · rw [hta, (mag_eq_zero_iff a).mpr h, zero_mul]
      · rw [htb, (mag_eq_zero_iff b).mpr h, mul_zero]
    rw [h0, round_zero_num, toRat_zero, hX]
    exact ⟨isFinite_zero _, le_refl _, by simp⟩
  · have ha1 : a.mant ≠ 0 := fun h => h0 (by rw [h, zero_mul])
    have hb1 : b.mant ≠ 0 := fun h => h0 (by rw [h, mul_zero])
    have hsign : (a.sign != b.sign) = false := by
      rw [hsa ha1, hsb hb1]
      rfl
    rw [hsign]
    have hprod : ((a.mant * b.mant : Nat) : ℚ) / (1 : Nat) * 2 ^ (a.ex + b.ex)
        = a.toRat * b.toRat := by
      rw [hta, htb]
      unfold mag
      rw [zpow_add₀ (by norm_num : (2 : ℚ) ≠ 0)]
      push_cast
      ring
    have hX : ((a.mant * b.mant : Nat) : ℚ) / (1 : Nat) * 2 ^ (a.ex + b.ex)
        < 2 ^ (1023 : Int) := by
      rw [hprod]
      exact hlt
    have hpos : 0 < a.mant * b.mant := Nat.pos_of_ne_zero h0
    rcases hgrid with ⟨N, j, hj, hN⟩ | hnormal
    · obtain ⟨hf, hsg, herr⟩ := round_grid false _ 1 (a.ex + b.ex) hpos Nat.one_pos hX N j hj
        (by rw [hprod]; exact hN)
      rw [hprod] at herr
      rw [toRat_of_sign_false _ hsg]
      exact ⟨hf, mag_nonneg _, herr⟩
    · obtain ⟨hf, hsg, herr, _, _⟩ := round_spec false _ 1 (a.ex + b.ex) hpos Nat.one_pos hX
      rw [hprod] at herr
      rw [toRat_of_sign_false _ hsg]
      exact ⟨hf, mag_nonneg _, herr hnormal⟩

/-- The product of a converted integer from 0 to 2^53 with a finite value that is not
negative, below 2^1023. -/
theorem mul_ofInt_spec (s : Int) (w : F64) (h0 : 0 ≤ s) (h1 : s < 9007199254740992)
    (hw : w.isFinite = true) (hw0 : 0 ≤ w.toRat)
    (hlt : (s : ℚ) * w.toRat < 2 ^ (1023 : Int)) :
    (mul (ofInt s) w).isFinite = true ∧ 0 ≤ (mul (ofInt s) w).toRat
    ∧ |(mul (ofInt s) w).toRat - (s : ℚ) * w.toRat| ≤ 2 ^ (-53 : Int) * ((s : ℚ) * w.toRat) := by
  obtain ⟨hf, ht, _⟩ := ofInt_exact s h0 h1
  obtain ⟨htw, _⟩ := toRat_of_nonneg w hw0
  obtain ⟨_, hew, _⟩ := finite_bounds w hw
  have hs0 : 0 ≤ (ofInt s).toRat := by
    rw [ht]
    exact_mod_cast h0
  have h := mul_spec (ofInt s) w hf hw hs0 hw0 (by rw [ht]; exact hlt)
    (Or.inl ⟨s.toNat * w.mant, w.ex, hew, by
      rw [ht, htw]
      unfold mag
      have : ((s.toNat : Nat) : ℚ) = (s : ℚ) := by
        have : ((s.toNat : Nat) : Int) = s := Int.toNat_of_nonneg h0
        exact_mod_cast this
      push_cast
      rw [this]
      ring⟩)
  rw [ht] at h
  exact h

/-- The quotient of a finite value that is not negative by a finite positive value, below
2^1023: finite, not negative, within the relative error 2^-53 of the exact quotient when
that is at least 2^-1022, and within 2^-1075 of it otherwise. -/
theorem div_spec (a b : F64) (ha : a.isFinite = true) (hb : b.isFinite = true)
    (ha0 : 0 ≤ a.toRat) (hb0 : 0 < b.toRat) (hlt : a.toRat / b.toRat < 2 ^ (1023 : Int)) :
    (div a b).isFinite = true ∧ 0 ≤ (div a b).toRat
    ∧ ((2 : ℚ) ^ (-1022 : Int) ≤ a.toRat / b.toRat →
        |(div a b).toRat - a.toRat / b.toRat| ≤ 2 ^ (-53 : Int) * (a.toRat / b.toRat))
    ∧ (a.toRat / b.toRat < (2 : ℚ) ^ (-1022 : Int) →
        |(div a b).toRat - a.toRat / b.toRat| ≤ 2 ^ (-1075 : Int)) := by
  obtain ⟨han, hai⟩ := finite_not_special a ha
  obtain ⟨hbn, hbi⟩ := finite_not_special b hb
  obtain ⟨hta, hsa⟩ := toRat_of_nonneg a ha0
  obtain ⟨htb, hsb⟩ := toRat_of_nonneg b hb0.le
  have hb1 : b.mant ≠ 0 := by
    intro h
    rw [htb, (mag_eq_zero_iff b).mpr h] at hb0
    exact lt_irrefl _ hb0
  have hdiv : div a b = round (a.sign != b.sign) a.mant b.mant (a.ex - b.ex) := by
    simp [div, han, hbn, hai, hbi, hb1]
  rw [hdiv]
  by_cases h0 : a.mant = 0
  · have hX : a.toRat / b.toRat = 0 := by
      rw [hta, (mag_eq_zero_iff a).mpr h0, zero_div]
    rw [h0, round_zero_num, toRat_zero, hX]
    refine ⟨isFinite_zero _, le_refl _, ?_, ?_⟩
    · intro _
      simp
    · intro _
      simp only [sub_self, abs_zero]
      positivity
  · have hsign : (a.sign != b.sign) = false := by
      rw [hsa h0, hsb hb1]
      rfl
    rw [hsign]
    have hquot : (a.mant : ℚ) / (b.mant : ℚ) * 2 ^ (a.ex - b.ex) = a.toRat / b.toRat := by
      rw [hta, htb]
      unfold mag
      rw [zpow_sub₀ (by norm_num : (2 : ℚ) ≠ 0)]
      have := two_zpow_pos b.ex
      have hbq : (b.mant : ℚ) ≠ 0 := by exact_mod_cast hb1
      field_simp
    have hX : (a.mant : ℚ) / (b.mant : ℚ) * 2 ^ (a.ex - b.ex) < 2 ^ (1023 : Int) := by
      rw [hquot]
      exact hlt
    obtain ⟨hf, hsg, herr1, herr2, _⟩ := round_spec false a.mant b.mant (a.ex - b.ex)
      (Nat.pos_of_ne_zero h0) (Nat.pos_of_ne_zero hb1) hX
    rw [hquot] at herr1 herr2
    rw [toRat_of_sign_false _ hsg]
    exact ⟨hf, mag_nonneg _, herr1, herr2⟩

/-- For a finite value, the comparison with zero is that of its value. -/
theorem gt_zero_iff (x : F64) (hx : x.isFinite = true) :
    gt x (zero false) = true ↔ 0 < x.toRat := by
  obtain ⟨hxn, _⟩ := finite_not_special x hx
  have hz : (zero false).isNaN = false := by simp [isNaN, zero]
  have hkz : (zero false).key = 0 := by simp [key, zero]
  have h2 := two_zpow_pos x.ex
  simp only [gt, lt, hxn, hz, Bool.not_false, Bool.true_and, decide_eq_true_eq, hkz]
  unfold key toRat mag
  have hmant : x.mant = 0 ↔ x.expo.val * 4503599627370496 + x.frac.val = 0 := by
    unfold mant
    split <;> omega
  cases hs : x.sign with
  | true =>
    simp only [if_true]
    constructor
    · intro h
      omega
    · intro h
      have : (0 : ℚ) ≤ (x.mant : ℚ) * 2 ^ x.ex := by positivity
      linarith
  | false =>
    simp only [Bool.false_eq_true, if_false, one_mul]
    constructor
    · intro h
      have hm : x.mant ≠ 0 := by
        intro h0
        have := hmant.mp h0
        omega
      have : (0 : ℚ) < x.mant := by exact_mod_cast Nat.pos_of_ne_zero hm
      positivity
    · intro h
      have hm : x.mant ≠ 0 := by
        intro h0
        rw [h0] at h
        simp at h
      have : x.expo.val * 4503599627370496 + x.frac.val ≠ 0 := fun h0 => hm (hmant.mpr h0)
      omega

end F64

/-! ## Accumulated relative error -/

theorem unitRoundoff_pos : 0 < unitRoundoff := by
  unfold unitRoundoff
  positivity

theorem unitRoundoff_small : unitRoundoff ≤ 1 / 2 := by
  unfold unitRoundoff
  norm_num

theorem approx_refl (e : ℚ) : Approx 0 e e := by
  simp [Approx]

theorem approx_nonneg (m : Nat) (x e : ℚ) (he : 0 ≤ e) (h : Approx m x e) : 0 ≤ x := by
  have h1 := unitRoundoff_small
  have h2 : 0 ≤ (1 - unitRoundoff) ^ m := pow_nonneg (by linarith) m
  exact le_trans (mul_nonneg he h2) h.1

theorem approx_mono (m m1 : Nat) (x e : ℚ) (hm : m ≤ m1) (he : 0 ≤ e) (h : Approx m x e) :
    Approx m1 x e := by
  have h1 := unitRoundoff_small
  have h0 := unitRoundoff_pos
  constructor
  · have : (1 - unitRoundoff) ^ m1 ≤ (1 - unitRoundoff) ^ m :=
      pow_le_pow_of_le_one (by linarith) (by linarith) hm
    exact le_trans (mul_le_mul_of_nonneg_left this he) h.1
  · have : (1 + unitRoundoff) ^ m ≤ (1 + unitRoundoff) ^ m1 :=
      pow_le_pow_right₀ (by linarith) hm
    exact le_trans h.2 (mul_le_mul_of_nonneg_left this he)

theorem approx_add (m : Nat) (x y e f : ℚ) (hx : Approx m x e) (hy : Approx m y f) :
    Approx m (x + y) (e + f) := by
  constructor
  · rw [add_mul]
    exact add_le_add hx.1 hy.1
  · rw [add_mul]
    exact add_le_add hx.2 hy.2

theorem approx_round (m : Nat) (x e r : ℚ) (he : 0 ≤ e) (h : Approx m x e)
    (hr : |r - x| ≤ unitRoundoff * x) : Approx (m + 1) r e := by
  have h1 := unitRoundoff_small
  have h0 := unitRoundoff_pos
  have hx := approx_nonneg m x e he h
  obtain ⟨hr1, hr2⟩ := abs_le.mp hr
  constructor
  · rw [pow_succ, ← mul_assoc]
    calc e * (1 - unitRoundoff) ^ m * (1 - unitRoundoff)
        ≤ x * (1 - unitRoundoff) := mul_le_mul_of_nonneg_right h.1 (by linarith)
      _ ≤ r := by linarith
  · rw [pow_succ, ← mul_assoc]
    calc r ≤ x * (1 + unitRoundoff) := by linarith
      _ ≤ e * (1 + unitRoundoff) ^ m * (1 + unitRoundoff) :=
          mul_le_mul_of_nonneg_right h.2 (by linarith)

/-! ## The accumulation loop against the exact sums -/

theorem scoredValue_nonneg (p : ParticipantAssessment) (c : AssessmentCriteria)
    (hw : 0 ≤ c.Weight.toRat)
    (hs : ∀ compScore, p.Scores c.ID = some compScore → 0 ≤ compScore.Score) :
    0 ≤ scoredValue p c := by
  unfold scoredValue
  cases hsc : p.Scores c.ID with
  | none => exact le_refl 0
  | some compScore =>
    have : (0 : ℚ) ≤ (compScore.Score : ℚ) := by exact_mod_cast hs compScore hsc
    exact mul_nonneg this hw

theorem scoredWeight_nonneg (p : ParticipantAssessment) (c : AssessmentCriteria)
    (hw : 0 ≤ c.Weight.toRat) : 0 ≤ scoredWeight p c := by
  unfold scoredWeight
  cases p.Scores c.ID with
  | none => exact le_refl 0
  | some _ => exact hw

theorem scoredValue_sum_nonneg (p : ParticipantAssessment) (cs : List AssessmentCriteria)
    (hw : WeightsNonneg cs) (hs : ScoresInRange cs p) :
    0 ≤ (cs.map (scoredValue p)).sum := by
  apply List.sum_nonneg
  intro x hx
  obtain ⟨c, hc, rfl⟩ := List.mem_map.mp hx
  exact scoredValue_nonneg p c (hw c hc).2 (fun compScore h => (hs c hc compScore h).1)

theorem scoredWeight_sum_nonneg (p : ParticipantAssessment) (cs : List AssessmentCriteria)
    (hw : WeightsNonneg cs) : 0 ≤ (cs.map (scoredWeight p)).sum := by
  apply List.sum_nonneg
  intro x hx
  obtain ⟨c, hc, rfl⟩ := List.mem_map.mp hx
  exact scoredWeight_nonneg p c (hw c hc).2

theorem one_le_pow_roundoff (m : Nat) : 1 ≤ (1 + unitRoundoff) ^ m :=
  one_le_pow₀ (by have := unitRoundoff_pos; linarith)

theorem pow_roundoff_mono (m m1 : Nat) (h : m ≤ m1) :
    (1 + unitRoundoff) ^ m ≤ (1 + unitRoundoff) ^ m1 :=
  pow_le_pow_right₀ (by have := unitRoundoff_pos; linarith) h

/-- One step of a scoring loop keeps the two sums finite and within the rounding factors of
the exact sums. -/
theorem sumStep_approx (p : ParticipantAssessment) (c : AssessmentCriteria) (m : Nat)
    (S T : F64) (Se Te : ℚ)
    (hw : c.Weight.isFinite = true ∧ 0 ≤ c.Weight.toRat)
    (hs : ∀ compScore, p.Scores c.ID = some compScore →
      0 ≤ compScore.Score ∧ compScore.Score ≤ 5)
    (hS : S.isFinite = true) (hT : T.isFinite = true) (hSe : 0 ≤ Se) (hTe : 0 ≤ Te)
    (hSa : Approx (2 * m) S.toRat Se) (hTa : Approx m T.toRat Te)
    (hB1 : (Se + scoredValue p c) * (1 + unitRoundoff) ^ (2 * (m + 1)) < 2 ^ (1023 : Int))
    (hB2 : (Te + scoredWeight p c) * (1 + unitRoundoff) ^ (m + 1) < 2 ^ (1023 : Int)) :
    (sumStep p (S, T) c).1.isFinite = true ∧ (sumStep p (S, T) c).2.isFinite = true
    ∧ Approx (2 * (m + 1)) (sumStep p (S, T) c).1.toRat (Se + scoredValue p c)
    ∧ Approx (m + 1) (sumStep p (S, T) c).2.toRat (Te + scoredWeight p c) := by
  unfold sumStep scoredValue scoredWeight at *
  cases hsc : p.Scores c.ID with
  | none =>
    simp only [add_zero]
    exact ⟨hS, hT, approx_mono _ _ _ _ (by omega) hSe hSa,
      approx_mono _ _ _ _ (by omega) hTe hTa⟩
  | some compScore =>
    rw [hsc] at hB1 hB2
    simp only at hB1 hB2 ⊢
    obtain ⟨hlo, hhi⟩ := hs compScore hsc
    have hsq : (0 : ℚ) ≤ (compScore.Score : ℚ) := by exact_mod_cast hlo
    have hv : 0 ≤ (compScore.Score : ℚ) * c.Weight.toRat := mul_nonneg hsq hw.2
    have hS0 := approx_nonneg _ _ _ hSe hSa
    have hT0 := approx_nonneg _ _ _ hTe hTa
    -- the product
    have hvlt : (compScore.Score : ℚ) * c.Weight.toRat < 2 ^ (1023 : Int) := by
      have h1 := one_le_pow_roundoff (2 * (m + 1))
      have h2 : (compScore.Score : ℚ) * c.Weight.toRat
          ≤ (Se + (compScore.Score : ℚ) * c.Weight.toRat)
            * (1 + unitRoundoff) ^ (2 * (m + 1)) := by
        have h3 : (compScore.Score : ℚ) * c.Weight.toRat
            ≤ Se + (compScore.Score : ℚ) * c.Weight.toRat := by linarith
        have h4 : 0 ≤ Se + (compScore.Score : ℚ) * c.Weight.toRat := by linarith
        nlinarith
      linarith
    obtain ⟨hPf, hP0, hPerr⟩ := F64.mul_ofInt_spec compScore.Score c.Weight hlo (by omega)
      hw.1 hw.2 hvlt
    have hPa : Approx 1 (F64.mul (F64.ofInt compScore.Score) c.Weight).toRat
        ((compScore.Score : ℚ) * c.Weight.toRat) :=
      approx_round 0 _ _ _ hv (approx_refl _) hPerr
    -- the weighted sum
    have hSP : Approx (2 * m + 1)
        (S.toRat + (F64.mul (F64.ofInt compScore.Score) c.Weight).toRat)
        (Se + (compScore.Score : ℚ) * c.Weight.toRat) :=
      approx_add _ _ _ _ _ (approx_mono _ _ _ _ (by omega) hSe hSa)
        (approx_mono _ _ _ _ (by omega) hv hPa)
    have hSPlt : S.toRat + (F64.mul (F64.ofInt compScore.Score) c.Weight).toRat
        < 2 ^ (1023 : Int) := by
      have h1 := pow_roundoff_mono (2 * m + 1) (2 * (m + 1)) (by omega)
      have h4 : 0 ≤ Se + (compScore.Score : ℚ) * c.Weight.toRat := by linarith
      have h5 := mul_le_mul_of_nonneg_left h1 h4
      linarith [hSP.2]
    obtain ⟨hS1f, _, hS1err⟩ := F64.add_spec S _ hS hPf hS0 hP0 hSPlt
    have hS1a := approx_round _ _ _ _ (by linarith) hSP hS1err
    -- the weight total
    have hTW : Approx m (T.toRat + c.Weight.toRat) (Te + c.Weight.toRat) :=
      approx_add _ _ _ _ _ hTa (approx_mono _ _ _ _ (by omega) hw.2 (approx_refl _))
    have hTWlt : T.toRat + c.Weight.toRat < 2 ^ (1023 : Int) := by
      have h1 := pow_roundoff_mono m (m + 1) (by omega)
      have h4 : 0 ≤ Te + c.Weight.toRat := by linarith [hw.2]
      have h5 := mul_le_mul_of_nonneg_left h1 h4
      linarith [hTW.2]
    obtain ⟨hT1f, _, hT1err⟩ := F64.add_spec T c.Weight hT hw.1 hT0 hw.2 hTWlt
    have hT1a := approx_round _ _ _ _ (by linarith [hw.2]) hTW hT1err
    exact ⟨hS1f, hT1f, hS1a, hT1a⟩

/-- A scoring loop keeps the two sums finite and within the rounding factors of the exact
sums, as long as the exact sums with their rounding factors stay below 2^1023. -/
theorem foldl_sumStep_approx (p : ParticipantAssessment) (cs : List AssessmentCriteria) :
    ∀ (m : Nat) (S T : F64) (Se Te : ℚ),
      WeightsNonneg cs → ScoresInRange cs p →
      S.isFinite = true → T.isFinite = true → 0 ≤ Se → 0 ≤ Te →
      Approx (2 * m) S.toRat Se → Approx m T.toRat Te →
      (Se + (cs.map (scoredValue p)).sum) * (1 + unitRoundoff) ^ (2 * (m + cs.length))
        < 2 ^ (1023 : Int) →
      (Te + (cs.map (scoredWeight p)).sum) * (1 + unitRoundoff) ^ (m + cs.length)
        < 2 ^ (1023 : Int) →
      (cs.foldl (sumStep p) (S, T)).1.isFinite = true
      ∧ (cs.foldl (sumStep p) (S, T)).2.isFinite = true
      ∧ Approx (2 * (m + cs.length)) (cs.foldl (sumStep p) (S, T)).1.toRat
          (Se + (cs.map (scoredValue p)).sum)
      ∧ Approx (m + cs.length) (cs.foldl (sumStep p) (S, T)).2.toRat
          (Te + (cs.map (scoredWeight p)).sum) := by
  induction cs with
  | nil =>
    intro m S T Se Te _ _ hS hT _ _ hSa hTa _ _
    simpa using ⟨hS, hT, hSa, hTa⟩
  | cons c cs ih =>
    intro m S T Se Te hw hs hS hT hSe hTe hSa hTa hB1 hB2
    have hwc := hw c (List.mem_cons_self c cs)
    have hws : WeightsNonneg cs := fun x hx => hw x (List.mem_cons_of_mem c hx)
    have hss : ScoresInRange cs p := fun x hx => hs x (List.mem_cons_of_mem c hx)
    have hsc := hs c (List.mem_cons_self c cs)
    have hv0 := scoredValue_nonneg p c hwc.2 (fun compScore h => (hsc compScore h).1)
    have hw0 := scoredWeight_nonneg p c hwc.2
    have hrv := scoredValue_sum_nonneg p cs hws hss
    have hrw := scoredWeight_sum_nonneg p cs hws
    simp only [List.map_cons, List.sum_cons, List.length_cons] at hB1 hB2 ⊢
    have hstep1 : (Se + scoredValue p c) * (1 + unitRoundoff) ^ (2 * (m + 1))
        < 2 ^ (1023 : Int) := by
      have h1 := pow_roundoff_mono (2 * (m + 1)) (2 * (m + (cs.length + 1))) (by omega)
      have h2 := one_le_pow_roundoff (2 * (m + 1))
      have h3 : (Se + scoredValue p c) * (1 + unitRoundoff) ^ (2 * (m + 1))
          ≤ (Se + (scoredValue p c + (cs.map (scoredValue p)).sum))
            * (1 + unitRoundoff) ^ (2 * (m + (cs.length + 1))) := by
        apply mul_le_mul (by linarith) h1 (by linarith) (by linarith)
      linarith
    have hstep2 : (Te + scoredWeight p c) * (1 + unitRoundoff) ^ (m + 1)
        < 2 ^ (1023 : Int) := by
      have h1 := pow_roundoff_mono (m + 1) (m + (cs.length + 1)) (by omega)
      have h2 := one_le_pow_roundoff (m + 1)
      have h3 : (Te + scoredWeight p c) * (1 + unitRoundoff) ^ (m + 1)
          ≤ (Te + (scoredWeight p c + (cs.map (scoredWeight p)).sum))
            * (1 + unitRoundoff) ^ (m + (cs.length + 1)) := by
        apply mul_le_mul (by linarith) h1 (by linarith) (by linarith)
      linarith
    obtain ⟨hS1, hT1, hSa1, hTa1⟩ := sumStep_approx p c m S T Se Te hwc hsc hS hT hSe hTe
      hSa hTa hstep1 hstep2
    have hrec := ih (m + 1) (sumStep p (S, T) c).1 (sumStep p (S, T) c).2
      (Se + scoredValue p c) (Te + scoredWeight p c) hws hss hS1 hT1 (by linarith)
      (by linarith) hSa1 hTa1
      (by
        have : m + 1 + cs.length = m + (cs.length + 1) := by omega
        rw [this, add_assoc]
        exact hB1)
      (by
        have : m + 1 + cs.length = m + (cs.length + 1) := by omega
        rw [this, add_assoc]
        exact hB2)
    have hidx : m + 1 + cs.length = m + (cs.length + 1) := by omega
    rw [hidx, add_assoc, add_assoc] at hrec
    exact hrec

/-! ## Bounds on powers of the unit roundoff -/

theorem pow_roundoff_le (k : Nat) (hk : (k : ℚ) * unitRoundoff ≤ 1 / 2) :
    (1 + unitRoundoff) ^ k ≤ 1 + 2 * k * unitRoundoff := by
  have h0 := unitRoundoff_pos
  induction k with
  | zero => simp
  | succ j ih =>
    have hj : (j : ℚ) * unitRoundoff ≤ 1 / 2 := by
      push_cast at hk
      nlinarith
    have h1 := ih hj
    push_cast at hk ⊢
    rw [pow_succ]
    have h2 : (1 + unitRoundoff) ^ j * (1 + unitRoundoff)
        ≤ (1 + 2 * j * unitRoundoff) * (1 + unitRoundoff) :=
      mul_le_mul_of_nonneg_right h1 (by linarith)
    have hj0 : (0 : ℚ) ≤ j := by positivity
    nlinarith

theorem pow_one_sub_roundoff_ge (k : Nat) :
    1 - (k : ℚ) * unitRoundoff ≤ (1 - unitRoundoff) ^ k := by
  have h0 := unitRoundoff_pos
  have h1 := unitRoundoff_small
  induction k with
  | zero => simp
  | succ j ih =>
    push_cast
    rw [pow_succ]
    have h2 : (1 - (j : ℚ) * unitRoundoff) * (1 - unitRoundoff)
        ≤ (1 - unitRoundoff) ^ j * (1 - unitRoundoff) :=
      mul_le_mul_of_nonneg_right ih (by linarith)
    have h3 : 0 ≤ (j : ℚ) * unitRoundoff * unitRoundoff := by positivity
    have h4 : (1 - (j : ℚ) * unitRoundoff) * (1 - unitRoundoff)
        = 1 - ((j : ℚ) + 1) * unitRoundoff + (j : ℚ) * unitRoundoff * unitRoundoff := by ring
    linarith

theorem pow_mul_pow_le_one (k : Nat) :
    (1 + unitRoundoff) ^ k * (1 - unitRoundoff) ^ k ≤ 1 := by
  have h0 := unitRoundoff_pos
  have h1 := unitRoundoff_small
  rw [← mul_pow]
  apply pow_le_one₀
  · nlinarith
  · nlinarith

/-- The factor of `a` roundings upward against `b` roundings downward is at most
1 + 2 (a + b) 2^-53. -/
theorem roundoff_ratio_le (a b : Nat) (h : ((a + b : Nat) : ℚ) * unitRoundoff ≤ 1 / 2) :
    (1 + unitRoundoff) ^ a
      ≤ (1 + 2 * ((a + b : Nat) : ℚ) * unitRoundoff) * (1 - unitRoundoff) ^ b := by
  have h0 := unitRoundoff_pos
  have h1 := unitRoundoff_small
  have hLa : 0 < (1 - unitRoundoff) ^ a := pow_pos (by linarith) a
  have hLb : 0 < (1 - unitRoundoff) ^ b := pow_pos (by linarith) b
  have hB := pow_one_sub_roundoff_ge (a + b)
  have hUL := pow_mul_pow_le_one a
  have hx0 : (0 : ℚ) ≤ ((a + b : Nat) : ℚ) * unitRoundoff := by positivity
  -- (1 + 2x) (1 - x) ≥ 1 for 0 ≤ x ≤ 1/2
  have hprod : 1 ≤ (1 + 2 * ((a + b : Nat) : ℚ) * unitRoundoff)
      * (1 - unitRoundoff) ^ (a + b) := by
    have : 1 ≤ (1 + 2 * ((a + b : Nat) : ℚ) * unitRoundoff)
        * (1 - ((a + b : Nat) : ℚ) * unitRoundoff) := by nlinarith
    have h2 : (1 + 2 * ((a + b : Nat) : ℚ) * unitRoundoff)
        * (1 - ((a + b : Nat) : ℚ) * unitRoundoff)
        ≤ (1 + 2 * ((a + b : Nat) : ℚ) * unitRoundoff) * (1 - unitRoundoff) ^ (a + b) :=
      mul_le_mul_of_nonneg_left hB (by linarith)
    linarith
  rw [pow_add] at hprod
  -- multiply out by (1 - u)^a > 0
  have h3 : (1 + unitRoundoff) ^ a * (1 - unitRoundoff) ^ a
      ≤ (1 + 2 * ((a + b : Nat) : ℚ) * unitRoundoff) * (1 - unitRoundoff) ^ b
        * (1 - unitRoundoff) ^ a := by
    calc (1 + unitRoundoff) ^ a * (1 - unitRoundoff) ^ a ≤ 1 := hUL
      _ ≤ (1 + 2 * ((a + b : Nat) : ℚ) * unitRoundoff)
            * ((1 - unitRoundoff) ^ a * (1 - unitRoundoff) ^ b) := hprod
      _ = (1 + 2 * ((a + b : Nat) : ℚ) * unitRoundoff) * (1 - unitRoundoff) ^ b
            * (1 - unitRoundoff) ^ a := by ring
  exact le_of_mul_le_mul_right h3 hLa

/-- The factor of `a` roundings downward against `b` roundings upward is at least
1 - (a + b) 2^-53. -/
theorem roundoff_ratio_ge (a b : Nat) :
    (1 - ((a + b : Nat) : ℚ) * unitRoundoff) * (1 + unitRoundoff) ^ b
      ≤ (1 - unitRoundoff) ^ a := by
  have h0 := unitRoundoff_pos
  have h1 := unitRoundoff_small
  have hLa : 0 ≤ (1 - unitRoundoff) ^ a := pow_nonneg (by linarith) a
  have hUb : 0 ≤ (1 + unitRoundoff) ^ b := pow_nonneg (by linarith) b
  have hB := pow_one_sub_roundoff_ge (a + b)
  have hUL := pow_mul_pow_le_one b
  rw [pow_add] at hB
  calc (1 - ((a + b : Nat) : ℚ) * unitRoundoff) * (1 + unitRoundoff) ^ b
      ≤ (1 - unitRoundoff) ^ a * (1 - unitRoundoff) ^ b * (1 + unitRoundoff) ^ b :=
        mul_le_mul_of_nonneg_right hB hUb
    _ = (1 - unitRoundoff) ^ a * ((1 + unitRoundoff) ^ b * (1 - unitRoundoff) ^ b) := by ring
    _ ≤ (1 - unitRoundoff) ^ a * 1 := mul_le_mul_of_nonneg_left hUL hLa
    _ = (1 - unitRoundoff) ^ a := mul_one _

/-! ## Accuracy of the two accumulated sums -/

theorem F64.div_zero_num (a b : F64) (ha : a.isFinite = true) (hb : b.isFinite = true)
    (ha0 : a.toRat = 0) (hb0 : 0 < b.toRat) : (F64.div a b).toRat = 0 := by
  obtain ⟨han, hai⟩ := F64.finite_not_special a ha
  obtain ⟨hbn, hbi⟩ := F64.finite_not_special b hb
  obtain ⟨hta, _⟩ := F64.toRat_of_nonneg a (by rw [ha0])
  obtain ⟨htb, _⟩ := F64.toRat_of_nonneg b hb0.le
  have ha1 : a.mant = 0 := (F64.mag_eq_zero_iff a).mp (by rw [← hta, ha0])
  have hb1 : b.mant ≠ 0 := by
    intro h
    rw [htb, (F64.mag_eq_zero_iff b).mpr h] at hb0
    exact lt_irrefl _ hb0
  have hdiv : F64.div a b = F64.round (a.sign != b.sign) a.mant b.mant (a.ex - b.ex) := by
    simp [F64.div, han, hbn, hai, hbi, hb1]
  rw [hdiv, ha1, F64.round_zero_num, F64.toRat_zero]

theorem exact_sums_bounds (cs : List AssessmentCriteria) (p : ParticipantAssessment)
    (hw : WeightsNonneg cs) (hs : ScoresInRange cs p) :
    0 ≤ (cs.map (scoredWeight p)).sum
    ∧ 0 ≤ (cs.map (scoredValue p)).sum
    ∧ (cs.map (scoredValue p)).sum ≤ 5 * (cs.map (scoredWeight p)).sum
    ∧ (cs.map (scoredWeight p)).sum ≤ (cs.map (fun c => c.Weight.toRat)).sum := by
  induction cs with
  | nil => simp
  | cons c cs ih =>
    have hwc := (hw c (List.mem_cons_self c cs)).2
    obtain ⟨h1, h2, h3, h4⟩ := ih (fun x hx => hw x (List.mem_cons_of_mem c hx))
      (fun x hx => hs x (List.mem_cons_of_mem c hx))
    have hc : 0 ≤ scoredWeight p c ∧ 0 ≤ scoredValue p c
        ∧ scoredValue p c ≤ 5 * scoredWeight p c ∧ scoredWeight p c ≤ c.Weight.toRat := by
      unfold scoredWeight scoredValue
      cases hsc : p.Scores c.ID with
      | none => simp [hwc]
      | some compScore =>
        obtain ⟨hlo, hhi⟩ := hs c (List.mem_cons_self c cs) compScore hsc
        have hlo1 : (0 : ℚ) ≤ (compScore.Score : ℚ) := by exact_mod_cast hlo
        have hhi1 : (compScore.Score : ℚ) ≤ 5 := by exact_mod_cast hhi
        exact ⟨hwc, mul_nonneg hlo1 hwc, mul_le_mul_of_nonneg_right hhi1 hwc, le_refl _⟩
    obtain ⟨c1, c2, c3, c4⟩ := hc
    simp only [List.map_cons, List.sum_cons]
    exact ⟨by linarith, by linarith, by linarith, by linarith⟩

theorem roundoff_count_small (n : Nat) (hn : n ≤ 1099511627776) :
    ((3 * n + 1 : Nat) : ℚ) * unitRoundoff ≤ 1 / 2048 := by
  have h1 : ((3 * n + 1 : Nat) : ℚ) ≤ 4398046511104 := by
    have : 3 * n + 1 ≤ 4398046511104 := by omega
    exact_mod_cast this
  have h2 : unitRoundoff = 1 / 9007199254740992 := by
    unfold unitRoundoff
    norm_num
  rw [h2]
  have : ((3 * n + 1 : Nat) : ℚ) * (1 / 9007199254740992)
      ≤ 4398046511104 * (1 / 9007199254740992) :=
    mul_le_mul_of_nonneg_right h1 (by norm_num)
  norm_num at this ⊢
  linarith

theorem two_pow_1023 : (2 : ℚ) ^ (1023 : Int) = 8388608 * 2 ^ (1000 : Int) := by
  have : (1023 : Int) = 23 + 1000 := by norm_num
  rw [this, zpow_add₀ (by norm_num : (2 : ℚ) ≠ 0)]
  norm_num

/-- The two sums of a scoring loop over criteria with weights in range and scores in 0..5
are finite and within the rounding factors of the exact sums. -/
theorem sums_accuracy (cs : List AssessmentCriteria) (p : ParticipantAssessment)
    (hw : WeightsInRange cs) (hs : ScoresInRange cs p) :
    (cs.foldl (sumStep p) (F64.zero false, F64.zero false)).1.isFinite = true
    ∧ (cs.foldl (sumStep p) (F64.zero false, F64.zero false)).2.isFinite = true
    ∧ Approx (2 * cs.length)
        (cs.foldl (sumStep p) (F64.zero false, F64.zero false)).1.toRat
        (cs.map (scoredValue p)).sum
    ∧ Approx cs.length
        (cs.foldl (sumStep p) (F64.zero false, F64.zero false)).2.toRat
        (cs.map (scoredWeight p)).sum := by
  obtain ⟨hnn, hsum, hlen⟩ := hw
  obtain ⟨b1, b2, b3, b4⟩ := exact_sums_bounds cs p hnn hs
  have h0 := unitRoundoff_pos
  have hsmall := roundoff_count_small cs.length hlen
  have hcast : ((3 * cs.length + 1 : Nat) : ℚ) = 3 * (cs.length : ℚ) + 1 := by push_cast; ring
  rw [hcast] at hsmall
  have hn0 : (0 : ℚ) ≤ (cs.length : ℚ) := by positivity
  have hU2 : (1 + unitRoundoff) ^ (2 * cs.length) ≤ 2 := by
    have h := pow_roundoff_le (2 * cs.length) (by push_cast; nlinarith)
    push_cast at h
    nlinarith
  have hU1 : (1 + unitRoundoff) ^ cs.length ≤ 2 := by
    have h := pow_roundoff_le cs.length (by nlinarith)
    nlinarith
  have hp1000 : (0 : ℚ) < 2 ^ (1000 : Int) := by positivity
  have h := foldl_sumStep_approx p cs 0 (F64.zero false) (F64.zero false) 0 0 hnn hs
    (F64.isFinite_zero false) (F64.isFinite_zero false) (le_refl 0) (le_refl 0)
    (by rw [F64.toRat_zero]; simp [Approx]) (by rw [F64.toRat_zero]; simp [Approx])
    (by
      rw [zero_add, zero_add, two_pow_1023]
      have hpow0 : 0 ≤ (1 + unitRoundoff) ^ (2 * cs.length) := by positivity
      nlinarith)
    (by
      rw [zero_add, zero_add, two_pow_1023]
      have hpow0 : 0 ≤ (1 + unitRoundoff) ^ cs.length := by positivity
      nlinarith)
  simpa using h

/-! ## Accuracy of the normalised score -/

theorem two_roundoff : (2 : ℚ) ^ (-52 : Int) = 2 * unitRoundoff := by
  unfold unitRoundoff
  norm_num

/-- Combination of the error of the sums with the error of the final division. -/
theorem combine_errors (x E o u nq t : ℚ) (hu : 0 ≤ u) (hn : 0 ≤ nq) (hE : 0 ≤ E)
    (hnu : nq * u ≤ 1 / 6144)
    (h1 : x ≤ E * (1 + 2 * (3 * nq) * u)) (h2 : E * (1 - 3 * nq * u) ≤ x) :
    (|o - x| ≤ u * x → |o - E| ≤ (3 * nq + 1) * (2 * u) * E)
    ∧ (0 ≤ t → |o - x| ≤ t → |o - E| ≤ (3 * nq + 1) * (2 * u) * E + t) := by
  have ha : 0 ≤ E * u := mul_nonneg hE hu
  have hc : 0 ≤ E * (nq * u) := mul_nonneg hE (mul_nonneg hn hu)
  have hd : E * u * (nq * u) ≤ E * u * (1 / 6144) := mul_le_mul_of_nonneg_left hnu ha
  have hux : u * x ≤ E * u + 6 * (E * u * (nq * u)) := by
    have := mul_le_mul_of_nonneg_left h1 hu
    have h3 : u * (E * (1 + 2 * (3 * nq) * u)) = E * u + 6 * (E * u * (nq * u)) := by ring
    linarith
  have hx1 : x ≤ E + 6 * (E * (nq * u)) := by
    have h3 : E * (1 + 2 * (3 * nq) * u) = E + 6 * (E * (nq * u)) := by ring
    linarith
  have hx2 : E - 3 * (E * (nq * u)) ≤ x := by
    have h3 : E * (1 - 3 * nq * u) = E - 3 * (E * (nq * u)) := by ring
    linarith
  have htarget : (3 * nq + 1) * (2 * u) * E = 6 * (E * (nq * u)) + 2 * (E * u) := by ring
  rw [htarget]
  constructor
  · intro herr
    obtain ⟨e1, e2⟩ := abs_le.mp herr
    rw [abs_le]
    constructor
    · linarith
    · linarith
  · intro ht herr
    obtain ⟨e1, e2⟩ := abs_le.mp herr
    rw [abs_le]
    constructor
    · linarith
    · linarith

theorem scaled_le_five (E k : ℚ) (hE : E ≤ 5) (hk : 0 ≤ k) : E + k * E ≤ 5 * (1 + k) := by
  have : k * E ≤ k * 5 := mul_le_mul_of_nonneg_left hE hk
  linarith

theorem half_le_of_small (E b : ℚ) (hE : 0 ≤ E) (hb : b ≤ 1 / 6) :
    E / 2 ≤ E * (1 - 3 * b) := by
  have : E * (3 * b) ≤ E * (1 / 2) := mul_le_mul_of_nonneg_left (by linarith) hE
  have h3 : E * (1 - 3 * b) = E - E * (3 * b) := by ring
  linarith

/-- The normalisation after a scoring loop: with sums within the rounding factors of exact
sums Se ≤ 5 Te, the overall score is finite, not negative and within the relative error
(3 n + 1) 2^-52 (and, when the quotient is below 2^-1022, the absolute error 2^-1075) of
the exact quotient Se / Te. -/
theorem normalize_accuracy (S T o : F64) (Se Te : ℚ) (n : Nat) (hn : n ≤ 1099511627776)
    (hS : S.isFinite = true) (hT : T.isFinite = true) (hSe : 0 ≤ Se) (hTe : 0 ≤ Te)
    (h5 : Se ≤ 5 * Te) (hSa : Approx (2 * n) S.toRat Se) (hTa : Approx n T.toRat Te)
    (ho : o = if F64.gt T (F64.zero false) = true then F64.div S T else S) :
    o.isFinite = true ∧ 0 ≤ o.toRat
    ∧ |o.toRat - Se / Te| ≤ (3 * (n : ℚ) + 1) * 2 ^ (-52 : Int) * (Se / Te) + 2 ^ (-1075 : Int)
    ∧ ((2 : ℚ) ^ (-1021 : Int) ≤ Se / Te →
        |o.toRat - Se / Te| ≤ (3 * (n : ℚ) + 1) * 2 ^ (-52 : Int) * (Se / Te))
    ∧ o.toRat ≤ 5 * (1 + (3 * (n : ℚ) + 1) * 2 ^ (-52 : Int))
    ∧ (Se = 0 → o.toRat = 0) := by
  have h0 := unitRoundoff_pos
  have hsmall := roundoff_count_small n hn
  have hcast : ((3 * n + 1 : Nat) : ℚ) = 3 * (n : ℚ) + 1 := by push_cast; ring
  rw [hcast] at hsmall
  have hn0 : (0 : ℚ) ≤ (n : ℚ) := by positivity
  have hS0 := approx_nonneg _ _ _ hSe hSa
  have hT0 := approx_nonneg _ _ _ hTe hTa
  have hp1075 : (0 : ℚ) < 2 ^ (-1075 : Int) := by positivity
  rw [two_roundoff]
  by_cases hpos : 0 < Te
  · -- the total weight is positive
    have hL : 0 < (1 - unitRoundoff) ^ n := pow_pos (by linarith [unitRoundoff_small]) n
    have hU : 0 < (1 + unitRoundoff) ^ n := pow_pos (by linarith) n
    have hTpos : 0 < T.toRat := lt_of_lt_of_le (mul_pos hpos hL) hTa.1
    have hgt : F64.gt T (F64.zero false) = true := (F64.gt_zero_iff T hT).mpr hTpos
    rw [if_pos hgt] at ho
    have hE0 : 0 ≤ Se / Te := div_nonneg hSe hTe
    have hE5 : Se / Te ≤ 5 := by
      rw [div_le_iff₀ hpos]
      exact h5
    have hETe : Se / Te * Te = Se := div_mul_cancel₀ _ hpos.ne'
    -- the quotient of the sums against the exact quotient
    have hr1 := roundoff_ratio_le (2 * n) n (by
      have : ((2 * n + n : Nat) : ℚ) = 3 * (n : ℚ) := by push_cast; ring
      rw [this]
      linarith)
    have hr2 := roundoff_ratio_ge (2 * n) n
    have hc3 : ((2 * n + n : Nat) : ℚ) = 3 * (n : ℚ) := by push_cast; ring
    rw [hc3] at hr1 hr2
    have hXup : S.toRat / T.toRat ≤ Se / Te * (1 + 2 * (3 * (n : ℚ)) * unitRoundoff) := by
      rw [div_le_iff₀ hTpos]
      have h1 : Se * (1 + unitRoundoff) ^ (2 * n)
          ≤ Se * ((1 + 2 * (3 * (n : ℚ)) * unitRoundoff) * (1 - unitRoundoff) ^ n) :=
        mul_le_mul_of_nonneg_left hr1 hSe
      have h2 : Se / Te * (1 + 2 * (3 * (n : ℚ)) * unitRoundoff) * (Te * (1 - unitRoundoff) ^ n)
          ≤ Se / Te * (1 + 2 * (3 * (n : ℚ)) * unitRoundoff) * T.toRat :=
        mul_le_mul_of_nonneg_left hTa.1 (by positivity)
      have h3 : Se / Te * (1 + 2 * (3 * (n : ℚ)) * unitRoundoff) * (Te * (1 - unitRoundoff) ^ n)
          = Se * ((1 + 2 * (3 * (n : ℚ)) * unitRoundoff) * (1 - unitRoundoff) ^ n) := by
        have : Se / Te * (1 + 2 * (3 * (n : ℚ)) * unitRoundoff) * (Te * (1 - unitRoundoff) ^ n)
            = Se / Te * Te
              * ((1 + 2 * (3 * (n : ℚ)) * unitRoundoff) * (1 - unitRoundoff) ^ n) := by ring
        rw [this, hETe]
      linarith [hSa.2]
    have hfac : 0 ≤ 1 - 3 * (n : ℚ) * unitRoundoff := by linarith
    have hXlo : Se / Te * (1 - 3 * (n : ℚ) * unitRoundoff) ≤ S.toRat / T.toRat := by
      rw [le_div_iff₀ hTpos]
      have h1 : Se * ((1 - 3 * (n : ℚ) * unitRoundoff) * (1 + unitRoundoff) ^ n)
          ≤ Se * (1 - unitRoundoff) ^ (2 * n) :=
        mul_le_mul_of_nonneg_left hr2 hSe
      have h2 : Se / Te * (1 - 3 * (n : ℚ) * unitRoundoff) * T.toRat
          ≤ Se / Te * (1 - 3 * (n : ℚ) * unitRoundoff) * (Te * (1 + unitRoundoff) ^ n) :=
        mul_le_mul_of_nonneg_left hTa.2 (mul_nonneg hE0 hfac)
      have h3 : Se / Te * (1 - 3 * (n : ℚ) * unitRoundoff) * (Te * (1 + unitRoundoff) ^ n)
          = Se * ((1 - 3 * (n : ℚ) * unitRoundoff) * (1 + unitRoundoff) ^ n) := by
        have : Se / Te * (1 - 3 * (n : ℚ) * unitRoundoff) * (Te * (1 + unitRoundoff) ^ n)
            = Se / Te * Te
              * ((1 - 3 * (n : ℚ) * unitRoundoff) * (1 + unitRoundoff) ^ n) := by ring
        rw [this, hETe]
      linarith [hSa.1]
    have hX0 : 0 ≤ S.toRat / T.toRat := div_nonneg hS0 hTpos.le
    have hXlt : S.toRat / T.toRat < 2 ^ (1023 : Int) := by
      have h1 : S.toRat / T.toRat ≤ 10 := by
        have h6 : Se / Te * (1 + 2 * (3 * (n : ℚ)) * unitRoundoff) ≤ 5 * 2 := by
          apply mul_le_mul hE5 (by linarith) (by positivity) (by norm_num)
        linarith
      rw [two_pow_1023]
      have : (1 : ℚ) ≤ 2 ^ (1000 : Int) := by
        have := zpow_le_zpow_right₀ (by norm_num : (1 : ℚ) ≤ 2) (by norm_num : (0 : Int) ≤ 1000)
        simpa using this
      linarith
    obtain ⟨hof, ho0, hnorm, hsub⟩ := F64.div_spec S T hS hT hS0 hTpos hXlt
    rw [← ho] at hof ho0 hnorm hsub
    have hunit : (2 : ℚ) ^ (-53 : Int) = unitRoundoff := by
      unfold unitRoundoff
      rfl
    rw [hunit] at hnorm
    generalize hXdef : S.toRat / T.toRat = X at *
    generalize hEdef : Se / Te = E at *
    have hnu : (n : ℚ) * unitRoundoff ≤ 1 / 6144 := by linarith
    have h1022 : (2 : ℚ) ^ (-1022 : Int) ≤ 1 := by
      have := zpow_le_zpow_right₀ (by norm_num : (1 : ℚ) ≤ 2)
        (by norm_num : (-1022 : Int) ≤ 0)
      simpa using this
    have h1075 : (2 : ℚ) ^ (-1075 : Int) ≤ 1 := by
      have := zpow_le_zpow_right₀ (by norm_num : (1 : ℚ) ≤ 2)
        (by norm_num : (-1075 : Int) ≤ 0)
      simpa using this
    obtain ⟨hc1, hc2⟩ := combine_errors X E o.toRat unitRoundoff (n : ℚ) (2 ^ (-1075 : Int))
      h0.le hn0 hE0 hnu hXup (by
        have : E * (1 - 3 * (n : ℚ) * unitRoundoff) = E * (1 - 3 * (n : ℚ) * unitRoundoff) := rfl
        exact hXlo)
    have hk0 : 0 ≤ (3 * (n : ℚ) + 1) * (2 * unitRoundoff) := by positivity
    have hkey : (2 : ℚ) ^ (-1022 : Int) ≤ X →
        |o.toRat - E| ≤ (3 * (n : ℚ) + 1) * (2 * unitRoundoff) * E :=
      fun hX => hc1 (hnorm hX)
    have hgen1 : |o.toRat - E| ≤ (3 * (n : ℚ) + 1) * (2 * unitRoundoff) * E
        + 2 ^ (-1075 : Int) := by
      by_cases hX : (2 : ℚ) ^ (-1022 : Int) ≤ X
      · have := hkey hX
        linarith
      · exact hc2 hp1075.le (hsub (not_le.mp hX))
    refine ⟨hof, ho0, hgen1, ?_, ?_, ?_⟩
    · intro hE
      apply hkey
      have h1 : (2 : ℚ) ^ (-1022 : Int) = 2 ^ (-1021 : Int) / 2 := by
        have : (-1021 : Int) = -1022 + 1 := by norm_num
        rw [this, zpow_add₀ (by norm_num : (2 : ℚ) ≠ 0)]
        norm_num
      have h2 := half_le_of_small E ((n : ℚ) * unitRoundoff) hE0 (by linarith)
      have h3 : E * (1 - 3 * ((n : ℚ) * unitRoundoff)) = E * (1 - 3 * (n : ℚ) * unitRoundoff) := by
        ring
      rw [h3] at h2
      have h4 : (2 : ℚ) ^ (-1021 : Int) / 2 ≤ E / 2 :=
        div_le_div_of_nonneg_right hE (by norm_num)
      rw [h1]
      exact le_trans h4 (le_trans h2 hXlo)
    · by_cases hX : (2 : ℚ) ^ (-1022 : Int) ≤ X
      · obtain ⟨e1, e2⟩ := abs_le.mp (hkey hX)
        have := scaled_le_five E _ hE5 hk0
        linarith
      · obtain ⟨e1, e2⟩ := abs_le.mp (hsub (not_le.mp hX))
        have hXs := not_le.mp hX
        linarith
    · intro hSe0
      have hSz : S.toRat = 0 := by
        have h1 := hSa.2
        rw [hSe0, zero_mul] at h1
        linarith
      rw [ho]
      exact F64.div_zero_num S T hS hT hSz hTpos
  · -- no weight was added
    have hTe0 : Te = 0 := le_antisymm (not_lt.mp hpos) hTe
    have hSe0 : Se = 0 := by
      rw [hTe0] at h5
      linarith
    have hSz : S.toRat = 0 := by
      have h1 := hSa.2
      rw [hSe0, zero_mul] at h1
      linarith
    have hTz : T.toRat = 0 := by
      have h1 := hTa.2
      rw [hTe0, zero_mul] at h1
      linarith
    have hgt : ¬ (F64.gt T (F64.zero false) = true) := by
      intro h
      have := (F64.gt_zero_iff T hT).mp h
      linarith
    rw [if_neg hgt] at ho
    rw [ho, hSz, hSe0]
    refine ⟨hS, le_refl 0, ?_, ?_, ?_, fun _ => rfl⟩
    · simp only [zero_div, sub_self, abs_zero, mul_zero, zero_add]
      exact hp1075.le
    · intro _
      simp
    · positivity

/-! ## The overall score of the parser and of the fallback response -/

/-- The overall score of a scored participant: finite, not negative, within the relative
error (3 n + 1) 2^-52 of the exact weighted average (within 2^-1075 more when that average
is below 2^-1021), at most 5 (1 + (3 n + 1) 2^-52), and 0 when the exact weighted sum
is 0. -/
theorem individual_overall_accuracy (req : AssessmentRequest) (p : ParticipantAssessment)
    (hw : WeightsInRange req.Criteria) (hs : ScoresInRange req.Criteria p) :
    (individualResponse req p).OverallScore.isFinite = true
    ∧ 0 ≤ (individualResponse req p).OverallScore.toRat
    ∧ |(individualResponse req p).OverallScore.toRat - exactOverall req.Criteria p|
        ≤ (3 * (req.Criteria.length : ℚ) + 1) * 2 ^ (-52 : Int) * exactOverall req.Criteria p
          + 2 ^ (-1075 : Int)
    ∧ ((2 : ℚ) ^ (-1021 : Int) ≤ exactOverall req.Criteria p →
        |(individualResponse req p).OverallScore.toRat - exactOverall req.Criteria p|
          ≤ (3 * (req.Criteria.length : ℚ) + 1) * 2 ^ (-52 : Int)
            * exactOverall req.Criteria p)
    ∧ (individualResponse req p).OverallScore.toRat
        ≤ 5 * (1 + (3 * (req.Criteria.length : ℚ) + 1) * 2 ^ (-52 : Int))
    ∧ ((req.Criteria.map (scoredValue p)).sum = 0 →
        (individualResponse req p).OverallScore.toRat = 0) := by
  obtain ⟨hS, hT, hSa, hTa⟩ := sums_accuracy req.Criteria p hw hs
  obtain ⟨b1, b2, b3, _⟩ := exact_sums_bounds req.Criteria p hw.1 hs
  exact normalize_accuracy _ _ _ _ _ req.Criteria.length hw.2.2 hS hT b2 b1 b3 hSa hTa
    (individualResponse_overall req p)

theorem exactOverall_range (cs : List AssessmentCriteria) (p : ParticipantAssessment)
    (hw : WeightsNonneg cs) (hs : ScoresInRange cs p) :
    0 ≤ exactOverall cs p ∧ exactOverall cs p ≤ 5 := by
  obtain ⟨b1, b2, b3, _⟩ := exact_sums_bounds cs p hw hs
  unfold exactOverall
  refine ⟨div_nonneg b2 b1, ?_⟩
  rcases eq_or_lt_of_le b1 with h | h
  · rw [← h]
    simp
  · rw [div_le_iff₀ h]
    exact b3

/-- From 50 words on, the sums of `createFallbackResponse` are those of the scoring loop for
a participant scored 3 on every criterion. -/
theorem fallback_sums_full (w : Nat) (cs : List AssessmentCriteria) :
    ∀ acc : F64 × F64,
      ((cs.map (fallbackResult false w)).zip cs).foldl fallbackScoreStep acc
        = cs.foldl (sumStep (uniformParticipant 3)) acc := by
  induction cs with
  | nil => intro acc; rfl
  | cons c cs ih =>
    intro acc
    simp only [List.map_cons, List.zip_cons_cons, List.foldl_cons]
    have hstep : fallbackScoreStep acc (fallbackResult false w c, c)
        = sumStep (uniformParticipant 3) acc c := by
      simp [fallbackScoreStep, fallbackResult, sumStep, uniformParticipant]
    rw [hstep]
    exact ih _

theorem fallback_sums_minimal (w : Nat) (cs : List AssessmentCriteria) :
    ∀ acc : F64 × F64,
      ((cs.map (fallbackResult true w)).zip cs).foldl fallbackScoreStep acc = acc := by
  induction cs with
  | nil => intro acc; rfl
  | cons c cs ih =>
    intro acc
    simp only [List.map_cons, List.zip_cons_cons, List.foldl_cons]
    have hstep : fallbackScoreStep acc (fallbackResult true w c, c) = acc := by
      simp [fallbackScoreStep, fallbackResult]
    rw [hstep]
    exact ih acc

theorem gt_zero_zero : F64.gt (F64.zero false) (F64.zero false) = false := by decide

theorem fallback_overall_minimal (req : AssessmentRequest)
    (h : (fields req.Transcript).length < 50) :
    (createFallbackResponse req).OverallScore = F64.zero false := by
  simp [createFallbackResponse, h, fallback_sums_minimal, gt_zero_zero]

theorem fallback_overall_full (req : AssessmentRequest)
    (h : ¬ (fields req.Transcript).length < 50) :
    (createFallbackResponse req).OverallScore
      = (individualResponse req (uniformParticipant 3)).OverallScore := by
  rw [individualResponse_overall]
  simp [createFallbackResponse, h, fallback_sums_full]

theorem uniform_in_range (cs : List AssessmentCriteria) :
    ScoresInRange cs (uniformParticipant 3) := by
  intro c _ compScore h
  simp only [uniformParticipant, Option.some.injEq] at h
  subst h
  exact ⟨by norm_num, by norm_num⟩

theorem fallback_in_range (req : AssessmentRequest) (hw : WeightsInRange req.Criteria) :
    (createFallbackResponse req).OverallScore.isFinite = true
    ∧ 0 ≤ (createFallbackResponse req).OverallScore.toRat
    ∧ (createFallbackResponse req).OverallScore.toRat
        ≤ 5 * (1 + (3 * (req.Criteria.length : ℚ) + 1) * 2 ^ (-52 : Int)) := by
  by_cases h : (fields req.Transcript).length < 50
  · rw [fallback_overall_minimal req h, F64.toRat_zero]
    refine ⟨F64.isFinite_zero false, le_refl 0, ?_⟩
    positivity
  · rw [fallback_overall_full req h]
    obtain ⟨h1, h2, _, _, h5, _⟩ := individual_overall_accuracy req (uniformParticipant 3) hw
      (uniform_in_range req.Criteria)
    exact ⟨h1, h2, h5⟩

/-- A finite value with a clear sign bit and an exponent field of at most 1022 lies in
[0, 1). -/
theorem F64.toRat_lt_one (x : F64) (hs : x.sign = false) (he : x.expo.val ≤ 1022) :
    0 ≤ x.toRat ∧ x.toRat < 1 := by
  rw [F64.toRat_of_sign_false x hs]
  refine ⟨F64.mag_nonneg x, ?_⟩
  have hf := x.frac.isLt
  unfold F64.mag F64.mant F64.ex
  by_cases h0 : x.expo.val = 0
  · simp only [h0, if_true]
    have h1 : ((x.frac.val : Nat) : ℚ) < 4503599627370496 := by exact_mod_cast hf
    have h2 : (2 : ℚ) ^ ((1 : Int) - 1075) ≤ 2 ^ (-52 : Int) :=
      zpow_le_zpow_right₀ (by norm_num) (by norm_num)
    have h3 : (2 : ℚ) ^ (-52 : Int) = 1 / 4503599627370496 := by norm_num
    have h4 : (0 : ℚ) ≤ ((x.frac.val : Nat) : ℚ) := by positivity
    have h5 : (0 : ℚ) < 2 ^ ((1 : Int) - 1075) := by positivity
    calc ((x.frac.val : Nat) : ℚ) * 2 ^ ((1 : Int) - 1075)
        ≤ ((x.frac.val : Nat) : ℚ) * 2 ^ (-52 : Int) := mul_le_mul_of_nonneg_left h2 h4
      _ < 4503599627370496 * 2 ^ (-52 : Int) := by
          apply mul_lt_mul_of_pos_right h1
          positivity
      _ = 1 := by rw [h3]; norm_num
  · simp only [if_neg h0]
    have h1 : ((4503599627370496 + x.frac.val : Nat) : ℚ) < 9007199254740992 := by
      have : 4503599627370496 + x.frac.val < 9007199254740992 := by omega
      exact_mod_cast this
    have h2 : (2 : ℚ) ^ (((x.expo.val : Nat) : Int) - 1075) ≤ 2 ^ (-53 : Int) :=
      zpow_le_zpow_right₀ (by norm_num) (by omega)
    have h3 : (2 : ℚ) ^ (-53 : Int) = 1 / 9007199254740992 := by norm_num
    have h4 : (0 : ℚ) ≤ ((4503599627370496 + x.frac.val : Nat) : ℚ) := by positivity
    calc ((4503599627370496 + x.frac.val : Nat) : ℚ) * 2 ^ (((x.expo.val : Nat) : Int) - 1075)
        ≤ ((4503599627370496 + x.frac.val : Nat) : ℚ) * 2 ^ (-53 : Int) :=
          mul_le_mul_of_nonneg_left h2 h4
      _ < 9007199254740992 * 2 ^ (-53 : Int) := by
          apply mul_lt_mul_of_pos_right h1
          positivity
      _ = 1 := by rw [h3]; norm_num

/-- A list of at most 2^40 criteria whose weights have a clear sign bit and an exponent
field of at most 1022 (values in [0, 1)) has its weights in range. -/
theorem weightsInRange_of_small (cs : List AssessmentCriteria)
    (h : ∀ c ∈ cs, c.Weight.sign = false ∧ c.Weight.expo.val ≤ 1022)
    (hlen : cs.length ≤ 1099511627776) : WeightsInRange cs := by
  refine ⟨?_, ?_, hlen⟩
  · intro c hc
    obtain ⟨h1, h2⟩ := h c hc
    refine ⟨?_, (F64.toRat_lt_one c.Weight h1 h2).1⟩
    simp only [F64.isFinite, decide_eq_true_eq]
    omega
  · have hsum : (cs.map (fun c => c.Weight.toRat)).sum ≤ (cs.length : ℚ) := by
      clear hlen
      induction cs with
      | nil => simp
      | cons c cs ih =>
        obtain ⟨h1, h2⟩ := h c (List.mem_cons_self c cs)
        have h3 := (F64.toRat_lt_one c.Weight h1 h2).2
        have h4 := ih (fun x hx => h x (List.mem_cons_of_mem c hx))
        simp only [List.map_cons, List.sum_cons, List.length_cons]
        push_cast
        linarith
    have hl : (cs.length : ℚ) ≤ 1099511627776 := by exact_mod_cast hlen
    have hp : (1099511627776 : ℚ) ≤ 2 ^ (1000 : Int) := by
      have h1 : (1099511627776 : ℚ) = 2 ^ (40 : Int) := by norm_num
      rw [h1]
      exact zpow_le_zpow_right₀ (by norm_num) (by norm_num)
    linarith

theorem sampleParticipant_in_range :
    ScoresInRange (sampleRequest "p1" "").Criteria (sampleParticipant "p1") := by
  intro c hc compScore hsc
  simp only [sampleRequest, sampleCriteria, List.mem_cons, List.mem_singleton,
    List.not_mem_nil, or_false] at hc
  rcases hc with rfl | rfl | rfl <;>
    · simp [sampleCriterion, sampleParticipant, sampleScore] at hsc
      subst hsc
      simp

theorem sampleCriteria_in_range : WeightsInRange (sampleRequest "p1" "").Criteria :=
  weightsInRange_of_small _ (by decide) (by decide)

/-! ## Range of the overall score -/

theorem individualResponse_in_range (req : AssessmentRequest) (p : ParticipantAssessment)
    (hw : WeightsInRange req.Criteria) (hs : ScoresInRange req.Criteria p) :
    (individualResponse req p).OverallScore.isFinite = true
    ∧ 0 ≤ (individualResponse req p).OverallScore.toRat
    ∧ (individualResponse req p).OverallScore.toRat ≤ overallUpperBound req.Criteria.length := by
  obtain ⟨h1, h2, _, _, h5, _⟩ := individual_overall_accuracy req p hw hs
  exact ⟨h1, h2, h5⟩

theorem scoredValue_sum_zero (cs : List AssessmentCriteria) (p : ParticipantAssessment)
    (h : ∀ c ∈ cs, ∀ compScore, p.Scores c.ID = some compScore → compScore.Score = 0) :
    (cs.map (scoredValue p)).sum = 0 := by
  apply List.sum_eq_zero
  intro x hx
  obtain ⟨c, hc, rfl⟩ := List.mem_map.mp hx
  unfold scoredValue
  cases hsc : p.Scores c.ID with
  | none => rfl
  | some compScore => simp [h c hc compScore hsc]

theorem individualResponse_all_zero (req : AssessmentRequest) (p : ParticipantAssessment)
    (hw : WeightsInRange req.Criteria)
    (h : ∀ c ∈ req.Criteria, ∀ compScore, p.Scores c.ID = some compScore →
      compScore.Score = 0) :
    (individualResponse req p).OverallScore.toRat = 0 := by
  have hs : ScoresInRange req.Criteria p := by
    intro c hc compScore hsc
    rw [h c hc compScore hsc]
    exact ⟨le_refl 0, by norm_num⟩
  obtain ⟨_, _, _, _, _, h6⟩ := individual_overall_accuracy req p hw hs
  exact h6 (scoredValue_sum_zero req.Criteria p h)

/-- C12 (amended): for a criteria list with weights in range (finite, not negative, at most
2^1000 in sum, at most 2^40 criteria) and decoded scores in 0..5, the exact weighted average
lies in [0, 5], and the `float64` overall score of the individual result, of each unified
batch entry and of the fallback response is finite, at least 0 and at most
5 (1 + (3 n + 1) 2^-52) for n criteria; it is 0 when every score is 0. So every response the
parser returns, and every entry it stores in the batch, has its overall score in that
range. -/
theorem overall_score_in_range (req : AssessmentRequest)
    (hw : WeightsInRange req.Criteria) :
    (∀ p, ScoresInRange req.Criteria p →
      (0 ≤ exactOverall req.Criteria p ∧ exactOverall req.Criteria p ≤ 5)
      ∧ ((individualResponse req p).OverallScore.isFinite = true
        ∧ 0 ≤ (individualResponse req p).OverallScore.toRat
        ∧ (individualResponse req p).OverallScore.toRat
            ≤ overallUpperBound req.Criteria.length)
      ∧ ((unifiedResponse req p).OverallScore.isFinite = true
        ∧ 0 ≤ (unifiedResponse req p).OverallScore.toRat
        ∧ (unifiedResponse req p).OverallScore.toRat
            ≤ overallUpperBound req.Criteria.length))
    ∧ (∀ p, (∀ c ∈ req.Criteria, ∀ compScore, p.Scores c.ID = some compScore →
          compScore.Score = 0) →
        (individualResponse req p).OverallScore.toRat = 0
        ∧ (unifiedResponse req p).OverallScore.toRat = 0)
    ∧ ((createFallbackResponse req).OverallScore.isFinite = true
      ∧ 0 ≤ (createFallbackResponse req).OverallScore.toRat
      ∧ (createFallbackResponse req).OverallScore.toRat
          ≤ overallUpperBound req.Criteria.length)
    ∧ ((∀ r ∈ (createFallbackResponse req).Results, r.Score = 0) →
        (createFallbackResponse req).OverallScore = F64.zero false)
    ∧ (∀ (unmarshal : String → Option (List ParticipantAssessment))
        (s : LLMAssessmentService) (llmResponse : String),
        (∀ ps, unmarshal (sliceStr llmResponse (indexChar '[' llmResponse.data)
            (lastIndexChar ']' llmResponse.data + 1)) = some ps →
          ∀ p ∈ ps, ScoresInRange req.Criteria p) →
        (∀ r, (parseAssessmentResponse unmarshal s llmResponse req).1 = .ok r →
          r.OverallScore.isFinite = true ∧ 0 ≤ r.OverallScore.toRat
          ∧ r.OverallScore.toRat ≤ overallUpperBound req.Criteria.length)
        ∧ (∀ r ∈ GetLastUnifiedAssessments
              (parseAssessmentResponse unmarshal s llmResponse req).2,
            r ∈ s.lastUnifiedAssessments
            ∨ (r.OverallScore.isFinite = true ∧ 0 ≤ r.OverallScore.toRat
              ∧ r.OverallScore.toRat ≤ overallUpperBound req.Criteria.length))) := by
  have hfb : (createFallbackResponse req).OverallScore.isFinite = true
      ∧ 0 ≤ (createFallbackResponse req).OverallScore.toRat
      ∧ (createFallbackResponse req).OverallScore.toRat
          ≤ overallUpperBound req.Criteria.length := fallback_in_range req hw
  refine ⟨?_, ?_, hfb, ?_, ?_⟩
  · intro p hs
    have h := individualResponse_in_range req p hw hs
    exact ⟨exactOverall_range req.Criteria p hw.1 hs, h,
      by rw [unifiedResponse_overall]; exact h⟩
  · intro p hz
    have h := individualResponse_all_zero req p hw hz
    exact ⟨h, by rw [unifiedResponse_overall]; exact h⟩
  · intro hz
    by_cases h : (fields req.Transcript).length < 50
    · exact fallback_overall_minimal req h
    · rw [fallback_results_map] at hz
      cases hcs : req.Criteria with
      | nil => simp [createFallbackResponse, hcs, gt_zero_zero]
      | cons c cs =>
        have hmem : fallbackResult (decide ((fields req.Transcript).length < 50))
            (fields req.Transcript).length c
            ∈ req.Criteria.map (fallbackResult (decide ((fields req.Transcript).length < 50))
                (fields req.Transcript).length) := by
          rw [hcs]
          exact List.mem_map.mpr ⟨c, List.mem_cons_self c cs, rfl⟩
        have h3 := hz _ hmem
        simp [fallbackResult, h] at h3
  · intro unmarshal s llmResponse hdec
    constructor
    · intro r hr
      rcases parse_ok_cases unmarshal s llmResponse req r hr with h | h | h
      · rw [h]
        exact hfb
      · rw [h.2.2, F64.toRat_zero]
        refine ⟨F64.isFinite_zero false, le_refl 0, ?_⟩
        unfold overallUpperBound
        positivity
      · obtain ⟨ps, p, hps, hp, rfl⟩ := h
        exact individualResponse_in_range req p hw (hdec ps hps p hp)
    · intro r hr
      rcases parse_batch_cases unmarshal s llmResponse req with h | h
      · left
        simpa [GetLastUnifiedAssessments, h] using hr
      · right
        obtain ⟨ps, hps, hbatch⟩ := h
        simp only [GetLastUnifiedAssessments, hbatch, List.mem_map] at hr
        obtain ⟨p, hp, rfl⟩ := hr
        rw [unifiedResponse_overall]
        exact individualResponse_in_range req p hw (hdec ps hps p hp)

/-- C12 (amended) at the sample request (weights 0.2, 0.3, 0.5; scores 0, 4, 2): the
individual and the unified overall score are finite, at least 0 and at most the bound for
three criteria. -/
theorem overall_score_in_range_sample :
    (0 ≤ exactOverall (sampleRequest "p1" "").Criteria (sampleParticipant "p1")
      ∧ exactOverall (sampleRequest "p1" "").Criteria (sampleParticipant "p1") ≤ 5)
    ∧ ((individualResponse (sampleRequest "p1" "")
          (sampleParticipant "p1")).OverallScore.isFinite = true
      ∧ 0 ≤ (individualResponse (sampleRequest "p1" "")
          (sampleParticipant "p1")).OverallScore.toRat
      ∧ (individualResponse (sampleRequest "p1" "") (sampleParticipant "p1")).OverallScore.toRat
          ≤ overallUpperBound (sampleRequest "p1" "").Criteria.length)
    ∧ ((unifiedResponse (sampleRequest "p1" "")
          (sampleParticipant "p1")).OverallScore.isFinite = true
      ∧ 0 ≤ (unifiedResponse (sampleRequest "p1" "")
          (sampleParticipant "p1")).OverallScore.toRat
      ∧ (unifiedResponse (sampleRequest "p1" "") (sampleParticipant "p1")).OverallScore.toRat
          ≤ overallUpperBound (sampleRequest "p1" "").Criteria.length) :=
  (overall_score_in_range (sampleRequest "p1" "") sampleCriteria_in_range).1
    (sampleParticipant "p1") sampleParticipant_in_range

/-- C12 as stated fails: with the non-negative weights 0.15 and 0.3 and the decoded scores
5 and 5, all in 0..5, the overall score returned on the individual path and stored on the
unified path is the `float64` 5.000000000000001, which is greater than 5. -/
theorem overall_score_can_exceed_five :
    (∀ c ∈ roundingCriteria, F64.lt c.Weight (F64.zero false) = false)
    ∧ ScoresInRange roundingCriteria sampleFivesParticipant
    ∧ (parseAssessmentResponse (fun _ => some [sampleFivesParticipant]) sampleService "[]"
        { sampleRequest "p1" "" with Criteria := roundingCriteria }).1.toOption.map
          (fun r => r.OverallScore)
      = some (F64.ofRatio 5000000000000001 1000000000000000)
    ∧ (GetLastUnifiedAssessments
        (parseAssessmentResponse (fun _ => some [sampleFivesParticipant]) sampleService "[]"
          { sampleRequest "unified" "" with Criteria := roundingCriteria }).2).map
          (fun r => r.OverallScore)
      = [F64.ofRatio 5000000000000001 1000000000000000]
    ∧ F64.gt (F64.ofRatio 5000000000000001 1000000000000000) (F64.ofInt 5) = true
    ∧ (5 : ℚ) < (F64.ofRatio 5000000000000001 1000000000000000).toRat := by
  have h1 : (parseAssessmentResponse (fun _ => some [sampleFivesParticipant]) sampleService
      "[]" { sampleRequest "p1" "" with Criteria := roundingCriteria }).1
      = .ok (individualResponse { sampleRequest "p1" "" with Criteria := roundingCriteria }
          sampleFivesParticipant) := by
    rfl
  have h2 : GetLastUnifiedAssessments
      (parseAssessmentResponse (fun _ => some [sampleFivesParticipant]) sampleService "[]"
        { sampleRequest "unified" "" with Criteria := roundingCriteria }).2
      = [unifiedResponse { sampleRequest "unified" "" with Criteria := roundingCriteria }
          sampleFivesParticipant] := by
    rfl
  have h3 : (individualResponse { sampleRequest "p1" "" with Criteria := roundingCriteria }
      sampleFivesParticipant).OverallScore
      = F64.ofRatio 5000000000000001 1000000000000000 := by
    set_option maxRecDepth 100000 in decide
  have h4 : (unifiedResponse { sampleRequest "unified" "" with Criteria := roundingCriteria }
      sampleFivesParticipant).OverallScore
      = F64.ofRatio 5000000000000001 1000000000000000 := by
    set_option maxRecDepth 100000 in decide
  have h5 : F64.ofRatio 5000000000000001 1000000000000000
      = ⟨false, 1025, 1125899906842625⟩ := by
    set_option maxRecDepth 100000 in decide
  refine ⟨by set_option maxRecDepth 100000 in decide, ?_, ?_, ?_,
    by set_option maxRecDepth 100000 in decide, ?_⟩
  · intro c _ compScore hsc
    simp only [sampleFivesParticipant, sampleScore, Option.some.injEq] at hsc
    subst hsc
    exact ⟨by norm_num, by norm_num⟩
  · rw [h1]
    simp only [Except.toOption, Option.map, h3]
  · rw [h2]
    simp only [List.map, h4]
  · rw [h5]
    have hm : (⟨false, 1025, 1125899906842625⟩ : F64).mant = 5629499534213121 := by decide
    have he : (⟨false, 1025, 1125899906842625⟩ : F64).ex = -50 := by decide
    rw [F64.toRat_of_sign_false _ rfl]
    unfold F64.mag
    rw [hm, he]
    norm_num

/-! ## The overall score of the fallback response -/

theorem foldl_fallbackScoreStep (l : List (AssessmentResult × AssessmentCriteria)) :
    ∀ acc : F64 × F64, l.foldl fallbackScoreStep acc
      = (l.filter (fun rc => decide (rc.1.Score > 0))).foldl
          (fun (a : F64 × F64) (rc : AssessmentResult × AssessmentCriteria) =>
            (F64.add a.1 (F64.mul (F64.ofInt rc.1.Score) rc.2.Weight),
             F64.add a.2 rc.2.Weight)) acc := by
  induction l with
  | nil => intro acc; rfl
  | cons rc l ih =>
    intro acc
    rw [List.foldl_cons, ih]
    by_cases h : rc.1.Score > 0
    · simp [fallbackScoreStep, h, List.filter_cons]
    · simp [fallbackScoreStep, h, List.filter_cons]

theorem uniform_three_sums (cs : List AssessmentCriteria) :
    (cs.map (scoredValue (uniformParticipant 3))).sum
      = 3 * (cs.map (fun c => c.Weight.toRat)).sum
    ∧ (cs.map (scoredWeight (uniformParticipant 3))).sum
      = (cs.map (fun c => c.Weight.toRat)).sum := by
  induction cs with
  | nil => simp
  | cons c cs ih =>
    simp only [List.map_cons, List.sum_cons, ih.1, ih.2]
    constructor
    · simp only [scoredValue, uniformParticipant]
      push_cast
      ring
    · simp only [scoredWeight, uniformParticipant]

theorem exactOverall_uniform_three (cs : List AssessmentCriteria) (hne : cs ≠ [])
    (hpos : ∀ c ∈ cs, 0 < c.Weight.toRat) : exactOverall cs (uniformParticipant 3) = 3 := by
  obtain ⟨h1, h2⟩ := uniform_three_sums cs
  have hW : 0 < (cs.map (fun c => c.Weight.toRat)).sum := by
    apply List.sum_pos
    · intro x hx
      obtain ⟨c, hc, rfl⟩ := List.mem_map.mp hx
      exact hpos c hc
    · simpa using hne
  unfold exactOverall
  rw [h1, h2]
  field_simp

/-- The fallback overall score from 50 words on, for a non-empty criteria list with positive
weights in range: finite and within the relative error (3 n + 1) 2^-52 of 3. -/
theorem fallback_near_three (req : AssessmentRequest)
    (hlen : 50 ≤ (fields req.Transcript).length) (hne : req.Criteria ≠ [])
    (hw : WeightsInRange req.Criteria) (hpos : ∀ c ∈ req.Criteria, 0 < c.Weight.toRat) :
    (createFallbackResponse req).OverallScore.isFinite = true
    ∧ |(createFallbackResponse req).OverallScore.toRat - 3|
        ≤ (3 * (req.Criteria.length : ℚ) + 1) * 2 ^ (-52 : Int) * 3 := by
  rw [fallback_overall_full req (by omega)]
  obtain ⟨h1, _, _, h4, _, _⟩ := individual_overall_accuracy req (uniformParticipant 3) hw
    (uniform_in_range req.Criteria)
  rw [exactOverall_uniform_three req.Criteria hne hpos] at h4
  refine ⟨h1, h4 ?_⟩
  have : (2 : ℚ) ^ (-1021 : Int) ≤ 1 := by
    have := zpow_le_zpow_right₀ (by norm_num : (1 : ℚ) ≤ 2) (by norm_num : (-1021 : Int) ≤ 0)
    simpa using this
  linarith

/-- C15 (amended): `createFallbackResponse` computes its overall score as the
weight-normalised sum over the results with score > 0, in `float64`; it is 0 whenever the
transcript has fewer than 50 words, and, when the transcript has at least 50 words and the
criteria list is non-empty with positive weights in range, it is finite and within the
relative error (3 n + 1) 2^-52 of 3 for n criteria (exactly 3 for 60 words and 0 for 40
words over the sample criteria). -/
theorem fallback_overall_score (req : AssessmentRequest) :
    (createFallbackResponse req).OverallScore
      = (if F64.gt ((((createFallbackResponse req).Results.zip req.Criteria).filter
              (fun rc => decide (rc.1.Score > 0))).foldl
              (fun (a : F64 × F64) (rc : AssessmentResult × AssessmentCriteria) =>
                (F64.add a.1 (F64.mul (F64.ofInt rc.1.Score) rc.2.Weight),
                 F64.add a.2 rc.2.Weight)) (F64.zero false, F64.zero false)).2
            (F64.zero false) = true then
          F64.div
            ((((createFallbackResponse req).Results.zip req.Criteria).filter
              (fun rc => decide (rc.1.Score > 0))).foldl
              (fun (a : F64 × F64) (rc : AssessmentResult × AssessmentCriteria) =>
                (F64.add a.1 (F64.mul (F64.ofInt rc.1.Score) rc.2.Weight),
                 F64.add a.2 rc.2.Weight)) (F64.zero false, F64.zero false)).1
            ((((createFallbackResponse req).Results.zip req.Criteria).filter
              (fun rc => decide (rc.1.Score > 0))).foldl
              (fun (a : F64 × F64) (rc : AssessmentResult × AssessmentCriteria) =>
                (F64.add a.1 (F64.mul (F64.ofInt rc.1.Score) rc.2.Weight),
                 F64.add a.2 rc.2.Weight)) (F64.zero false, F64.zero false)).2
        else
          ((((createFallbackResponse req).Results.zip req.Criteria).filter
              (fun rc => decide (rc.1.Score > 0))).foldl
              (fun (a : F64 × F64) (rc : AssessmentResult × AssessmentCriteria) =>
                (F64.add a.1 (F64.mul (F64.ofInt rc.1.Score) rc.2.Weight),
                 F64.add a.2 rc.2.Weight)) (F64.zero false, F64.zero false)).1)
    ∧ ((fields req.Transcript).length < 50 →
        (createFallbackResponse req).OverallScore = F64.zero false)
    ∧ (50 ≤ (fields req.Transcript).length → req.Criteria ≠ [] →
        WeightsInRange req.Criteria → (∀ c ∈ req.Criteria, 0 < c.Weight.toRat) →
        (createFallbackResponse req).OverallScore.isFinite = true
        ∧ |(createFallbackResponse req).OverallScore.toRat - 3|
            ≤ (3 * (req.Criteria.length : ℚ) + 1) * 2 ^ (-52 : Int) * 3)
    ∧ (createFallbackResponse (sampleRequest "p1" (wordsTranscript 60))).OverallScore
        = F64.ofInt 3
    ∧ (createFallbackResponse (sampleRequest "p1" (wordsTranscript 40))).OverallScore
        = F64.zero false := by
  refine ⟨?_, fallback_overall_minimal req, fallback_near_three req, ?_, ?_⟩
  · have hfold := foldl_fallbackScoreStep ((createFallbackResponse req).Results.zip req.Criteria)
      (F64.zero false, F64.zero false)
    have hdef : (createFallbackResponse req).OverallScore
        = if F64.gt (((createFallbackResponse req).Results.zip req.Criteria).foldl
              fallbackScoreStep (F64.zero false, F64.zero false)).2 (F64.zero false) = true then
            F64.div (((createFallbackResponse req).Results.zip req.Criteria).foldl
              fallbackScoreStep (F64.zero false, F64.zero false)).1
              (((createFallbackResponse req).Results.zip req.Criteria).foldl
              fallbackScoreStep (F64.zero false, F64.zero false)).2
          else (((createFallbackResponse req).Results.zip req.Criteria).foldl
              fallbackScoreStep (F64.zero false, F64.zero false)).1 := rfl
    rw [hdef, hfold]
  · have h : ¬ (fields (sampleRequest "p1" (wordsTranscript 60)).Transcript).length < 50 := by
      simp [sampleRequest, fields_wordsTranscript]
    rw [fallback_overall_full _ h]
    set_option maxRecDepth 100000 in decide
  · apply fallback_overall_minimal
    simp [sampleRequest, fields_wordsTranscript]

/-- C15 as stated fails: with the positive weights 0.05 and 0.05 and a transcript of 60
words, the fallback overall score is the `float64` 3.0000000000000004, not 3. -/
theorem fallback_score_is_not_exactly_three :
    (fields (wordsTranscript 60)).length = 60
    ∧ twentiethCriteria ≠ []
    ∧ (∀ c ∈ twentiethCriteria, F64.gt c.Weight (F64.zero false) = true)
    ∧ (createFallbackResponse
        { sampleRequest "p1" (wordsTranscript 60) with Criteria := twentiethCriteria }).OverallScore
      = F64.ofRatio 30000000000000004 10000000000000000
    ∧ F64.ofRatio 30000000000000004 10000000000000000 ≠ F64.ofInt 3
    ∧ F64.gt (F64.ofRatio 30000000000000004 10000000000000000) (F64.ofInt 3) = true := by
  have h : ¬ (fields ({ sampleRequest "p1" (wordsTranscript 60) with
      Criteria := twentiethCriteria } : AssessmentRequest).Transcript).length < 50 := by
    simp [sampleRequest, fields_wordsTranscript]
  refine ⟨fields_wordsTranscript 60, by simp [twentiethCriteria],
    by set_option maxRecDepth 100000 in decide, ?_,
    by set_option maxRecDepth 100000 in decide,
    by set_option maxRecDepth 100000 in decide⟩
  rw [fallback_overall_full _ h]
  set_option maxRecDepth 100000 in decide

/-! ## Rescaling the weights -/

theorem scaleWeights_criteria (k : F64) (req : AssessmentRequest) :
    (scaleWeights k req).Criteria
      = req.Criteria.map (fun c => { c with Weight := F64.mul k c.Weight }) := rfl

theorem two_pow_999_lt : (2 : ℚ) ^ (999 : Int) < 2 ^ (1023 : Int) :=
  zpow_lt_zpow_right₀ (by norm_num) (by norm_num)

/-- A rescaled weight is finite, not negative and within the relative error 2^-53 of the
exact product. -/
theorem scaled_weight_spec (k w : F64) (W : ℚ) (hk : k.isFinite = true) (hk0 : 0 < k.toRat)
    (hw : w.isFinite = true) (hw0 : 0 ≤ w.toRat) (hwW : w.toRat ≤ W)
    (hsum : k.toRat * W ≤ 2 ^ (999 : Int))
    (hnorm : w.toRat = 0 ∨ (2 : ℚ) ^ (-1022 : Int) ≤ k.toRat * w.toRat) :
    (F64.mul k w).isFinite = true ∧ 0 ≤ (F64.mul k w).toRat
    ∧ |(F64.mul k w).toRat - k.toRat * w.toRat| ≤ unitRoundoff * (k.toRat * w.toRat) := by
  have hlt : k.toRat * w.toRat < 2 ^ (1023 : Int) := by
    have h1 : k.toRat * w.toRat ≤ k.toRat * W := mul_le_mul_of_nonneg_left hwW hk0.le
    have h2 := two_pow_999_lt
    linarith
  have hgrid : (∃ (N : Nat) (j : Int), -1074 ≤ j ∧ k.toRat * w.toRat = (N : ℚ) * 2 ^ j)
      ∨ (2 : ℚ) ^ (-1022 : Int) ≤ k.toRat * w.toRat := by
    rcases hnorm with h | h
    · left
      exact ⟨0, 0, by norm_num, by rw [h]; simp⟩
    · exact Or.inr h
  exact F64.mul_spec k w hk hw hk0.le hw0 hlt hgrid

theorem mem_le_sum (cs : List AssessmentCriteria) (hw : WeightsNonneg cs) :
    ∀ c ∈ cs, c.Weight.toRat ≤ (cs.map (fun c => c.Weight.toRat)).sum := by
  induction cs with
  | nil => intro c hc; simp at hc
  | cons d ds ih =>
    intro c hc
    have hd := (hw d (List.mem_cons_self d ds)).2
    have hds : WeightsNonneg ds := fun x hx => hw x (List.mem_cons_of_mem d hx)
    have hrest : 0 ≤ (ds.map (fun c => c.Weight.toRat)).sum := by
      apply List.sum_nonneg
      intro x hx
      obtain ⟨e, he, rfl⟩ := List.mem_map.mp hx
      exact (hds e he).2
    simp only [List.map_cons, List.sum_cons]
    rcases List.mem_cons.mp hc with h | h
    · rw [h]
      linarith
    · have := ih hds c h
      linarith

/-- The exact sums over the rescaled weights lie within the factors 1 ± 2^-53 of k times
the exact sums over the weights. -/
theorem scaled_sums (k : F64) (cs all : List AssessmentCriteria) (p : ParticipantAssessment)
    (hsub : ∀ c ∈ cs, c ∈ all)
    (hw : WeightsNonneg all) (hs : ScoresInRange cs p) (hk : ScalingInRange k all) :
    WeightsNonneg (cs.map (fun c => { c with Weight := F64.mul k c.Weight }))
    ∧ Approx 1 ((cs.map (fun c => { c with Weight := F64.mul k c.Weight })).map
          (fun c => c.Weight.toRat)).sum
        (k.toRat * (cs.map (fun c => c.Weight.toRat)).sum)
    ∧ Approx 1 ((cs.map (fun c => { c with Weight := F64.mul k c.Weight })).map
          (scoredValue p)).sum
        (k.toRat * (cs.map (scoredValue p)).sum)
    ∧ Approx 1 ((cs.map (fun c => { c with Weight := F64.mul k c.Weight })).map
          (scoredWeight p)).sum
        (k.toRat * (cs.map (scoredWeight p)).sum) := by
  obtain ⟨hkf, hk0, hksum, hknorm⟩ := hk
  induction cs with
  | nil =>
    refine ⟨?_, ?_, ?_, ?_⟩
    · intro c hc
      simp at hc
    all_goals simp [Approx]
  | cons c cs ih =>
    have hc := hsub c (List.mem_cons_self c cs)
    obtain ⟨i1, i2, i3, i4⟩ := ih (fun x hx => hsub x (List.mem_cons_of_mem c hx))
      (fun x hx => hs x (List.mem_cons_of_mem c hx))
    obtain ⟨hwf, hw0⟩ := hw c hc
    obtain ⟨m1, m2, m3⟩ := scaled_weight_spec k c.Weight _ hkf hk0 hwf hw0
      (mem_le_sum all hw c hc) hksum (hknorm c hc)
    have hkw0 : 0 ≤ k.toRat * c.Weight.toRat := mul_nonneg hk0.le hw0
    have hwa : Approx 1 (F64.mul k c.Weight).toRat (k.toRat * c.Weight.toRat) :=
      approx_round 0 _ _ _ hkw0 (approx_refl _) m3
    refine ⟨?_, ?_, ?_, ?_⟩
    · intro x hx
      simp only [List.map_cons, List.mem_cons] at hx
      rcases hx with h | h
      · rw [h]
        exact ⟨m1, m2⟩
      · exact i1 x h
    · simp only [List.map_cons, List.sum_cons, mul_add]
      exact approx_add _ _ _ _ _ hwa i2
    · simp only [List.map_cons, List.sum_cons, mul_add]
      apply approx_add _ _ _ _ _ _ i3
      unfold scoredValue
      simp only
      cases hsc : p.Scores c.ID with
      | none => simp [Approx]
      | some compScore =>
        simp only
        obtain ⟨hlo, _⟩ := hs c (List.mem_cons_self c cs) compScore hsc
        have hsq : (0 : ℚ) ≤ (compScore.Score : ℚ) := by exact_mod_cast hlo
        constructor
        · have := mul_le_mul_of_nonneg_left hwa.1 hsq
          calc k.toRat * ((compScore.Score : ℚ) * c.Weight.toRat) * (1 - unitRoundoff) ^ 1
              = (compScore.Score : ℚ)
                  * (k.toRat * c.Weight.toRat * (1 - unitRoundoff) ^ 1) := by ring
            _ ≤ (compScore.Score : ℚ) * (F64.mul k c.Weight).toRat := this
        · have := mul_le_mul_of_nonneg_left hwa.2 hsq
          calc (compScore.Score : ℚ) * (F64.mul k c.Weight).toRat
              ≤ (compScore.Score : ℚ)
                  * (k.toRat * c.Weight.toRat * (1 + unitRoundoff) ^ 1) := this
            _ = k.toRat * ((compScore.Score : ℚ) * c.Weight.toRat) * (1 + unitRoundoff) ^ 1 := by
                ring
    · simp only [List.map_cons, List.sum_cons, mul_add]
      apply approx_add _ _ _ _ _ _ i4
      unfold scoredWeight
      simp only
      cases hsc : p.Scores c.ID with
      | none => simp [Approx]
      | some compScore => exact hwa

/-- The quotient of two sums that are each rescaled within the factors 1 ± u stays within
the factors 1 - 2u and 1 + 4u of the quotient of the sums. -/
theorem quotient_of_scaled (V W V1 W1 k u : ℚ) (hu0 : 0 ≤ u) (hu : u ≤ 1 / 2) (hk : 0 < k)
    (hV : 0 ≤ V) (hW : 0 ≤ W) (h5 : V ≤ 5 * W)
    (hV1 : k * V * (1 - u) ≤ V1) (hV2 : V1 ≤ k * V * (1 + u))
    (hW1 : k * W * (1 - u) ≤ W1) (hW2 : W1 ≤ k * W * (1 + u)) :
    |V1 / W1 - V / W| ≤ 4 * u * (V / W) := by
  rcases eq_or_lt_of_le hW with hz | hpos
  · have hV0 : V = 0 := by
      rw [← hz] at h5
      linarith
    have hV10 : V1 = 0 := by
      rw [hV0] at hV1 hV2
      simp only [mul_zero, zero_mul] at hV1 hV2
      linarith
    rw [hV0, hV10]
    simp
  · have hu1 : 0 < 1 - u := by linarith
    have hW1pos : 0 < W1 := lt_of_lt_of_le (mul_pos (mul_pos hk hpos) hu1) hW1
    have hE0 : 0 ≤ V / W := div_nonneg hV hW
    have hEW : V / W * W = V := div_mul_cancel₀ _ hpos.ne'
    have hkE : 0 ≤ k * (V / W) := mul_nonneg hk.le hE0
    rw [abs_le]
    constructor
    · -- V / W (1 - 2u) ≤ V1 / W1
      have h1 : V / W * (1 - 2 * u) ≤ V1 / W1 := by
        rw [le_div_iff₀ hW1pos]
        by_cases h2u : 0 ≤ 1 - 2 * u
        · have s1 : V / W * (1 - 2 * u) * W1 ≤ V / W * (1 - 2 * u) * (k * W * (1 + u)) :=
            mul_le_mul_of_nonneg_left hW2 (mul_nonneg hE0 h2u)
          have s2 : V / W * (1 - 2 * u) * (k * W * (1 + u))
              = k * V * ((1 - 2 * u) * (1 + u)) := by
            calc V / W * (1 - 2 * u) * (k * W * (1 + u))
                = V / W * W * (k * ((1 - 2 * u) * (1 + u))) := by ring
              _ = k * V * ((1 - 2 * u) * (1 + u)) := by rw [hEW]; ring
          have s3 : k * V * ((1 - 2 * u) * (1 + u)) ≤ k * V * (1 - u) := by
            apply mul_le_mul_of_nonneg_left _ (mul_nonneg hk.le hV)
            nlinarith
          linarith
        · have : V / W * (1 - 2 * u) * W1 ≤ 0 := by
            have : V / W * (1 - 2 * u) ≤ 0 :=
              mul_nonpos_of_nonneg_of_nonpos hE0 (by linarith)
            exact mul_nonpos_of_nonpos_of_nonneg this hW1pos.le
          have hV1n : 0 ≤ V1 := le_trans (mul_nonneg (mul_nonneg hk.le hV) hu1.le) hV1
          linarith
      have huE : 0 ≤ u * (V / W) := mul_nonneg hu0 hE0
      have hexp : V / W * (1 - 2 * u) = V / W - 2 * (u * (V / W)) := by ring
      linarith
    · have h1 : V1 / W1 ≤ V / W * (1 + 4 * u) := by
        rw [div_le_iff₀ hW1pos]
        have s1 : V / W * (1 + 4 * u) * (k * W * (1 - u)) ≤ V / W * (1 + 4 * u) * W1 :=
          mul_le_mul_of_nonneg_left hW1 (mul_nonneg hE0 (by linarith))
        have s2 : V / W * (1 + 4 * u) * (k * W * (1 - u))
            = k * V * ((1 + 4 * u) * (1 - u)) := by
          calc V / W * (1 + 4 * u) * (k * W * (1 - u))
              = V / W * W * (k * ((1 + 4 * u) * (1 - u))) := by ring
            _ = k * V * ((1 + 4 * u) * (1 - u)) := by rw [hEW]; ring
        have s3 : k * V * (1 + u) ≤ k * V * ((1 + 4 * u) * (1 - u)) := by
          apply mul_le_mul_of_nonneg_left _ (mul_nonneg hk.le hV)
          nlinarith
        linarith
      have hexp : V / W * (1 + 4 * u) = V / W + 4 * u * (V / W) := by ring
      linarith

/-- Three errors added up: the two rounding errors of the overall scores and the change of
the exact average. -/
theorem add_three_errors (o o1 E E1 d u t : ℚ) (hd : 0 ≤ d) (hu : 0 ≤ u)
    (hE : E ≤ 5) (hE1 : E1 ≤ 5)
    (h1 : |o - E| ≤ d * E + t) (h2 : |o1 - E1| ≤ d * E1 + t) (h3 : |E1 - E| ≤ 4 * u * E) :
    |o1 - o| ≤ 10 * d + 20 * u + 2 * t := by
  obtain ⟨a1, a2⟩ := abs_le.mp h1
  obtain ⟨b1, b2⟩ := abs_le.mp h2
  obtain ⟨c1, c2⟩ := abs_le.mp h3
  have e1 : d * E ≤ d * 5 := mul_le_mul_of_nonneg_left hE hd
  have e2 : d * E1 ≤ d * 5 := mul_le_mul_of_nonneg_left hE1 hd
  have e3 : 4 * u * E ≤ 4 * u * 5 := mul_le_mul_of_nonneg_left hE (by linarith)
  rw [abs_le]
  constructor <;> linarith

/-- Rescaling the weights changes the overall score of a scored participant by at most
(30 n + 21) 2^-52. -/
theorem individual_scale_bound (k : F64) (req : AssessmentRequest) (p : ParticipantAssessment)
    (hw : WeightsInRange req.Criteria) (hk : ScalingInRange k req.Criteria)
    (hs : ScoresInRange req.Criteria p) :
    (individualResponse (scaleWeights k req) p).OverallScore.isFinite = true
    ∧ (individualResponse req p).OverallScore.isFinite = true
    ∧ |(individualResponse (scaleWeights k req) p).OverallScore.toRat
        - (individualResponse req p).OverallScore.toRat|
      ≤ rescalingBound req.Criteria.length := by
  obtain ⟨hnn, hsum, hlen⟩ := hw
  have hk' := hk
  obtain ⟨hkf, hk0, hksum, hknorm⟩ := hk'
  obtain ⟨s1, s2, s3, s4⟩ := scaled_sums k req.Criteria req.Criteria p (fun c hc => hc) hnn hs hk
  have h0 := unitRoundoff_pos
  have hsmallu := unitRoundoff_small
  -- the rescaled weights are in range
  have hw1 : WeightsInRange (scaleWeights k req).Criteria := by
    rw [scaleWeights_criteria]
    refine ⟨s1, ?_, by simpa using hlen⟩
    have h1 := s2.2
    rw [pow_one] at h1
    have hW0 : 0 ≤ k.toRat * (req.Criteria.map (fun c => c.Weight.toRat)).sum := by
      apply mul_nonneg hk0.le
      apply List.sum_nonneg
      intro x hx
      obtain ⟨c, hc, rfl⟩ := List.mem_map.mp hx
      exact (hnn c hc).2
    have h2 : k.toRat * (req.Criteria.map (fun c => c.Weight.toRat)).sum * (1 + unitRoundoff)
        ≤ 2 ^ (999 : Int) * 2 := by
      apply mul_le_mul hksum (by linarith) (by linarith) (by positivity)
    have h3 : (2 : ℚ) ^ (999 : Int) * 2 = 2 ^ (1000 : Int) := by
      have : (1000 : Int) = 999 + 1 := by norm_num
      rw [this, zpow_add₀ (by norm_num : (2 : ℚ) ≠ 0)]
      norm_num
    linarith
  have hs1 : ScoresInRange (scaleWeights k req).Criteria p := by
    rw [scaleWeights_criteria]
    intro c hc compScore hsc
    obtain ⟨c0, hc0, rfl⟩ := List.mem_map.mp hc
    exact hs c0 hc0 compScore hsc
  have hlen1 : (scaleWeights k req).Criteria.length = req.Criteria.length := by
    rw [scaleWeights_criteria, List.length_map]
  obtain ⟨a1, _, a3, _, _, _⟩ := individual_overall_accuracy req p ⟨hnn, hsum, hlen⟩ hs
  obtain ⟨b1, _, b3, _, _, _⟩ := individual_overall_accuracy (scaleWeights k req) p hw1 hs1
  rw [hlen1] at b3
  obtain ⟨e1, e2⟩ := exactOverall_range req.Criteria p hnn hs
  obtain ⟨f1, f2⟩ := exactOverall_range (scaleWeights k req).Criteria p hw1.1 hs1
  obtain ⟨b1', b2', b3', _⟩ := exact_sums_bounds req.Criteria p hnn hs
  have hquot : |exactOverall (scaleWeights k req).Criteria p - exactOverall req.Criteria p|
      ≤ 4 * unitRoundoff * exactOverall req.Criteria p := by
    unfold exactOverall
    rw [scaleWeights_criteria]
    have v1 := s3.1
    have v2 := s3.2
    have w1 := s4.1
    have w2 := s4.2
    rw [pow_one] at v1 v2 w1 w2
    exact quotient_of_scaled _ _ _ _ k.toRat unitRoundoff h0.le hsmallu hk0 b2' b1' b3'
      v1 v2 w1 w2
  have hd0 : 0 ≤ (3 * (req.Criteria.length : ℚ) + 1) * 2 ^ (-52 : Int) := by positivity
  have hsumerr := add_three_errors _ _ _ _ _ unitRoundoff (2 ^ (-1075 : Int)) hd0 h0.le
    e2 f2 a3 b3 hquot
  refine ⟨b1, a1, le_trans hsumerr ?_⟩
  unfold rescalingBound
  have hu : unitRoundoff = 2 ^ (-52 : Int) / 2 := by
    unfold unitRoundoff
    norm_num
  have ht : (2 : ℚ) * 2 ^ (-1075 : Int) ≤ 2 ^ (-52 : Int) := by
    have h1 : (2 : ℚ) * 2 ^ (-1075 : Int) = 2 ^ (-1074 : Int) := by
      have : (-1074 : Int) = 1 + -1075 := by norm_num
      rw [this, zpow_add₀ (by norm_num : (2 : ℚ) ≠ 0)]
      norm_num
    rw [h1]
    exact zpow_le_zpow_right₀ (by norm_num) (by norm_num)
  rw [hu]
  have hp : (0 : ℚ) < 2 ^ (-52 : Int) := by positivity
  generalize (2 : ℚ) ^ (-52 : Int) = e at *
  generalize (2 : ℚ) ^ (-1075 : Int) = t at *
  have : (30 * (req.Criteria.length : ℚ) + 21) * e
      = 10 * ((3 * (req.Criteria.length : ℚ) + 1) * e) + 20 * (e / 2) + e := by ring
  linarith

/-- A normal value with a clear sign bit is at least 2^(expo - 1023). -/
theorem F64.normal_ge (x : F64) (hs : x.sign = false) (he : 1 ≤ x.expo.val) :
    (2 : ℚ) ^ (((x.expo.val : Nat) : Int) - 1023) ≤ x.toRat := by
  rw [F64.toRat_of_sign_false x hs]
  unfold F64.mag F64.mant F64.ex
  have h0 : ¬ (x.expo.val = 0) := by omega
  simp only [if_neg h0]
  have h1 : (4503599627370496 : ℚ) ≤ ((4503599627370496 + x.frac.val : Nat) : ℚ) := by
    have : 4503599627370496 ≤ 4503599627370496 + x.frac.val := by omega
    exact_mod_cast this
  have h2 : (2 : ℚ) ^ (((x.expo.val : Nat) : Int) - 1023)
      = 4503599627370496 * 2 ^ (((x.expo.val : Nat) : Int) - 1075) := by
    have : ((x.expo.val : Nat) : Int) - 1023 = 52 + (((x.expo.val : Nat) : Int) - 1075) := by
      ring
    rw [this, zpow_add₀ (by norm_num : (2 : ℚ) ≠ 0)]
    norm_num
  rw [h2]
  exact mul_le_mul_of_nonneg_right h1 (by positivity)

/-- A factor in [1, 256) rescales within range every list of at most 2^40 criteria whose
weights are normal values in [2^-1022, 1). -/
theorem scalingInRange_of_small (k : F64) (cs : List AssessmentCriteria)
    (hk : k.sign = false ∧ 1023 ≤ k.expo.val ∧ k.expo.val ≤ 1030)
    (h : ∀ c ∈ cs, c.Weight.sign = false ∧ 1 ≤ c.Weight.expo.val ∧ c.Weight.expo.val ≤ 1022)
    (hlen : cs.length ≤ 1099511627776) : ScalingInRange k cs := by
  obtain ⟨hks, hk1, hk2⟩ := hk
  have hkge : (1 : ℚ) ≤ k.toRat := by
    have h1 := F64.normal_ge k hks (by omega)
    have h2 : (1 : ℚ) ≤ 2 ^ (((k.expo.val : Nat) : Int) - 1023) := by
      have := zpow_le_zpow_right₀ (by norm_num : (1 : ℚ) ≤ 2)
        (by omega : (0 : Int) ≤ ((k.expo.val : Nat) : Int) - 1023)
      simpa using this
    linarith
  have hklt : k.toRat < 256 := by
    rw [F64.toRat_of_sign_false k hks]
    unfold F64.mag F64.mant F64.ex
    have h0 : ¬ (k.expo.val = 0) := by omega
    simp only [if_neg h0]
    have hf := k.frac.isLt
    have h1 : ((4503599627370496 + k.frac.val : Nat) : ℚ) < 9007199254740992 := by
      have : 4503599627370496 + k.frac.val < 9007199254740992 := by omega
      exact_mod_cast this
    have h2 : (2 : ℚ) ^ (((k.expo.val : Nat) : Int) - 1075) ≤ 2 ^ (-45 : Int) :=
      zpow_le_zpow_right₀ (by norm_num) (by omega)
    have h3 : (2 : ℚ) ^ (-45 : Int) = 1 / 35184372088832 := by norm_num
    have h4 : (0 : ℚ) ≤ ((4503599627370496 + k.frac.val : Nat) : ℚ) := by positivity
    calc ((4503599627370496 + k.frac.val : Nat) : ℚ) * 2 ^ (((k.expo.val : Nat) : Int) - 1075)
        ≤ ((4503599627370496 + k.frac.val : Nat) : ℚ) * 2 ^ (-45 : Int) :=
          mul_le_mul_of_nonneg_left h2 h4
      _ < 9007199254740992 * 2 ^ (-45 : Int) := by
          apply mul_lt_mul_of_pos_right h1
          positivity
      _ = 256 := by rw [h3]; norm_num
  have hwr := weightsInRange_of_small cs (fun c hc => ⟨(h c hc).1, (h c hc).2.2⟩) hlen
  refine ⟨?_, by linarith, ?_, ?_⟩
  · simp only [F64.isFinite, decide_eq_true_eq]
    omega
  · have hsum : (cs.map (fun c => c.Weight.toRat)).sum ≤ (cs.length : ℚ) := by
      clear hlen hwr
      induction cs with
      | nil => simp
      | cons c cs ih =>
        obtain ⟨h1, _, h2⟩ := h c (List.mem_cons_self c cs)
        have h3 := (F64.toRat_lt_one c.Weight h1 h2).2
        have h4 := ih (fun x hx => h x (List.mem_cons_of_mem c hx))
        simp only [List.map_cons, List.sum_cons, List.length_cons]
        push_cast
        linarith
    have hsum0 : 0 ≤ (cs.map (fun c => c.Weight.toRat)).sum := by
      apply List.sum_nonneg
      intro x hx
      obtain ⟨c, hc, rfl⟩ := List.mem_map.mp hx
      exact (hwr.1 c hc).2
    have hl : (cs.length : ℚ) ≤ 1099511627776 := by exact_mod_cast hlen
    have hp : (256 : ℚ) * 1099511627776 ≤ 2 ^ (999 : Int) := by
      have h1 : (256 : ℚ) * 1099511627776 = 2 ^ (48 : Int) := by norm_num
      rw [h1]
      exact zpow_le_zpow_right₀ (by norm_num) (by norm_num)
    have h5 : k.toRat * (cs.map (fun c => c.Weight.toRat)).sum ≤ 256 * 1099511627776 := by
      apply mul_le_mul hklt.le (by linarith) hsum0 (by norm_num)
    linarith
  · intro c hc
    right
    obtain ⟨h1, h2, _⟩ := h c hc
    have h3 := F64.normal_ge c.Weight h1 h2
    have h4 : (2 : ℚ) ^ (-1022 : Int) ≤ 2 ^ (((c.Weight.expo.val : Nat) : Int) - 1023) :=
      zpow_le_zpow_right₀ (by norm_num) (by omega)
    have h5 : 0 ≤ c.Weight.toRat := le_trans (by positivity) h3
    have h6 : c.Weight.toRat ≤ k.toRat * c.Weight.toRat := by
      have := mul_le_mul_of_nonneg_right hkge h5
      linarith
    linarith

/-- C19 (amended): for weights in range and scores in 0..5, rescaling the weights by a
finite positive factor k that keeps them in range changes the overall score of the
individual result, of each unified batch entry and of the fallback response by at most
(30 n + 21) 2^-52 for n criteria: the score is invariant up to rounding, and weights need
not sum to 1. -/
theorem overall_score_scale_invariant (k : F64) (req : AssessmentRequest)
    (hw : WeightsInRange req.Criteria) (hk : ScalingInRange k req.Criteria) :
    (∀ p, ScoresInRange req.Criteria p →
      |(individualResponse (scaleWeights k req) p).OverallScore.toRat
          - (individualResponse req p).OverallScore.toRat|
        ≤ rescalingBound req.Criteria.length
      ∧ |(unifiedResponse (scaleWeights k req) p).OverallScore.toRat
          - (unifiedResponse req p).OverallScore.toRat|
        ≤ rescalingBound req.Criteria.length)
    ∧ |(createFallbackResponse (scaleWeights k req)).OverallScore.toRat
        - (createFallbackResponse req).OverallScore.toRat|
      ≤ rescalingBound req.Criteria.length := by
  constructor
  · intro p hs
    have h := (individual_scale_bound k req p hw hk hs).2.2
    exact ⟨h, by rw [unifiedResponse_overall, unifiedResponse_overall]; exact h⟩
  · by_cases h : (fields req.Transcript).length < 50
    · rw [fallback_overall_minimal req h, fallback_overall_minimal (scaleWeights k req) h]
      simp only [sub_self, abs_zero]
      unfold rescalingBound
      positivity
    · rw [fallback_overall_full req h, fallback_overall_full (scaleWeights k req) h]
      exact (individual_scale_bound k req (uniformParticipant 3) hw hk
        (uniform_in_range req.Criteria)).2.2

theorem sampleScaling_in_range :
    ScalingInRange (F64.ofInt 2) (sampleRequest "p1" "").Criteria :=
  scalingInRange_of_small _ _ (by decide) (by decide) (by decide)

/-- C19 (amended) at the sample request with the weights doubled. -/
theorem overall_score_scale_invariant_sample :
    (∀ p, ScoresInRange (sampleRequest "p1" "").Criteria p →
      |(individualResponse (scaleWeights (F64.ofInt 2) (sampleRequest "p1" ""))
            p).OverallScore.toRat
          - (individualResponse (sampleRequest "p1" "") p).OverallScore.toRat|
        ≤ rescalingBound (sampleRequest "p1" "").Criteria.length
      ∧ |(unifiedResponse (scaleWeights (F64.ofInt 2) (sampleRequest "p1" ""))
            p).OverallScore.toRat
          - (unifiedResponse (sampleRequest "p1" "") p).OverallScore.toRat|
        ≤ rescalingBound (sampleRequest "p1" "").Criteria.length)
    ∧ |(createFallbackResponse
          (scaleWeights (F64.ofInt 2) (sampleRequest "p1" ""))).OverallScore.toRat
        - (createFallbackResponse (sampleRequest "p1" "")).OverallScore.toRat|
      ≤ rescalingBound (sampleRequest "p1" "").Criteria.length :=
  overall_score_scale_invariant (F64.ofInt 2) (sampleRequest "p1" "") sampleCriteria_in_range
    sampleScaling_in_range

/-- C19 as stated fails: with the weights 0.2, 0.3, 0.5 and the scores 0, 4, 2 the overall
score is the `float64` 2.2; with every weight multiplied by k = 3 > 0 it is
2.1999999999999997. -/
theorem scaling_changes_score_by_rounding :
    F64.gt (F64.ofInt 3) (F64.zero false) = true
    ∧ (individualResponse (sampleRequest "p1" "") (sampleParticipant "p1")).OverallScore
      = F64.ofRatio 22 10
    ∧ (individualResponse (scaleWeights (F64.ofInt 3) (sampleRequest "p1" ""))
        (sampleParticipant "p1")).OverallScore
      = F64.ofRatio 21999999999999997 10000000000000000
    ∧ (individualResponse (scaleWeights (F64.ofInt 3) (sampleRequest "p1" ""))
        (sampleParticipant "p1")).OverallScore
      ≠ (individualResponse (sampleRequest "p1" "") (sampleParticipant "p1")).OverallScore := by
  refine ⟨by decide, ?_, ?_, ?_⟩
  · set_option maxRecDepth 100000 in decide
  · set_option maxRecDepth 100000 in decide
  · set_option maxRecDepth 100000 in decide

/-! ## Conversion of the group score to `int` -/

theorem floor_mag (x : F64) :
    ⌊x.mag⌋
      = (((if 0 ≤ x.ex then x.mant <<< x.ex.toNat else x.mant >>> (-x.ex).toNat) : Nat) : Int) := by
  unfold F64.mag
  by_cases h : 0 ≤ x.ex
  · rw [if_pos h, Nat.shiftLeft_eq]
    have hz : (2 : ℚ) ^ x.ex = ((2 ^ x.ex.toNat : Nat) : ℚ) := by
      push_cast
      rw [← zpow_natCast, Int.toNat_of_nonneg h]
    rw [hz, ← Nat.cast_mul]
    exact Int.floor_natCast _
  · rw [if_neg h, Nat.shiftRight_eq_div_pow]
    have hz : (2 : ℚ) ^ x.ex = 1 / ((2 ^ (-x.ex).toNat : Nat) : ℚ) := by
      push_cast
      rw [← zpow_natCast, Int.toNat_of_nonneg (by omega), zpow_neg]
      simp
    rw [hz, mul_one_div, Rat.floor_natCast_div_natCast]
    norm_cast

/-- Before the range check, the conversion computes the truncation of the value toward
zero. -/
theorem truncated_value (x : F64) :
    (if x.sign then -1 else 1)
        * (((if 0 ≤ x.ex then x.mant <<< x.ex.toNat else x.mant >>> (-x.ex).toNat) : Nat) : Int)
      = truncRat x.toRat := by
  rw [← floor_mag]
  have hm := F64.mag_nonneg x
  unfold truncRat F64.toRat
  cases hs : x.sign with
  | false => simp [hm]
  | true =>
    simp only [if_true]
    by_cases h0 : x.mag = 0
    · rw [h0]
      simp
    · have hpos : 0 < x.mag := lt_of_le_of_ne hm (Ne.symm h0)
      have hneg : ¬ (0 ≤ -x.mag) := by linarith
      rw [if_neg hneg, neg_neg]
      ring

/-- The conversion of a finite value whose truncation fits the 64-bit `int` is the
truncation toward zero. -/
theorem truncToInt_in_range (x : F64) (hf : x.isFinite = true)
    (hlo : -9223372036854775809 < x.toRat) (hhi : x.toRat < 9223372036854775808) :
    truncToInt x = truncRat x.toRat := by
  unfold truncToInt
  simp only
  rw [truncated_value]
  have hrange : -9223372036854775808 ≤ truncRat x.toRat
      ∧ truncRat x.toRat < 9223372036854775808 := by
    unfold truncRat
    by_cases h0 : 0 ≤ x.toRat
    · rw [if_pos h0]
      constructor
      · have : (0 : Int) ≤ ⌊x.toRat⌋ := Int.floor_nonneg.mpr h0
        omega
      · rw [Int.floor_lt]
        exact_mod_cast hhi
    · rw [if_neg h0]
      have h1 : (0 : Int) ≤ ⌊-x.toRat⌋ := Int.floor_nonneg.mpr (by linarith)
      have h2 : ⌊-x.toRat⌋ < 9223372036854775809 := by
        rw [Int.floor_lt]
        push_cast
        linarith
      constructor
      · omega
      · omega
  rw [if_pos ⟨hf, hrange⟩]

/-- The conversion of a finite value in [0, 6) is an integer from 0 to 5. -/
theorem truncToInt_small (x : F64) (hf : x.isFinite = true) (h0 : 0 ≤ x.toRat)
    (h6 : x.toRat < 6) : 0 ≤ truncToInt x ∧ truncToInt x ≤ 5 := by
  rw [truncToInt_in_range x hf (by linarith) (by linarith)]
  unfold truncRat
  rw [if_pos h0]
  constructor
  · exact Int.floor_nonneg.mpr h0
  · have : ⌊x.toRat⌋ < 6 := by
      rw [Int.floor_lt]
      exact_mod_cast h6
    omega

theorem parseGroupResponse_span
    (unmarshal : String → Except String (List (String × JSONValue)))
    (req : GroupAssessmentRequest) (llmResponse : String) (r : GroupAssessmentResponse)
    (h : parseGroupResponse unmarshal req llmResponse = .ok r) :
    r = groupResponseOf unmarshal req (groupJSONSpan llmResponse) := by
  unfold parseGroupResponse at h
  simp only at h
  split at h
  · cases h
  · split at h
    · cases h
    · simp only [Except.ok.injEq] at h
      exact h.symm

theorem ProcessGroupAssessment_span (env : Env)
    (unmarshal : String → Except String (List (String × JSONValue)))
    (s : LLMAssessmentService) (prompt : String) (req : GroupAssessmentRequest)
    (r : GroupAssessmentResponse)
    (h : (ProcessGroupAssessment env unmarshal s prompt req).1 = .ok r) :
    ∃ llmResponse,
      ((s.anthropicAPIKey ≠ "" ∧ callClaudeAPI env prompt = .ok llmResponse)
        ∨ (s.anthropicAPIKey = "" ∧ s.geminiAPIKey ≠ ""
            ∧ (callGeminiAPI env prompt).1 = .ok llmResponse))
      ∧ r = groupResponseOf unmarshal req (groupJSONSpan llmResponse) := by
  unfold ProcessGroupAssessment at h
  simp only at h
  split at h
  · rename_i ha
    cases hc : callClaudeAPI env prompt with
    | error err => rw [hc] at h; cases h
    | ok llm =>
      rw [hc] at h
      exact ⟨llm, Or.inl ⟨ha, rfl⟩, parseGroupResponse_span unmarshal req llm r h⟩
  · rename_i ha
    have ha1 : s.anthropicAPIKey = "" := by
      by_contra hne
      exact ha hne
    split at h
    · rename_i hg
      cases hc : (callGeminiAPI env prompt).1 with
      | error err => rw [hc] at h; cases h
      | ok llm =>
        rw [hc] at h
        exact ⟨llm, Or.inr ⟨ha1, hg, rfl⟩, parseGroupResponse_span unmarshal req llm r h⟩
    · cases h

/-- C23 (amended): every response of `ProcessGroupAssessment` is built from the text the
configured backend returned, cut from the first opening to the last closing brace of the
trimmed text. Its score is 0 when that text does not decode or its "score" field is absent
or not a number; otherwise it is the conversion `int(x)` of the number, which is the
number truncated toward zero whenever the truncation fits the 64-bit `int`, and so an
integer in 0..5 whenever the number lies in [0, 6). -/
theorem group_score_is_truncated_number (env : Env)
    (unmarshal : String → Except String (List (String × JSONValue)))
    (s : LLMAssessmentService) (prompt : String) (req : GroupAssessmentRequest)
    (r : GroupAssessmentResponse)
    (h : (ProcessGroupAssessment env unmarshal s prompt req).1 = .ok r) :
    ∃ llmResponse,
      ((s.anthropicAPIKey ≠ "" ∧ callClaudeAPI env prompt = .ok llmResponse)
        ∨ (s.anthropicAPIKey = "" ∧ s.geminiAPIKey ≠ ""
            ∧ (callGeminiAPI env prompt).1 = .ok llmResponse))
      ∧ r = groupResponseOf unmarshal req (groupJSONSpan llmResponse)
      ∧ (∀ err, unmarshal (groupJSONSpan llmResponse) = .error err → r.Score = 0)
      ∧ (∀ parsed, unmarshal (groupJSONSpan llmResponse) = .ok parsed →
          match (groupAssessmentObject parsed).lookup "score" with
          | some (.number scoreVal) =>
            r.Score = truncToInt scoreVal
            ∧ (scoreVal.isFinite = true → -9223372036854775809 < scoreVal.toRat →
                scoreVal.toRat < 9223372036854775808 → r.Score = truncRat scoreVal.toRat)
            ∧ (scoreVal.isFinite = true → 0 ≤ scoreVal.toRat → scoreVal.toRat < 6 →
                0 ≤ r.Score ∧ r.Score ≤ 5)
          | _ => r.Score = 0) := by
  obtain ⟨llm, hcall, rfl⟩ := ProcessGroupAssessment_span env unmarshal s prompt req r h
  refine ⟨llm, hcall, rfl, ?_, ?_⟩
  · intro err herr
    exact groupResponseOf_score_error unmarshal req _ err herr
  · intro parsed hparsed
    have hs := groupResponseOf_score_ok unmarshal req _ parsed hparsed
    split
    · rename_i scoreVal hlook
      rw [hlook] at hs
      simp only at hs
      refine ⟨hs, ?_, ?_⟩
      · intro hf hlo hhi
        rw [hs]
        exact truncToInt_in_range scoreVal hf hlo hhi
      · intro hf h0 h6
        rw [hs]
        exact truncToInt_small scoreVal hf h0 h6
    · rename_i hnot
      split at hs
      · rename_i scoreVal hlook
        exact absurd hlook (hnot scoreVal)
      · exact hs

/-- C23 (amended) at a concrete reply: Claude answers `Result: {"score": 4.7}`, the text
handed to the decoder is `{"score": 4.7}`, and the score is 4. -/
theorem group_score_is_truncated_number_sample :
    groupJSONSpan "Result: \x7b\"score\": 4.7\x7d" = "\x7b\"score\": 4.7\x7d"
    ∧ (groupResponseOf sampleScoreDecoder sampleGroupRequest
        (groupJSONSpan "Result: \x7b\"score\": 4.7\x7d")).Score = 4
    ∧ ∃ llmResponse,
      ((sampleService.anthropicAPIKey ≠ ""
          ∧ callClaudeAPI (sampleReplyEnv "Result: \x7b\"score\": 4.7\x7d") "prompt"
            = .ok llmResponse)
        ∨ (sampleService.anthropicAPIKey = "" ∧ sampleService.geminiAPIKey ≠ ""
            ∧ (callGeminiAPI (sampleReplyEnv "Result: \x7b\"score\": 4.7\x7d") "prompt").1
              = .ok llmResponse))
      ∧ groupResponseOf sampleScoreDecoder sampleGroupRequest
            (groupJSONSpan "Result: \x7b\"score\": 4.7\x7d")
          = groupResponseOf sampleScoreDecoder sampleGroupRequest (groupJSONSpan llmResponse)
      ∧ (∀ err, sampleScoreDecoder (groupJSONSpan llmResponse) = .error err →
          (groupResponseOf sampleScoreDecoder sampleGroupRequest
            (groupJSONSpan "Result: \x7b\"score\": 4.7\x7d")).Score = 0)
      ∧ (∀ parsed, sampleScoreDecoder (groupJSONSpan llmResponse) = .ok parsed →
          match (groupAssessmentObject parsed).lookup "score" with
          | some (.number scoreVal) =>
            (groupResponseOf sampleScoreDecoder sampleGroupRequest
              (groupJSONSpan "Result: \x7b\"score\": 4.7\x7d")).Score = truncToInt scoreVal
            ∧ (scoreVal.isFinite = true → -9223372036854775809 < scoreVal.toRat →
                scoreVal.toRat < 9223372036854775808 →
                (groupResponseOf sampleScoreDecoder sampleGroupRequest
                  (groupJSONSpan "Result: \x7b\"score\": 4.7\x7d")).Score
                  = truncRat scoreVal.toRat)
            ∧ (scoreVal.isFinite = true → 0 ≤ scoreVal.toRat → scoreVal.toRat < 6 →
                0 ≤ (groupResponseOf sampleScoreDecoder sampleGroupRequest
                  (groupJSONSpan "Result: \x7b\"score\": 4.7\x7d")).Score
                ∧ (groupResponseOf sampleScoreDecoder sampleGroupRequest
                  (groupJSONSpan "Result: \x7b\"score\": 4.7\x7d")).Score ≤ 5)
          | _ => (groupResponseOf sampleScoreDecoder sampleGroupRequest
              (groupJSONSpan "Result: \x7b\"score\": 4.7\x7d")).Score = 0) :=
  ⟨by decide, by set_option maxRecDepth 100000 in decide,
    group_score_is_truncated_number (sampleReplyEnv "Result: \x7b\"score\": 4.7\x7d")
      sampleScoreDecoder sampleService "prompt" sampleGroupRequest
      (groupResponseOf sampleScoreDecoder sampleGroupRequest
        (groupJSONSpan "Result: \x7b\"score\": 4.7\x7d")) rfl⟩

/-- C23 as stated fails: when Claude answers `Result: {"score": 7}`, the response of
`ProcessGroupAssessment` has the score 7, which is not in 0..5. -/
theorem group_score_can_exceed_five :
    (ProcessGroupAssessment (sampleReplyEnv "Result: \x7b\"score\": 7\x7d")
        sampleSevenDecoder sampleService "prompt" sampleGroupRequest).1.toOption.map
      (fun r => r.Score) = some 7
    ∧ ¬ ((0 : Int) ≤ 7 ∧ (7 : Int) ≤ 5) := by
  refine ⟨?_, by decide⟩
  set_option maxRecDepth 100000 in decide

/-- Outside the range of `int` the modelled conversion gives the smallest `int`:
`int(1e30)` is -9223372036854775808. -/
theorem truncToInt_out_of_range :
    truncToInt (F64.ofRatio 1000000000000000000000000000000 1) = -9223372036854775808 := by
  set_option maxRecDepth 100000 in decide

/-! ## The backend behind each entry point -/

theorem callClaudeAPI_congr (env env1 : Env) (prompt : String)
    (hpost : env1.post claudeURL prompt = env.post claudeURL prompt)
    (hdec : env1.decodeClaude = env.decodeClaude) :
    callClaudeAPI env1 prompt = callClaudeAPI env prompt := by
  unfold callClaudeAPI
  have hpost1 : env1.post "https://api.anthropic.com/v1/messages" prompt
      = env.post "https://api.anthropic.com/v1/messages" prompt := hpost
  rw [hpost1, hdec]

theorem callGeminiAPIWithURL_congr (env env1 : Env) (url prompt : String)
    (hpost : env1.post url prompt = env.post url prompt)
    (hdec : env1.decodeGemini = env.decodeGemini) :
    callGeminiAPIWithURL env1 url prompt = callGeminiAPIWithURL env url prompt := by
  unfold callGeminiAPIWithURL
  rw [hpost, hdec]

theorem geminiLoop_congr (env env1 : Env) (prompt : String)
    (hdec : env1.decodeGemini = env.decodeGemini) (ms : List String) :
    (∀ m ∈ ms, env1.post (geminiURL m) prompt = env.post (geminiURL m) prompt) →
    ∀ lastError, geminiLoop env1 prompt ms lastError = geminiLoop env prompt ms lastError := by
  induction ms with
  | nil =>
    intro _ lastError
    rfl
  | cons m rest ih =>
    intro hpost lastError
    have h1 := callGeminiAPIWithURL_congr env env1 (geminiURL m) prompt
      (hpost m (List.mem_cons_self m rest)) hdec
    have h2 := ih (fun x hx => hpost x (List.mem_cons_of_mem m hx))
    simp only [geminiLoop, h1, h2]

theorem callGeminiAPI_congr (env env1 : Env) (prompt : String)
    (hpost : ∀ m ∈ geminiModels, env1.post (geminiURL m) prompt = env.post (geminiURL m) prompt)
    (hdec : env1.decodeGemini = env.decodeGemini) :
    callGeminiAPI env1 prompt = callGeminiAPI env prompt :=
  geminiLoop_congr env env1 prompt hdec geminiModels hpost none

theorem ProcessAssessment_claude (env : Env) (s : LLMAssessmentService) (prompt : String)
    (req : AssessmentRequest) (ha : s.anthropicAPIKey ≠ "") :
    (∀ err, callClaudeAPI env prompt = .error err →
      ProcessAssessment env s prompt req
        = ⟨.error ("failed to call Claude API: " ++ err), s, ["claude"]⟩)
    ∧ (∀ text, callClaudeAPI env prompt = .ok text →
      ProcessAssessment env s prompt req
        = ⟨(parseAssessmentResponse env.unmarshalParticipants s text req).1.mapError
              (fun err => "failed to parse assessment response: " ++ err),
            (parseAssessmentResponse env.unmarshalParticipants s text req).2, ["claude"]⟩) := by
  constructor
  · intro err hc
    simp only [ProcessAssessment, ne_eq, ha, not_false_eq_true, if_true, hc]
  · intro text hc
    simp only [ProcessAssessment, ne_eq, ha, not_false_eq_true, if_true, hc]
    rcases hp : parseAssessmentResponse env.unmarshalParticipants s text req with ⟨r1, s1⟩
    cases r1 <;> rfl

theorem ProcessAssessment_gemini (env : Env) (s : LLMAssessmentService) (prompt : String)
    (req : AssessmentRequest) (ha : s.anthropicAPIKey = "") (hg : s.geminiAPIKey ≠ "") :
    (∀ err, (callGeminiAPI env prompt).1 = .error err →
      ProcessAssessment env s prompt req
        = ⟨.error ("failed to call Gemini API: " ++ err), s, (callGeminiAPI env prompt).2⟩)
    ∧ (∀ text, (callGeminiAPI env prompt).1 = .ok text →
      ProcessAssessment env s prompt req
        = ⟨(parseAssessmentResponse env.unmarshalParticipants s text req).1.mapError
              (fun err => "failed to parse assessment response: " ++ err),
            (parseAssessmentResponse env.unmarshalParticipants s text req).2,
            (callGeminiAPI env prompt).2⟩) := by
  constructor
  · intro err hc
    simp only [ProcessAssessment, ha, ne_eq, not_true_eq_false, if_false, hg, not_false_eq_true,
      if_true]
    rcases hcall : callGeminiAPI env prompt with ⟨r, calls⟩
    rw [hcall] at hc
    simp only at hc
    subst hc
    rfl
  · intro text hc
    simp only [ProcessAssessment, ha, ne_eq, not_true_eq_false, if_false, hg, not_false_eq_true,
      if_true]
    rcases hcall : callGeminiAPI env prompt with ⟨r, calls⟩
    rw [hcall] at hc
    simp only at hc
    subst hc
    simp only
    rcases hp : parseAssessmentResponse env.unmarshalParticipants s text req with ⟨r1, s1⟩
    cases r1 <;> rfl

theorem ProcessGroupAssessment_claude (env : Env)
    (unmarshal : String → Except String (List (String × JSONValue)))
    (s : LLMAssessmentService) (prompt : String) (req : GroupAssessmentRequest)
    (ha : s.anthropicAPIKey ≠ "") :
    (∀ err, callClaudeAPI env prompt = .error err →
      ProcessGroupAssessment env unmarshal s prompt req
        = (.error ("LLM API call failed: " ++ err), ["claude"]))
    ∧ (∀ text, callClaudeAPI env prompt = .ok text →
      ProcessGroupAssessment env unmarshal s prompt req
        = (parseGroupResponse unmarshal req text, ["claude"])) := by
  constructor
  · intro err hc
    simp only [ProcessGroupAssessment, ne_eq, ha, not_false_eq_true, if_true, hc]
  · intro text hc
    simp only [ProcessGroupAssessment, ne_eq, ha, not_false_eq_true, if_true, hc]

theorem ProcessGroupAssessment_gemini (env : Env)
    (unmarshal : String → Except String (List (String × JSONValue)))
    (s : LLMAssessmentService) (prompt : String) (req : GroupAssessmentRequest)
    (ha : s.anthropicAPIKey = "") (hg : s.geminiAPIKey ≠ "") :
    (∀ err, (callGeminiAPI env prompt).1 = .error err →
      ProcessGroupAssessment env unmarshal s prompt req
        = (.error ("LLM API call failed: " ++ err), (callGeminiAPI env prompt).2))
    ∧ (∀ text, (callGeminiAPI env prompt).1 = .ok text →
      ProcessGroupAssessment env unmarshal s prompt req
        = (parseGroupResponse unmarshal req text, (callGeminiAPI env prompt).2)) := by
  constructor
  · intro err hc
    simp only [ProcessGroupAssessment, ha, ne_eq, not_true_eq_false, if_false, hg,
      not_false_eq_true, if_true, hc]
  · intro text hc
    simp only [ProcessGroupAssessment, ha, ne_eq, not_true_eq_false, if_false, hg,
      not_false_eq_true, if_true, hc]

theorem IdentifySpeaker_claude (env : Env)
    (unmarshal : String → Option SpeakerIdentificationResponse) (s : LLMAssessmentService)
    (prompt : String) (req : SpeakerIdentificationRequest) (ha : s.anthropicAPIKey ≠ "") :
    (∀ err, callClaudeAPI env prompt = .error err →
      IdentifySpeaker env unmarshal s prompt req
        = (.error ("failed to call Claude API: " ++ err), ["claude"]))
    ∧ (∀ text, callClaudeAPI env prompt = .ok text →
      IdentifySpeaker env unmarshal s prompt req
        = ((parseSpeakerIdentificationResponse unmarshal text req.SpeakerID).mapError
              (fun err => "failed to parse speaker identification response: " ++ err),
            ["claude"])) := by
  have h1 : ¬ (s.anthropicAPIKey = "" ∧ s.geminiAPIKey = "") := fun h => ha h.1
  constructor
  · intro err hc
    unfold IdentifySpeaker
    rw [if_neg h1]
    simp only [if_pos ha, hc]
  · intro text hc
    unfold IdentifySpeaker
    rw [if_neg h1]
    simp only [if_pos ha, hc]
    cases parseSpeakerIdentificationResponse unmarshal text req.SpeakerID <;> rfl

theorem IdentifySpeaker_gemini (env : Env)
    (unmarshal : String → Option SpeakerIdentificationResponse) (s : LLMAssessmentService)
    (prompt : String) (req : SpeakerIdentificationRequest) (ha : s.anthropicAPIKey = "")
    (hg : s.geminiAPIKey ≠ "") :
    (∀ err, (callGeminiAPI env prompt).1 = .error err →
      IdentifySpeaker env unmarshal s prompt req
        = (.error ("failed to call Gemini API: " ++ err), (callGeminiAPI env prompt).2))
    ∧ (∀ text, (callGeminiAPI env prompt).1 = .ok text →
      IdentifySpeaker env unmarshal s prompt req
        = ((parseSpeakerIdentificationResponse unmarshal text req.SpeakerID).mapError
              (fun err => "failed to parse speaker identification response: " ++ err),
            (callGeminiAPI env prompt).2)) := by
  have h1 : ¬ (s.anthropicAPIKey = "" ∧ s.geminiAPIKey = "") := fun h => hg h.2
  have h2 : ¬ s.anthropicAPIKey ≠ "" := fun h => h ha
  constructor
  · intro err hc
    simp only [IdentifySpeaker, if_neg h1, if_neg h2]
    rcases hcall : callGeminiAPI env prompt with ⟨r, calls⟩
    rw [hcall] at hc
    simp only at hc
    subst hc
    rfl
  · intro text hc
    simp only [IdentifySpeaker, if_neg h1, if_neg h2]
    rcases hcall : callGeminiAPI env prompt with ⟨r, calls⟩
    rw [hcall] at hc
    simp only at hc
    subst hc
    simp only
    cases parseSpeakerIdentificationResponse unmarshal text req.SpeakerID <;> rfl

theorem entry_points_congr_claude (env env1 : Env) (s : LLMAssessmentService)
    (prompt : String) (unmarshalSpeaker : String → Option SpeakerIdentificationResponse)
    (unmarshalObject : String → Except String (List (String × JSONValue)))
    (req : AssessmentRequest) (reqS : SpeakerIdentificationRequest)
    (reqG : GroupAssessmentRequest) (ha : s.anthropicAPIKey ≠ "")
    (hpost : env1.post claudeURL prompt = env.post claudeURL prompt)
    (hdec : env1.decodeClaude = env.decodeClaude)
    (hu : env1.unmarshalParticipants = env.unmarshalParticipants) :
    ProcessAssessment env1 s prompt req = ProcessAssessment env s prompt req
    ∧ ProcessGroupAssessment env1 unmarshalObject s prompt reqG
        = ProcessGroupAssessment env unmarshalObject s prompt reqG
    ∧ IdentifySpeaker env1 unmarshalSpeaker s prompt reqS
        = IdentifySpeaker env unmarshalSpeaker s prompt reqS := by
  have hc := callClaudeAPI_congr env env1 prompt hpost hdec
  have h1 : ¬ (s.anthropicAPIKey = "" ∧ s.geminiAPIKey = "") := fun h => ha h.1
  refine ⟨?_, ?_, ?_⟩
  · unfold ProcessAssessment
    simp only [if_pos ha, hc, hu]
  · unfold ProcessGroupAssessment
    simp only [if_pos ha, hc]
  · unfold IdentifySpeaker
    rw [if_neg h1, if_neg h1]
    simp only [if_pos ha, hc]

theorem entry_points_congr_gemini (env env1 : Env) (s : LLMAssessmentService)
    (prompt : String) (unmarshalSpeaker : String → Option SpeakerIdentificationResponse)
    (unmarshalObject : String → Except String (List (String × JSONValue)))
    (req : AssessmentRequest) (reqS : SpeakerIdentificationRequest)
    (reqG : GroupAssessmentRequest) (ha : s.anthropicAPIKey = "") (hg : s.geminiAPIKey ≠ "")
    (hpost : ∀ m ∈ geminiModels, env1.post (geminiURL m) prompt = env.post (geminiURL m) prompt)
    (hdec : env1.decodeGemini = env.decodeGemini)
    (hu : env1.unmarshalParticipants = env.unmarshalParticipants) :
    ProcessAssessment env1 s prompt req = ProcessAssessment env s prompt req
    ∧ ProcessGroupAssessment env1 unmarshalObject s prompt reqG
        = ProcessGroupAssessment env unmarshalObject s prompt reqG
    ∧ IdentifySpeaker env1 unmarshalSpeaker s prompt reqS
        = IdentifySpeaker env unmarshalSpeaker s prompt reqS := by
  have hc := callGeminiAPI_congr env env1 prompt hpost hdec
  have h1 : ¬ (s.anthropicAPIKey = "" ∧ s.geminiAPIKey = "") := fun h => hg h.2
  have h2 : ¬ s.anthropicAPIKey ≠ "" := fun h => h ha
  refine ⟨?_, ?_, ?_⟩
  · unfold ProcessAssessment
    simp only [if_neg h2, if_pos hg, hc, hu]
  · unfold ProcessGroupAssessment
    simp only [if_neg h2, if_pos hg, hc]
  · unfold IdentifySpeaker
    rw [if_neg h1, if_neg h1]
    simp only [if_neg h2, hc]

/-- C11: the three entry points choose the backend from the configured keys only.
With a non-empty Anthropic key, whatever the Gemini key, the only backend called is Claude:
what is returned is made from the result of `callClaudeAPI` (its error wrapped, or its text
handed to the parser), and it is the same for every environment that answers alike on the
Claude endpoint, so no answer of a Gemini endpoint is ever consulted. With an empty
Anthropic key and a non-empty Gemini key the calls are those of `callGeminiAPI` (at least
one, none of them Claude), what is returned is made from its result, and no answer of the
Claude endpoint is consulted. With both keys empty the error "no LLM API key configured"
is returned and no backend is called. -/
theorem backend_chosen_from_keys (env : Env) (s : LLMAssessmentService) (prompt : String)
    (unmarshalSpeaker : String → Option SpeakerIdentificationResponse)
    (unmarshalObject : String → Except String (List (String × JSONValue)))
    (req : AssessmentRequest) (reqS : SpeakerIdentificationRequest)
    (reqG : GroupAssessmentRequest) :
    (s.anthropicAPIKey ≠ "" →
      (ProcessAssessment env s prompt req).calls = ["claude"]
      ∧ (ProcessGroupAssessment env unmarshalObject s prompt reqG).2 = ["claude"]
      ∧ (IdentifySpeaker env unmarshalSpeaker s prompt reqS).2 = ["claude"]
      ∧ (∀ err, callClaudeAPI env prompt = .error err →
          ProcessAssessment env s prompt req
            = ⟨.error ("failed to call Claude API: " ++ err), s, ["claude"]⟩
          ∧ ProcessGroupAssessment env unmarshalObject s prompt reqG
            = (.error ("LLM API call failed: " ++ err), ["claude"])
          ∧ IdentifySpeaker env unmarshalSpeaker s prompt reqS
            = (.error ("failed to call Claude API: " ++ err), ["claude"]))
      ∧ (∀ text, callClaudeAPI env prompt = .ok text →
          ProcessAssessment env s prompt req
            = ⟨(parseAssessmentResponse env.unmarshalParticipants s text req).1.mapError
                  (fun err => "failed to parse assessment response: " ++ err),
                (parseAssessmentResponse env.unmarshalParticipants s text req).2, ["claude"]⟩
          ∧ ProcessGroupAssessment env unmarshalObject s prompt reqG
            = (parseGroupResponse unmarshalObject reqG text, ["claude"])
          ∧ IdentifySpeaker env unmarshalSpeaker s prompt reqS
            = ((parseSpeakerIdentificationResponse unmarshalSpeaker text
                  reqS.SpeakerID).mapError
                  (fun err => "failed to parse speaker identification response: " ++ err),
                ["claude"]))
      ∧ (∀ env1 : Env, env1.post claudeURL prompt = env.post claudeURL prompt →
          env1.decodeClaude = env.decodeClaude →
          env1.unmarshalParticipants = env.unmarshalParticipants →
          ProcessAssessment env1 s prompt req = ProcessAssessment env s prompt req
          ∧ ProcessGroupAssessment env1 unmarshalObject s prompt reqG
              = ProcessGroupAssessment env unmarshalObject s prompt reqG
          ∧ IdentifySpeaker env1 unmarshalSpeaker s prompt reqS
              = IdentifySpeaker env unmarshalSpeaker s prompt reqS))
    ∧ (s.anthropicAPIKey = "" → s.geminiAPIKey ≠ "" →
      (ProcessAssessment env s prompt req).calls = (callGeminiAPI env prompt).2
      ∧ (ProcessGroupAssessment env unmarshalObject s prompt reqG).2
          = (callGeminiAPI env prompt).2
      ∧ (IdentifySpeaker env unmarshalSpeaker s prompt reqS).2 = (callGeminiAPI env prompt).2
      ∧ (callGeminiAPI env prompt).2 ≠ []
      ∧ "claude" ∉ (callGeminiAPI env prompt).2
      ∧ (∀ err, (callGeminiAPI env prompt).1 = .error err →
          ProcessAssessment env s prompt req
            = ⟨.error ("failed to call Gemini API: " ++ err), s, (callGeminiAPI env prompt).2⟩
          ∧ ProcessGroupAssessment env unmarshalObject s prompt reqG
            = (.error ("LLM API call failed: " ++ err), (callGeminiAPI env prompt).2)
          ∧ IdentifySpeaker env unmarshalSpeaker s prompt reqS
            = (.error ("failed to call Gemini API: " ++ err), (callGeminiAPI env prompt).2))
      ∧ (∀ text, (callGeminiAPI env prompt).1 = .ok text →
          ProcessAssessment env s prompt req
            = ⟨(parseAssessmentResponse env.unmarshalParticipants s text req).1.mapError
                  (fun err => "failed to parse assessment response: " ++ err),
                (parseAssessmentResponse env.unmarshalParticipants s text req).2,
                (callGeminiAPI env prompt).2⟩
          ∧ ProcessGroupAssessment env unmarshalObject s prompt reqG
            = (parseGroupResponse unmarshalObject reqG text, (callGeminiAPI env prompt).2)
          ∧ IdentifySpeaker env unmarshalSpeaker s prompt reqS
            = ((parseSpeakerIdentificationResponse unmarshalSpeaker text
                  reqS.SpeakerID).mapError
                  (fun err => "failed to parse speaker identification response: " ++ err),
                (callGeminiAPI env prompt).2))
      ∧ (∀ env1 : Env,
          (∀ m ∈ geminiModels,
            env1.post (geminiURL m) prompt = env.post (geminiURL m) prompt) →
          env1.decodeGemini = env.decodeGemini →
          env1.unmarshalParticipants = env.unmarshalParticipants →
          ProcessAssessment env1 s prompt req = ProcessAssessment env s prompt req
          ∧ ProcessGroupAssessment env1 unmarshalObject s prompt reqG
              = ProcessGroupAssessment env unmarshalObject s prompt reqG
          ∧ IdentifySpeaker env1 unmarshalSpeaker s prompt reqS
              = IdentifySpeaker env unmarshalSpeaker s prompt reqS))
    ∧ (s.anthropicAPIKey = "" → s.geminiAPIKey = "" →
      ((ProcessAssessment env s prompt req).result = .error "no LLM API key configured"
        ∧ (ProcessAssessment env s prompt req).calls = [])
      ∧ ProcessGroupAssessment env unmarshalObject s prompt reqG
          = (.error "no LLM API key configured", [])
      ∧ IdentifySpeaker env unmarshalSpeaker s prompt reqS
          = (.error "no LLM API key configured", [])) := by
  refine ⟨?_, ?_, ?_⟩
  · intro ha
    refine ⟨ProcessAssessment_claude_calls env s prompt req ha, ?_,
      IdentifySpeaker_claude_calls env unmarshalSpeaker s prompt reqS ha, ?_, ?_, ?_⟩
    · simp only [ProcessGroupAssessment, ne_eq, ha, not_false_eq_true, if_true]
      cases callClaudeAPI env prompt <;> rfl
    · intro err hc
      exact ⟨(ProcessAssessment_claude env s prompt req ha).1 err hc,
        (ProcessGroupAssessment_claude env unmarshalObject s prompt reqG ha).1 err hc,
        (IdentifySpeaker_claude env unmarshalSpeaker s prompt reqS ha).1 err hc⟩
    · intro text hc
      exact ⟨(ProcessAssessment_claude env s prompt req ha).2 text hc,
        (ProcessGroupAssessment_claude env unmarshalObject s prompt reqG ha).2 text hc,
        (IdentifySpeaker_claude env unmarshalSpeaker s prompt reqS ha).2 text hc⟩
    · intro env1 hpost hdec hu
      exact entry_points_congr_claude env env1 s prompt unmarshalSpeaker unmarshalObject
        req reqS reqG ha hpost hdec hu
  · intro ha hg
    refine ⟨ProcessAssessment_gemini_calls env s prompt req ha hg, ?_,
      IdentifySpeaker_gemini_calls env unmarshalSpeaker s prompt reqS ha hg,
      callGeminiAPI_calls_ne_nil env prompt, callGeminiAPI_calls_not_claude env prompt,
      ?_, ?_, ?_⟩
    · simp only [ProcessGroupAssessment, ha, ne_eq, not_true_eq_false, if_false, hg,
        not_false_eq_true, if_true]
      cases (callGeminiAPI env prompt).1 <;> rfl
    · intro err hc
      exact ⟨(ProcessAssessment_gemini env s prompt req ha hg).1 err hc,
        (ProcessGroupAssessment_gemini env unmarshalObject s prompt reqG ha hg).1 err hc,
        (IdentifySpeaker_gemini env unmarshalSpeaker s prompt reqS ha hg).1 err hc⟩
    · intro text hc
      exact ⟨(ProcessAssessment_gemini env s prompt req ha hg).2 text hc,
        (ProcessGroupAssessment_gemini env unmarshalObject s prompt reqG ha hg).2 text hc,
        (IdentifySpeaker_gemini env unmarshalSpeaker s prompt reqS ha hg).2 text hc⟩
    · intro env1 hpost hdec hu
      exact entry_points_congr_gemini env env1 s prompt unmarshalSpeaker unmarshalObject
        req reqS reqG ha hg hpost hdec hu
  · intro ha hg
    refine ⟨⟨?_, ?_⟩, ?_, ?_⟩
    · simp [ProcessAssessment, ha, hg]
    · simp [ProcessAssessment, ha, hg]
    · simp [ProcessGroupAssessment, ha, hg]
    · simp [IdentifySpeaker, ha, hg]

/-! ## Weights and factors outside the stated ranges -/

/-- Weights whose sums overflow: with two finite weights 2^1023 and the scores 5 and 5 both
sums of the scoring loop are +Inf and the overall score is NaN, on the parser's path and in
the fallback response of a transcript of 60 words. -/
theorem overall_score_overflows :
    (∀ c ∈ hugeCriteria, c.Weight.isFinite = true ∧ F64.gt c.Weight (F64.zero false) = true)
    ∧ (individualResponse { sampleRequest "p1" "" with Criteria := hugeCriteria }
        sampleFivesParticipant).OverallScore = F64.nan
    ∧ (createFallbackResponse
        { sampleRequest "p1" (wordsTranscript 60) with Criteria := hugeCriteria }).OverallScore
      = F64.nan := by
  refine ⟨by decide, ?_, ?_⟩
  · set_option maxRecDepth 100000 in decide
  · set_option maxRecDepth 100000 in decide

/-- Rescaling out of range changes the overall score. With two weights 2^999 and the scores
5 and 5 the score is 5, and NaN after multiplying the weights by 2^30, which overflows;
with two weights 2^-1074 it is 5, and 0 after multiplying the weights by 1/2, which rounds
them to 0; with the weight -1 and the score 4 the sum of the weights is not positive, the
sum is not divided, and the score is -4, and -8 after doubling the weight. -/
theorem scaling_out_of_range_changes_score :
    ((individualResponse { sampleRequest "p1" "" with Criteria := largeCriteria }
        sampleFivesParticipant).OverallScore = F64.ofInt 5
      ∧ (individualResponse (scaleWeights (F64.ofInt 1073741824)
          { sampleRequest "p1" "" with Criteria := largeCriteria })
        sampleFivesParticipant).OverallScore = F64.nan)
    ∧ ((individualResponse { sampleRequest "p1" "" with Criteria := tinyCriteria }
        sampleFivesParticipant).OverallScore = F64.ofInt 5
      ∧ (individualResponse (scaleWeights (F64.ofRatio 1 2)
          { sampleRequest "p1" "" with Criteria := tinyCriteria })
        sampleFivesParticipant).OverallScore = F64.zero false)
    ∧ ((individualResponse { sampleRequest "p1" "" with Criteria := negativeCriteria }
        (sampleParticipant "p1")).OverallScore = F64.ofInt (-4)
      ∧ (individualResponse (scaleWeights (F64.ofInt 2)
          { sampleRequest "p1" "" with Criteria := negativeCriteria })
        (sampleParticipant "p1")).OverallScore = F64.ofInt (-8)) := by
  refine ⟨⟨?_, ?_⟩, ⟨?_, ?_⟩, ⟨?_, ?_⟩⟩
  · set_option maxRecDepth 100000 in decide
  · set_option maxRecDepth 100000 in decide
  · set_option maxRecDepth 100000 in decide
  · set_option maxRecDepth 100000 in decide
  · set_option maxRecDepth 100000 in decide
  · set_option maxRecDepth 100000 in decide

end Assessment
